import Mathlib

/-!
# Issue collection of `build-add-git` (artifactory/commands/buildinfo/addgit.go)

A shallow embedding of the issue-collection code of `addgit.go`:

* Go `string` is `String`, Go `int` is `Int` (all integers that occur are lengths,
  the constant log limit and values produced by `strconv.Atoi`, so no arithmetic
  can overflow), a Go slice is a `List`.
* A Go call that returns `(value, error)` returns a `Res`, which also has a case
  for a run-time panic (indexing a slice out of range).
* Calls that leave the program (the file system, the process table, the network,
  the regular-expression engine) are answered by an `Env`; every such call is
  recorded in the `trace` of the `World`, which also holds the working directory.
-/

set_option autoImplicit false

namespace AddGit

/-! ## Errors and results -/

/-- Go `error` values that occur in `addgit.go`. `RevisionRangeError` is the one
error type the code tells apart by a type assertion; every other error is an
`errorString` carrying its message. -/
inductive GoError where
  | errorString (msg : String)
  | RevisionRangeError (ErrorMsg : String)
  deriving DecidableEq, Repr

/-- The method `Error()` of a Go error. -/
def GoError.Error : GoError → String
  | .errorString msg => msg
  | .RevisionRangeError ErrorMsg => ErrorMsg

/-- The type assertion `err.(RevisionRangeError)`. -/
def GoError.isRevisionRangeError : GoError → Bool
  | .RevisionRangeError _ => true
  | .errorString _ => false

/-- Result of a Go call: a value, a returned error, or a run-time panic. -/
inductive Res (α : Type) where
  | ok (a : α)
  | error (e : GoError)
  | panic (msg : String)
  deriving DecidableEq, Repr

/-- Whether the call returned a non-nil error. -/
def Res.isError {α : Type} : Res α → Bool
  | .error _ => true
  | _ => false

/-! ## Library functions used by the code (Go standard library, jfrog-client-go) -/

/-- `fmt.Sprintf` restricted to the verb `%s`: every `%s` of the format is replaced
by the next argument. -/
def sprintfAux : List Char → List String → List Char
  | '%' :: 's' :: rest, a :: as => a.data ++ sprintfAux rest as
  | c :: rest, as => c :: sprintfAux rest as
  | [], _ => []

/-- `fmt.Sprintf(format, a...)` for string arguments. -/
def Sprintf (format : String) (a : List String) : String :=
  ⟨sprintfAux format.data a⟩

/-- `errorutils.CheckErrorf(format, a...)`: the error whose message is the formatted
text. -/
def CheckErrorf (format : String) (a : List String) : GoError :=
  .errorString (Sprintf format a)

/-- `errorutils.CheckError(err)` returns the error it is given. -/
def CheckError (err : GoError) : GoError := err

/-- `strconv.NumError`: the function, the input and the reason of a failed
conversion. -/
structure NumError where
  Func : String
  Num : String
  Err : String
  deriving DecidableEq, Repr

/-- Result of a `strconv` conversion: the value, or the `*NumError` returned together
with the value that accompanies it. -/
inductive Conv (α : Type) where
  | ok (a : α)
  | error (a : α) (e : NumError)
  deriving DecidableEq, Repr

/-- `NumError.Error()`; `Quote` is `strconv.Quote`. -/
def NumError.Error (Quote : String → String) (e : NumError) : String :=
  "strconv." ++ e.Func ++ ": parsing " ++ Quote e.Num ++ ": " ++ e.Err

/-- The decimal digit of a character, if it is one. -/
def digitOf (c : Char) : Option Nat :=
  if '0' ≤ c ∧ c ≤ '9' then some (c.toNat - '0'.toNat) else none

/-- The loop of `strconv.ParseUint(s, 10, 64)` over the characters of `s`, with
accumulator `n`: `inl true` is a syntax error, `inl false` a range error. -/
def parseUintLoop : List Char → Nat → Sum Bool Nat
  | [], n => .inr n
  | c :: cs, n =>
    match digitOf c with
    | none => .inl true
    | some d =>
      if n ≥ (2 ^ 64 - 1) / 10 + 1 then .inl false
      else
        let n1 := n * 10 + d
        if n1 > 2 ^ 64 - 1 then .inl false else parseUintLoop cs n1

/-- `strconv.Atoi` on a 64-bit platform: an optional sign followed by at least one
decimal digit, the value within the range of `int`. -/
def Atoi (s : String) : Conv Int :=
  let body : List Char :=
    match s.data with
    | '-' :: r => r
    | '+' :: r => r
    | r => r
  let neg : Bool :=
    match s.data with
    | '-' :: _ => true
    | _ => false
  if body = [] then .error 0 ⟨"Atoi", s, "invalid syntax"⟩
  else
    match parseUintLoop body 0 with
    | .inl true => .error 0 ⟨"Atoi", s, "invalid syntax"⟩
    | .inl false =>
      .error (if neg then -(2 ^ 63 : Int) else 2 ^ 63 - 1) ⟨"Atoi", s, "value out of range"⟩
    | .inr un =>
      if !neg && un ≥ 2 ^ 63 then .error (2 ^ 63 - 1) ⟨"Atoi", s, "value out of range"⟩
      else if neg && un > 2 ^ 63 then .error (-(2 ^ 63 : Int)) ⟨"Atoi", s, "value out of range"⟩
      else .ok (if neg then -(un : Int) else (un : Int))

/-- `strconv.ParseBool`. -/
def ParseBool (str : String) : Conv Bool :=
  if str = "1" ∨ str = "t" ∨ str = "T" ∨ str = "TRUE" ∨ str = "true" ∨ str = "True" then
    .ok true
  else if str = "0" ∨ str = "f" ∨ str = "F" ∨ str = "FALSE" ∨ str = "false" ∨ str = "False" then
    .ok false
  else .error false ⟨"ParseBool", str, "invalid syntax"⟩

/-- `strconv.Itoa`: the decimal text of an integer. -/
def Itoa (n : Int) : String := toString n

/-- `strings.HasSuffix(url, "/")`. -/
def hasSlashSuffix (url : String) : Bool :=
  url.data.getLast? = some '/'

/-- `clientutils.AddTrailingSlashIfNeeded`: appends `/` to a non-empty URL that does
not end in one. -/
def AddTrailingSlashIfNeeded (url : String) : String :=
  if url ≠ "" ∧ ¬ hasSlashSuffix url then url ++ "/" else url

/-! ## Data model -/

/-- `buildinfo.AffectedIssue`. -/
structure AffectedIssue where
  Key : String
  Summary : String
  Url : String
  Aggregated : Bool
  deriving DecidableEq, Repr

/-- `buildinfo.Vcs`. -/
structure Vcs where
  Url : String
  Revision : String
  Branch : String
  Message : String
  deriving DecidableEq, Repr

/-- `buildinfo.BuildInfo`, reduced to the field the code reads. -/
structure BuildInfo where
  VcsList : List Vcs
  deriving DecidableEq, Repr

/-- `utilsconfig.ServerDetails`, reduced to its identity and address. -/
structure ServerDetails where
  ServerId : String
  ArtifactoryUrl : String
  deriving DecidableEq, Repr

/-- The services manager built by `utils.CreateServiceManager`: it remembers the
server details it was created for. -/
structure ServiceManager where
  ServerDetails : Option ServerDetails
  deriving DecidableEq, Repr

/-- `IssuesConfiguration`; the pointer field `ServerDetails` may be nil. -/
structure IssuesConfiguration where
  ServerDetails : Option ServerDetails
  Regexp : String
  LogLimit : Int
  TrackerUrl : String
  TrackerName : String
  KeyGroupIndex : Int
  SummaryGroupIndex : Int
  Aggregate : Bool
  AggregationStatus : String
  ServerID : String
  deriving DecidableEq, Repr

/-- The value allocated by `new(IssuesConfiguration)`: every field is zero. -/
def IssuesConfiguration.new : IssuesConfiguration :=
  { ServerDetails := none, Regexp := "", LogLimit := 0, TrackerUrl := "", TrackerName := "",
    KeyGroupIndex := 0, SummaryGroupIndex := 0, Aggregate := false, AggregationStatus := "",
    ServerID := "" }

/-- `BuildAddGitCommand`; `buildConfiguration` is answered by the environment, the
pointer field `issuesConfig` may be nil. -/
structure BuildAddGitCommand where
  dotGitPath : String
  configFilePath : String
  serverId : String
  issuesConfig : Option IssuesConfiguration
  deriving DecidableEq, Repr

/-- `LogCmd`. -/
structure LogCmd where
  logLimit : Int
  lastVcsRevision : String
  deriving DecidableEq, Repr

/-- The configuration document held by a `viper.Viper` after `utils.ReadConfigFile`:
the `issues` section when the document has one, as the list of its entries, each
under its full key (`issues.trackerName`, ...) with the value as `GetString` renders
it. -/
structure Viper where
  issues : Option (List (String × String))
  deriving DecidableEq, Repr

/-- `vConfig.IsSet(key)` for the key `issues` and the keys below it. -/
def Viper.IsSet (vConfig : Viper) (key : String) : Bool :=
  if key = "issues" then vConfig.issues.isSome
  else
    match vConfig.issues with
    | none => false
    | some entries => (entries.lookup key).isSome

/-- `vConfig.GetString(key)`: the value of the key, the empty string when unset. -/
def Viper.GetString (vConfig : Viper) (key : String) : String :=
  match vConfig.issues with
  | none => ""
  | some entries => (entries.lookup key).getD ""

/-- A compiled `*regexp.Regexp`, as its method `FindStringSubmatch`: `none` when the
line does not match, otherwise the whole match followed by the captured groups. -/
abbrev RegExp := String → Option (List String)

/-! ## The world outside the program -/

/-- A call that leaves the program. -/
inductive Event where
  | LookPath (file : String)
  | ReadConfigFile (path : String)
  | GetSpecificConfig (serverId : String)
  | CreateServiceManager
  | GetBuildName
  | GetBuildInfo (buildName : String)
  | GetRegExp (pattern : String)
  | Getwd
  | Chdir (dir : String)
  | RunCmd (args : List String)
  deriving DecidableEq, Repr

/-- Process state: the working directory and the calls made so far, oldest first. -/
structure World where
  cwd : String
  trace : List Event
  deriving DecidableEq, Repr

/-- Appends a call to the trace. -/
def World.record (w : World) (e : Event) : World :=
  { w with trace := w.trace ++ [e] }

/-- Answers of the outside world to the calls the code makes. -/
structure Env where
  /-- Answer of `exec.LookPath`. -/
  LookPath : String → Except GoError String
  /-- Answer of `utils.ReadConfigFile(path, utils.YAML)`. -/
  ReadConfigFile : String → Except GoError Viper
  /-- Answer of `utilsconfig.GetSpecificConfig(serverId, true, false)`. -/
  GetSpecificConfig : String → Except GoError ServerDetails
  /-- Answer of `utils.CreateServiceManager(details, -1, 0, false)`. -/
  CreateServiceManager : Option ServerDetails → Except GoError ServiceManager
  /-- Answer of `buildConfiguration.GetBuildName()`. -/
  GetBuildName : Except GoError String
  /-- Answer of `sm.GetBuildInfo` for the latest build of a build name: the published
  build info and the flag `found`. -/
  GetBuildInfo : ServiceManager → String → Except GoError (BuildInfo × Bool)
  /-- Answer of `clientutils.GetRegExp`. -/
  GetRegExp : String → Except GoError RegExp
  /-- Error of `os.Getwd`, if it fails. -/
  GetwdErr : Option GoError
  /-- Error of `os.Chdir(dir)`, if it fails. -/
  ChdirErr : String → Option GoError
  /-- Answer of starting the command with these arguments: the spawn error, or the
  lines the process prints and whether it exits successfully. -/
  Spawn : List String → Except GoError (List String × Bool)
  /-- Function `strconv.Quote`. -/
  Quote : String → String

/-- `os.Getwd()`. -/
def Getwd (env : Env) (w : World) : Except GoError String × World :=
  match env.GetwdErr with
  | some err => (.error err, w.record .Getwd)
  | none => (.ok w.cwd, w.record .Getwd)

/-- `os.Chdir(dir)`. -/
def Chdir (env : Env) (dir : String) (w : World) : Option GoError × World :=
  match env.ChdirErr dir with
  | some err => (some err, w.record (.Chdir dir))
  | none => (none, { (w.record (.Chdir dir)) with cwd := dir })

/-! ## The code of `addgit.go` -/

def GitLogLimit : Int := 100
def ConfigIssuesPrefix : String := "issues."
def ConfigParseValueError : String := "Failed parsing %s from configuration file: %s"
def MissingConfigurationError : String := "Configuration file must contain: %s"

/-- `CmdOutputPattern` of gofrog: a compiled pattern and the reaction run on a match.
The reaction receives `pattern.MatchedResults` and the slice its closure shares
(`*foundIssues`), and returns the replacement line and the slice afterwards. -/
structure CmdOutputPattern where
  RegExp : RegExp
  ExecFunc : List String → List AffectedIssue → Res String × List AffectedIssue

/-- Slice indexing `xs[i]` with a Go `int`: `none` stands for the run-time panic. -/
def index (xs : List String) (i : Int) : Option String :=
  if i < 0 then none else xs[i.toNat]?

/-- The message of the error returned for a match with too few groups. -/
def malformedPatternMsg : String :=
  "unexpected result while parsing issues from git log. Make sure that the regular expression used to find issues, includes two capturing groups, for the issue ID and the summary"

/-- The `ExecFunc` closure of `createLogRegExpHandler`. -/
def logExecFunc (issuesConfig : IssuesConfiguration) (MatchedResults : List String)
    (foundIssues : List AffectedIssue) : Res String × List AffectedIssue :=
  -- Check for out of bound results.
  if (MatchedResults.length : Int) - 1 < issuesConfig.KeyGroupIndex
      ∨ (MatchedResults.length : Int) - 1 < issuesConfig.SummaryGroupIndex then
    (.error (.errorString malformedPatternMsg), foundIssues)
  else
    -- Create found Affected Issue.
    match index MatchedResults issuesConfig.KeyGroupIndex,
        index MatchedResults issuesConfig.SummaryGroupIndex with
    | some key, some summary =>
      let foundIssue : AffectedIssue :=
        { Key := key, Summary := summary, Url := "", Aggregated := false }
      let foundIssue : AffectedIssue :=
        if issuesConfig.TrackerUrl ≠ "" then
          { foundIssue with Url := issuesConfig.TrackerUrl ++ key }
        else foundIssue
      (.ok "", foundIssues ++ [foundIssue])
    | _, _ => (.panic "index out of range", foundIssues)

/-- `createLogRegExpHandler`. -/
def createLogRegExpHandler (env : Env) (issuesConfig : IssuesConfiguration) :
    Except GoError CmdOutputPattern :=
  match env.GetRegExp issuesConfig.Regexp with
  | .error err => .error err
  | .ok issueRegexp => .ok { RegExp := issueRegexp, ExecFunc := logExecFunc issuesConfig }

/-- The pattern of the diagnostic git prints for a revision range it cannot resolve. -/
def invalidRangePattern : String := "fatal: Invalid revision range [a-fA-F0-9]+\\.\\."

/-- The `ExecFunc` closure of `createErrRegExpHandler`. -/
def errExecFunc (lastVcsRevision : String) (_MatchedResults : List String)
    (foundIssues : List AffectedIssue) : Res String × List AffectedIssue :=
  let errMsg := "Revision: '" ++ lastVcsRevision ++ "' that was fetched from latest build info does not exist in the git revision range. No new issues are added."
  (.error (.RevisionRangeError errMsg), foundIssues)

/-- `createErrRegExpHandler`. -/
def createErrRegExpHandler (env : Env) (lastVcsRevision : String) :
    Except GoError CmdOutputPattern :=
  match env.GetRegExp invalidRangePattern with
  | .error err => .error err
  | .ok invalidRangeExp => .ok { RegExp := invalidRangeExp, ExecFunc := errExecFunc lastVcsRevision }

/-- `LogCmd.GetCmd`: the argument list handed to `exec.Command`. -/
def LogCmd.GetCmd (logCmd : LogCmd) : List String :=
  let cmd : List String := []
  let cmd := cmd ++ ["git"]
  let cmd := cmd ++ ["log", "--pretty=format:%s", "-" ++ Itoa logCmd.logLimit]
  let cmd := if logCmd.lastVcsRevision ≠ "" then cmd ++ [logCmd.lastVcsRevision ++ ".."] else cmd
  cmd

/-- Modelled from the spec: one output line is tested against the dispatchers in
order; a dispatcher whose pattern matches runs its reaction on the captured groups,
and a reaction that fails ends the evaluation (sections 4.1 and 4.5). The runner
itself, `RunCmdWithOutputParser` of gofrog, is not among the sources. -/
def evalLine (line : String) :
    List CmdOutputPattern → List AffectedIssue → Res Unit × List AffectedIssue
  | [], foundIssues => (.ok (), foundIssues)
  | regExp :: rest, foundIssues =>
    match regExp.RegExp line with
    | none => evalLine line rest foundIssues
    | some MatchedResults =>
      match regExp.ExecFunc MatchedResults foundIssues with
      | (.ok _, foundIssues) => evalLine line rest foundIssues
      | (.error err, foundIssues) => (.error err, foundIssues)
      | (.panic msg, foundIssues) => (.panic msg, foundIssues)

/-- Modelled from the spec: the output lines are consumed serially, in the order the
process printed them, until a reaction fails (section 4.5). -/
def evalLines :
    List String → List CmdOutputPattern → List AffectedIssue → Res Unit × List AffectedIssue
  | [], _, foundIssues => (.ok (), foundIssues)
  | line :: lines, regExpStruct, foundIssues =>
    match evalLine line regExpStruct foundIssues with
    | (.ok _, foundIssues) => evalLines lines regExpStruct foundIssues
    | (.error err, foundIssues) => (.error err, foundIssues)
    | (.panic msg, foundIssues) => (.panic msg, foundIssues)

/-- Modelled from the spec: what the stream runner reports for a command (section
4.5): the error of the spawn, or the error of the reaction that ended the stream, or
`exitOk` of the process; together with the shared slice afterwards. -/
def runStream (env : Env) (cmd : List String) (regExpStruct : List CmdOutputPattern)
    (foundIssues : List AffectedIssue) : Res Bool × List AffectedIssue :=
  match env.Spawn cmd with
  | .error err => (.error err, foundIssues)
  | .ok (lines, exitOk) =>
    match evalLines lines regExpStruct foundIssues with
    | (.ok _, foundIssues) => (.ok exitOk, foundIssues)
    | (.error err, foundIssues) => (.error err, foundIssues)
    | (.panic msg, foundIssues) => (.panic msg, foundIssues)

/-- Modelled from the spec: `gofrogcmd.RunCmdWithOutputParser` (not among the
sources) spawns the command and streams its lines through the dispatchers; the call
is recorded in the trace. -/
def RunCmdWithOutputParser (env : Env) (cmd : List String) (regExpStruct : List CmdOutputPattern)
    (foundIssues : List AffectedIssue) (w : World) :
    Res Bool × List AffectedIssue × World :=
  ((runStream env cmd regExpStruct foundIssues).1,
    (runStream env cmd regExpStruct foundIssues).2, w.record (.RunCmd cmd))

/-- The part of `DoCollect` after `defer os.Chdir(wd)` is registered. -/
def DoCollect.body (env : Env) (config : BuildAddGitCommand) (logCmd : LogCmd)
    (logRegExp errRegExp : CmdOutputPattern) (foundIssues : List AffectedIssue) (w : World) :
    Res (List AffectedIssue) × World :=
  match Chdir env config.dotGitPath w with
  | (some err, w) => (.error err, w)
  | (none, w) =>
    -- Run git command.
    match RunCmdWithOutputParser env logCmd.GetCmd [logRegExp, errRegExp] foundIssues w with
    | (.panic msg, _, w) => (.panic msg, w)
    | (.error err, _, w) =>
      if err.isRevisionRangeError then
        -- Revision not found in range. Ignore and don't collect new issues.
        (.ok [], w)
      else (.error (CheckError err), w)
    | (.ok exitOk, foundIssues, w) =>
      if !exitOk then
        (.error (CheckErrorf "failed executing git log command" []), w)
      else
        -- Return found issues.
        (.ok foundIssues, w)

/-- `BuildAddGitCommand.DoCollect`. -/
def DoCollect (env : Env) (config : BuildAddGitCommand) (issuesConfig : IssuesConfiguration)
    (lastVcsRevision : String) (w : World) : Res (List AffectedIssue) × World :=
  let foundIssues : List AffectedIssue := []
  let w := w.record (.GetRegExp issuesConfig.Regexp)
  match createLogRegExpHandler env issuesConfig with
  | .error err => (.error err, w)
  | .ok logRegExp =>
    let w := w.record (.GetRegExp invalidRangePattern)
    match createErrRegExpHandler env lastVcsRevision with
    | .error err => (.error err, w)
    | .ok errRegExp =>
      -- Get log with limit, starting from the latest commit.
      let logCmd : LogCmd :=
        { logLimit := issuesConfig.LogLimit, lastVcsRevision := lastVcsRevision }
      -- Change working dir to where .git is.
      match Getwd env w with
      | (.error err, w) => (.error err, w)
      | (.ok wd, w) =>
        let (result, w) := DoCollect.body env config logCmd logRegExp errRegExp foundIssues w
        -- defer os.Chdir(wd)
        (result, (Chdir env wd w).2)

/-- The last step of `populateIssuesConfigsFromSpec`: the aggregation status, and the
return without error. -/
def populateAggregationStatus (vConfig : Viper) (ic : IssuesConfiguration) :
    Option GoError × IssuesConfiguration :=
  -- Get aggregation status
  let ic := { ic with AggregationStatus := if vConfig.IsSet (ConfigIssuesPrefix ++ "aggregationStatus") then
      vConfig.GetString (ConfigIssuesPrefix ++ "aggregationStatus") else ic.AggregationStatus }
  (none, ic)

/-- The part of `populateIssuesConfigsFromSpec` after the configuration file is read:
the returned error (if any) and the receiver `ic` as the method leaves it. -/
def populateFromViper (env : Env) (vConfig : Viper) (ic : IssuesConfiguration) :
    Option GoError × IssuesConfiguration :=
  -- Validate that the config contains issues.
  if !vConfig.IsSet "issues" then
    (some (CheckErrorf MissingConfigurationError ["issues"]), ic)
  else
  -- Get server-id.
  let ic := { ic with ServerID := if vConfig.IsSet (ConfigIssuesPrefix ++ "serverID") then
      vConfig.GetString (ConfigIssuesPrefix ++ "serverID") else ic.ServerID }
  -- Set log limit.
  let ic := { ic with LogLimit := GitLogLimit }
  -- Get tracker data
  if !vConfig.IsSet (ConfigIssuesPrefix ++ "trackerName") then
    (some (CheckErrorf MissingConfigurationError [ConfigIssuesPrefix ++ "trackerName"]), ic)
  else
  let ic := { ic with TrackerName := vConfig.GetString (ConfigIssuesPrefix ++ "trackerName") }
  -- Get issues pattern
  if !vConfig.IsSet (ConfigIssuesPrefix ++ "regexp") then
    (some (CheckErrorf MissingConfigurationError [ConfigIssuesPrefix ++ "regexp"]), ic)
  else
  let ic := { ic with Regexp := vConfig.GetString (ConfigIssuesPrefix ++ "regexp") }
  -- Get issues base url
  let ic := { ic with TrackerUrl := if vConfig.IsSet (ConfigIssuesPrefix ++ "trackerUrl") then
      vConfig.GetString (ConfigIssuesPrefix ++ "trackerUrl") else ic.TrackerUrl }
  -- Get issues key group index
  if !vConfig.IsSet (ConfigIssuesPrefix ++ "keyGroupIndex") then
    (some (CheckErrorf MissingConfigurationError [ConfigIssuesPrefix ++ "keyGroupIndex"]), ic)
  else
  match Atoi (vConfig.GetString (ConfigIssuesPrefix ++ "keyGroupIndex")) with
  | .error keyGroupIndex err =>
    (some (CheckErrorf ConfigParseValueError
        [ConfigIssuesPrefix ++ "keyGroupIndex", err.Error env.Quote]),
      { ic with KeyGroupIndex := keyGroupIndex })
  | .ok keyGroupIndex =>
  let ic := { ic with KeyGroupIndex := keyGroupIndex }
  -- Get issues summary group index
  if !vConfig.IsSet (ConfigIssuesPrefix ++ "summaryGroupIndex") then
    (some (CheckErrorf MissingConfigurationError [ConfigIssuesPrefix ++ "summaryGroupIndex"]), ic)
  else
  match Atoi (vConfig.GetString (ConfigIssuesPrefix ++ "summaryGroupIndex")) with
  | .error summaryGroupIndex err =>
    (some (CheckErrorf ConfigParseValueError
        [ConfigIssuesPrefix ++ "summaryGroupIndex", err.Error env.Quote]),
      { ic with SummaryGroupIndex := summaryGroupIndex })
  | .ok summaryGroupIndex =>
  let ic := { ic with SummaryGroupIndex := summaryGroupIndex }
  -- Get aggregation aggregate
  let ic := { ic with Aggregate := false }
  if vConfig.IsSet (ConfigIssuesPrefix ++ "aggregate") then
    match ParseBool (vConfig.GetString (ConfigIssuesPrefix ++ "aggregate")) with
    | .error aggregate err =>
      (some (CheckErrorf ConfigParseValueError
          [ConfigIssuesPrefix ++ "aggregate", err.Error env.Quote]),
        { ic with Aggregate := aggregate })
    | .ok aggregate => populateAggregationStatus vConfig { ic with Aggregate := aggregate }
  else populateAggregationStatus vConfig ic

/-- `IssuesConfiguration.populateIssuesConfigsFromSpec` on a non-nil receiver. -/
def populateIssuesConfigsFromSpec (env : Env) (ic : IssuesConfiguration) (configFilePath : String)
    (w : World) : Option GoError × IssuesConfiguration × World :=
  let w := w.record (.ReadConfigFile configFilePath)
  match env.ReadConfigFile configFilePath with
  | .error err => (some err, ic, w)
  | .ok vConfig =>
    let (err, ic) := populateFromViper env vConfig ic
    (err, ic, w)

/-- `IssuesConfiguration.setServerDetails`. -/
def setServerDetails (env : Env) (ic : IssuesConfiguration) (w : World) :
    Option GoError × IssuesConfiguration × World :=
  let w := w.record (.GetSpecificConfig ic.ServerID)
  -- If no server-id provided, use default server.
  match env.GetSpecificConfig ic.ServerID with
  | .error err => (some err, ic, w)
  | .ok serverDetails => (none, { ic with ServerDetails := some serverDetails }, w)

/-- `BuildAddGitCommand.createIssuesConfigs`. With a nil `config.issuesConfig` the
method still reads the file and panics at its first access through the receiver. -/
def createIssuesConfigs (env : Env) (config : BuildAddGitCommand) (w : World) :
    Res Unit × BuildAddGitCommand × World :=
  match config.issuesConfig with
  | none =>
    let w := w.record (.ReadConfigFile config.configFilePath)
    match env.ReadConfigFile config.configFilePath with
    | .error err => (.error err, config, w)
    | .ok vConfig =>
      if !vConfig.IsSet "issues" then
        (.error (CheckErrorf MissingConfigurationError ["issues"]), config, w)
      else (.panic "nil pointer dereference", config, w)
  | some ic =>
    -- Read file's data.
    match populateIssuesConfigsFromSpec env ic config.configFilePath w with
    | (some err, ic, w) => (.error err, { config with issuesConfig := some ic }, w)
    | (none, ic, w) =>
      -- Use 'server-id' flag if provided.
      let ic := { ic with ServerID := if config.serverId ≠ "" then config.serverId else ic.ServerID }
      -- Build ServerDetails from provided serverID.
      match setServerDetails env ic w with
      | (some err, ic, w) => (.error err, { config with issuesConfig := some ic }, w)
      | (none, ic, w) =>
        -- Add '/' suffix to URL if required.
        let ic := { ic with TrackerUrl := if ic.TrackerUrl ≠ "" then
            AddTrailingSlashIfNeeded ic.TrackerUrl else ic.TrackerUrl }
        (.ok (), { config with issuesConfig := some ic }, w)

/-- `BuildAddGitCommand.getLatestBuildInfo`: build info, or the empty build info when
not found. -/
def getLatestBuildInfo (env : Env) (issuesConfig : IssuesConfiguration) (w : World) :
    Except GoError BuildInfo × World :=
  -- Create services manager to get build-info from Artifactory.
  let w := w.record .CreateServiceManager
  match env.CreateServiceManager issuesConfig.ServerDetails with
  | .error err => (.error err, w)
  | .ok sm =>
    -- Get latest build-info from Artifactory.
    let w := w.record .GetBuildName
    match env.GetBuildName with
    | .error err => (.error err, w)
    | .ok buildName =>
      let w := w.record (.GetBuildInfo buildName)
      match env.GetBuildInfo sm buildName with
      | .error err => (.error err, w)
      | .ok (publishedBuildInfo, found) =>
        if !found then (.ok { VcsList := [] }, w)
        else (.ok publishedBuildInfo, w)

/-- The loop of `getLatestVcsRevision` over `buildInfo.VcsList`: the revision of the
entry at which the loop breaks, the initial empty string if it never does. -/
def lastVcsRevisionLoop (vcsUrl : String) : List Vcs → String
  | [] => ""
  | vcs :: rest => if vcs.Url = vcsUrl then vcs.Revision else lastVcsRevisionLoop vcsUrl rest

/-- `BuildAddGitCommand.getLatestVcsRevision` (with `config.issuesConfig` non-nil). -/
def getLatestVcsRevision (env : Env) (issuesConfig : IssuesConfiguration) (vcsUrl : String)
    (w : World) : Except GoError String × World :=
  -- Get latest build's build-info from Artifactory
  match getLatestBuildInfo env issuesConfig w with
  | (.error err, w) => (.error err, w)
  | (.ok buildInfo, w) =>
    -- Get previous VCS Revision from BuildInfo.
    (.ok (lastVcsRevisionLoop vcsUrl buildInfo.VcsList), w)

/-- `BuildAddGitCommand.collectBuildIssues`: the result, the command as the call
leaves it, and the world afterwards. -/
def collectBuildIssues (env : Env) (config : BuildAddGitCommand) (vcsUrl : String) (w : World) :
    Res (List AffectedIssue) × BuildAddGitCommand × World :=
  -- Check that git exists in path.
  let w := w.record (.LookPath "git")
  match env.LookPath "git" with
  | .error err => (.error (CheckError err), config, w)
  | .ok _ =>
    -- Initialize issues-configuration.
    let config := { config with issuesConfig := some IssuesConfiguration.new }
    -- Create config's IssuesConfigurations from the provided spec file.
    match createIssuesConfigs env config w with
    | (.error err, config, w) => (.error err, config, w)
    | (.panic msg, config, w) => (.panic msg, config, w)
    | (.ok _, config, w) =>
      match config.issuesConfig with
      | none => (.panic "nil pointer dereference", config, w)
      | some issuesConfig =>
        -- Get latest build's VCS revision from Artifactory.
        match getLatestVcsRevision env issuesConfig vcsUrl w with
        | (.error err, w) => (.error err, config, w)
        | (.ok lastVcsRevision, w) =>
          -- Run issues collection.
          let (result, w) := DoCollect env config issuesConfig lastVcsRevision w
          (result, config, w)

/-! ## Definitions used to state the properties -/

/-- Both configured group indices are positions of the matched results. -/
def groupsCovered (issuesConfig : IssuesConfiguration) (MatchedResults : List String) : Prop :=
  0 ≤ issuesConfig.KeyGroupIndex ∧ issuesConfig.KeyGroupIndex < MatchedResults.length
    ∧ 0 ≤ issuesConfig.SummaryGroupIndex ∧ issuesConfig.SummaryGroupIndex < MatchedResults.length

instance (issuesConfig : IssuesConfiguration) (MatchedResults : List String) :
    Decidable (groupsCovered issuesConfig MatchedResults) := by
  unfold groupsCovered; infer_instance

/-- The issue a match stands for: key and summary are the configured groups, the URL
is the tracker URL followed by the key when a tracker URL is configured. -/
def issueOfMatch (issuesConfig : IssuesConfiguration) (MatchedResults : List String) :
    AffectedIssue :=
  { Key := (index MatchedResults issuesConfig.KeyGroupIndex).getD ""
    Summary := (index MatchedResults issuesConfig.SummaryGroupIndex).getD ""
    Url := if issuesConfig.TrackerUrl = "" then ""
      else issuesConfig.TrackerUrl ++ (index MatchedResults issuesConfig.KeyGroupIndex).getD ""
    Aggregated := false }

/-- The issues of the lines that match the pattern, in the order of the lines. -/
def issuesOfLines (issuesConfig : IssuesConfiguration) (issueRegexp : RegExp)
    (lines : List String) : List AffectedIssue :=
  lines.filterMap (fun line => (issueRegexp line).map (issueOfMatch issuesConfig))

/-- What `DoCollect` makes of the report of the stream runner. -/
def interpretReport : Res Bool × List AffectedIssue → Res (List AffectedIssue)
  | (.panic msg, _) => .panic msg
  | (.error err, _) => if err.isRevisionRangeError then .ok [] else .error (CheckError err)
  | (.ok exitOk, foundIssues) =>
    if !exitOk then .error (CheckErrorf "failed executing git log command" [])
    else .ok foundIssues

/-- Calls made only by `DoCollect`: compiling a pattern, reading and changing the
working directory, running the log command. -/
def Event.isDoCollect : Event → Bool
  | .GetRegExp _ => true
  | .Getwd => true
  | .Chdir _ => true
  | .RunCmd _ => true
  | _ => false

/-- Calls made to resolve the revision bound: building the services manager, reading
the build name, asking the build-record store. -/
def Event.isRemoteLookup : Event → Bool
  | .CreateServiceManager => true
  | .GetBuildName => true
  | .GetBuildInfo _ => true
  | _ => false

/-- A latest build with two VCS entries. -/
def twoVcsBuild : BuildInfo :=
  ⟨[⟨"https://git.example/a.git", "abc123", "main", "first"⟩,
    ⟨"https://git.example/b.git", "def456", "main", "second"⟩]⟩

/-- The longest run of decimal digits at the front of a text, and what follows. -/
def spanDigits : List Char → List Char × List Char
  | [] => ([], [])
  | c :: cs =>
    if c.isDigit then ((c :: (spanDigits cs).1), (spanDigits cs).2) else ([], c :: cs)

/-- A match of the pattern `(PROJ-\d+): (.*)` at the very front of a text. -/
def matchProjAt (text : List Char) : Option (List String) :=
  match text with
  | 'P' :: 'R' :: 'O' :: 'J' :: '-' :: rest =>
    match spanDigits rest with
    | (c :: digits, ':' :: ' ' :: summary) =>
      some [⟨text⟩, ⟨'P' :: 'R' :: 'O' :: 'J' :: '-' :: c :: digits⟩, ⟨summary⟩]
    | _ => none
  | _ => none

/-- The leftmost match of the pattern `(PROJ-\d+): (.*)` in a text. -/
def findProj : List Char → Option (List String)
  | [] => none
  | c :: cs =>
    match matchProjAt (c :: cs) with
    | some groups => some groups
    | none => findProj cs

/-- The pattern `(PROJ-\d+): (.*)` of the example configuration, compiled. -/
def projRegExp : RegExp := fun line => findProj line.data

/-- A match of `fatal: Invalid revision range [a-fA-F0-9]+\.\.` at the very front of
a text. -/
def matchInvalidRangeAt (text : List Char) : Option (List String) :=
  if "fatal: Invalid revision range ".data.isPrefixOf text then
    let rest := text.drop 30
    let hex := rest.takeWhile (fun c => c.isDigit || ('a' ≤ c && c ≤ 'f') || ('A' ≤ c && c ≤ 'F'))
    match hex, rest.dropWhile (fun c => c.isDigit || ('a' ≤ c && c ≤ 'f') || ('A' ≤ c && c ≤ 'F')) with
    | _ :: _, '.' :: '.' :: _ => some [⟨"fatal: Invalid revision range ".data ++ hex ++ ['.', '.']⟩]
    | _, _ => none
  else none

/-- The leftmost match of the invalid-range diagnostic in a text. -/
def findInvalidRange : List Char → Option (List String)
  | [] => none
  | c :: cs =>
    match matchInvalidRangeAt (c :: cs) with
    | some groups => some groups
    | none => findInvalidRange cs

/-- The pattern of `createErrRegExpHandler`, compiled. -/
def invalidRangeRegExp : RegExp := fun line => findInvalidRange line.data

/-- An environment for the examples: git is installed, the configuration file holds
the given document, every server id resolves, the latest build is the given one, the
two patterns of the examples compile, directories can be read and changed, and the
log command prints the given lines. -/
def exampleEnv (vConfig : Viper) (latest : BuildInfo × Bool) (lines : List String)
    (exitOk : Bool) : Env :=
  { LookPath := fun _ => .ok "/usr/bin/git"
    ReadConfigFile := fun _ => .ok vConfig
    GetSpecificConfig := fun serverId => .ok ⟨serverId, "https://art.example/artifactory/"⟩
    CreateServiceManager := fun details => .ok ⟨details⟩
    GetBuildName := .ok "my-build"
    GetBuildInfo := fun _ _ => .ok latest
    GetRegExp := fun pattern =>
      if pattern = invalidRangePattern then .ok invalidRangeRegExp
      else if pattern = "(PROJ-\\d+): (.*)" then .ok projRegExp
      else .error (.errorString "error parsing regexp")
    GetwdErr := none
    ChdirErr := fun _ => none
    Spawn := fun _ => .ok (lines, exitOk)
    Quote := fun text => "\"" ++ text ++ "\"" }

/-- The command of the examples. -/
def exampleCommand : BuildAddGitCommand :=
  { dotGitPath := "/repo/.git", configFilePath := "/repo/issues.yaml", serverId := "",
    issuesConfig := none }

/-- The configuration of the example: tracker JIRA, key group 1, summary group 2,
tracker URL `https://x/browse/`. -/
def jiraConfig : IssuesConfiguration :=
  { IssuesConfiguration.new with
    TrackerName := "JIRA", Regexp := "(PROJ-\\d+): (.*)", KeyGroupIndex := 1,
    SummaryGroupIndex := 2, TrackerUrl := "https://x/browse/", LogLimit := GitLogLimit }

/-- The configuration document of the example. -/
def jiraViper : Viper :=
  ⟨some [("issues.trackerName", "JIRA"), ("issues.regexp", "(PROJ-\\d+): (.*)"),
    ("issues.keyGroupIndex", "1"), ("issues.summaryGroupIndex", "2"),
    ("issues.trackerUrl", "https://x/browse/")]⟩

/-- The example command right after `collectBuildIssues` allocated its configuration. -/
def freshCommand : BuildAddGitCommand :=
  { exampleCommand with issuesConfig := some IssuesConfiguration.new }

/-- Output of the log command for a stale revision: one commit line, then the
diagnostic of git. -/
def staleLines : List String := ["PROJ-12: fix bug", "fatal: Invalid revision range abc123.."]

/-- The example configuration as `createIssuesConfigs` leaves it: the default server
resolved. -/
def resolvedJiraConfig : IssuesConfiguration :=
  { jiraConfig with ServerDetails := some ⟨"", "https://art.example/artifactory/"⟩ }

/-- A configuration document whose `issues` section has the tracker name only. -/
def trackerOnlyViper : Viper := ⟨some [("issues.trackerName", "JIRA")]⟩

/-- A configuration document whose `issues` section has only a key group index that is
not a number. -/
def badIndexOnlyViper : Viper := ⟨some [("issues.keyGroupIndex", "abc")]⟩

/-- The example document with a key group index that is not a number. -/
def badIndexViper : Viper :=
  ⟨some [("issues.trackerName", "JIRA"), ("issues.regexp", "(PROJ-\\d+): (.*)"),
    ("issues.keyGroupIndex", "abc"), ("issues.summaryGroupIndex", "2")]⟩

/-- The example document with the tracker URL written without its final slash. -/
def noSlashViper : Viper :=
  ⟨some [("issues.trackerName", "JIRA"), ("issues.regexp", "(PROJ-\\d+): (.*)"),
    ("issues.keyGroupIndex", "1"), ("issues.summaryGroupIndex", "2"),
    ("issues.trackerUrl", "https://x/browse")]⟩

/-- The history lines of the example. -/
def jiraLines : List String := ["PROJ-12: fix bug", "unrelated commit", "PROJ-7: add feature"]

/-- The environment of the examples with a build-record store that cannot be reached. -/
def unreachableStoreEnv : Env :=
  { exampleEnv jiraViper (⟨[]⟩, false) jiraLines true with
    GetBuildInfo := fun _ _ => .error (.errorString "connection refused") }

/-- `BuildAddGitCommand.ServerDetails`: the server details of the selected server id.
Priorities for selecting server: the `server-id` flag, `serverID` in the config file,
the default server. -/
def BuildAddGitCommand.ServerDetails (env : Env) (config : BuildAddGitCommand) (w : World) :
    Except GoError AddGit.ServerDetails × World :=
  if config.serverId ≠ "" then
    (env.GetSpecificConfig config.serverId, w.record (.GetSpecificConfig config.serverId))
  else if config.configFilePath ≠ "" then
    -- Get the server ID from the conf file.
    let w := w.record (.ReadConfigFile config.configFilePath)
    match env.ReadConfigFile config.configFilePath with
    | .error err => (.error err, w)
    | .ok vConfig =>
      (env.GetSpecificConfig (vConfig.GetString (ConfigIssuesPrefix ++ "serverID")),
        w.record (.GetSpecificConfig (vConfig.GetString (ConfigIssuesPrefix ++ "serverID"))))
  else (env.GetSpecificConfig "", w.record (.GetSpecificConfig ""))

/-- The server id by the stated precedence: the `server-id` flag when it is not empty,
otherwise the value of `issues.serverID` in the configuration file (`none`: there is
no configuration file), otherwise the empty id, which stands for the default server. -/
def serverIdByPrecedence (flag : String) (vConfig : Option Viper) : String :=
  if flag ≠ "" then flag
  else
    match vConfig with
    | some document => document.GetString "issues.serverID"
    | none => ""

/-- The example document with the server id `art-2`. -/
def serverIdViper : Viper :=
  ⟨some [("issues.serverID", "art-2"), ("issues.trackerName", "JIRA"),
    ("issues.regexp", "(PROJ-\\d+): (.*)"), ("issues.keyGroupIndex", "1"),
    ("issues.summaryGroupIndex", "2")]⟩

/-- The example document with a pattern that does not compile. -/
def badRegexpViper : Viper :=
  ⟨some [("issues.trackerName", "JIRA"), ("issues.regexp", "(PROJ-"),
    ("issues.keyGroupIndex", "1"), ("issues.summaryGroupIndex", "2")]⟩

/-- The example document with the key group index `-1`. -/
def negativeIndexViper : Viper :=
  ⟨some [("issues.trackerName", "JIRA"), ("issues.regexp", "(PROJ-\\d+): (.*)"),
    ("issues.keyGroupIndex", "-1"), ("issues.summaryGroupIndex", "2")]⟩

/-- The environment of the examples in which git is not installed. -/
def noGitEnv : Env :=
  { exampleEnv jiraViper (⟨[]⟩, false) jiraLines true with
    LookPath := fun _ => .error (.errorString "exec: \"git\": executable file not found in $PATH") }

/-- The environment of the examples in which the directory `/home` cannot be entered
again once it is left. -/
def noReturnEnv : Env :=
  { exampleEnv jiraViper (⟨[]⟩, false) jiraLines true with
    ChdirErr := fun dir =>
      if dir = "/home" then some (.errorString "chdir /home: permission denied") else none }

/-- The call that spawns the log process. -/
def Event.isSpawn : Event → Bool
  | .RunCmd _ => true
  | _ => false

/-- The example configuration with the key and the summary both taken from group 1. -/
def sameGroupConfig : IssuesConfiguration :=
  { jiraConfig with KeyGroupIndex := 1, SummaryGroupIndex := 1 }

/-- The example configuration with the key group index `-1`, as
`createIssuesConfigs` leaves it for `negativeIndexViper`. -/
def negativeIndexConfig : IssuesConfiguration :=
  { resolvedJiraConfig with KeyGroupIndex := -1, TrackerUrl := "" }

end AddGit

/-! # The polling action of `setup` (general/envsetup/envsetup.go)

The closure `pollingAction` of `getNewServerDetails`, as a function of the answer to the
request it sends and of the variables it captures (`errorsCount`,
`readyMessageDisplayed`). The HTTP client, the JSON decoder and the status check of
jfrog-client-go are answered by parameters. The count of errors is an `Int`: it is at
most the number of attempts made, which the polling executor bounds by its timeout of 30
minutes at one attempt every 5 seconds. -/

namespace EnvSetup

open AddGit (GoError)

def Human : String := "human"
def Machine : String := "machine"

/-- The constant `http.StatusOK`. -/
def StatusOK : Int := 200
/-- The constant `http.StatusNotFound`. -/
def StatusNotFound : Int := 404

/-- The max consecutive polling errors allowed, before completely failing the setup
action. -/
def maxConsecutiveErrors : Int := 6

/-- `http.Response`, reduced to the status code. -/
structure HttpResponse where
  StatusCode : Int
  deriving DecidableEq, Repr

/-- `myJfrogGetStatusResponse`. -/
structure myJfrogGetStatusResponse where
  CliRegistrationId : String
  Ready : Bool
  AccessToken : String
  PlatformUrl : String
  deriving DecidableEq, Repr

/-- What `client.SendPost` returns: an error, or a response and its body. -/
inductive SendPostResult where
  | failure (err : GoError)
  | response (resp : HttpResponse) (body : String)
  deriving DecidableEq, Repr

/-- The fields of `EnvSetupCommand` the polling action reads; `progress` tells whether
`ftc.progress` is non-nil. -/
structure EnvSetupCommand where
  outputFormat : String
  progress : Bool
  deriving DecidableEq, Repr

/-- What the polling action shows to the user. -/
inductive Shown where
  | Output (msg : String)
  | SetHeadlineMsg (msg : String)
  | ClearHeadlineMsg
  deriving DecidableEq, Repr

/-- The variables the closure captures, and what it has shown so far. -/
structure PollingState where
  errorsCount : Int
  readyMessageDisplayed : Bool
  shown : List Shown
  deriving DecidableEq, Repr

/-- The variables as `getNewServerDetails` initialises them. -/
def PollingState.init : PollingState :=
  { errorsCount := 0, readyMessageDisplayed := false, shown := [] }

/-- The three results of the polling action: `shouldStop`, `responseBody`, `err`. -/
structure PollingResult where
  shouldStop : Bool
  responseBody : Option String
  err : Option GoError
  deriving DecidableEq, Repr

/-- Library functions the action calls. -/
structure Deps where
  /-- The error `errorutils.CheckResponseStatusWithBody` builds for an unexpected status. -/
  responseError : HttpResponse → String → GoError
  /-- Function `json.Unmarshal` into a `myJfrogGetStatusResponse`. -/
  Unmarshal : String → Except GoError myJfrogGetStatusResponse

/-- `errorutils.CheckResponseStatusWithBody`: nil when the status code is one of the
expected ones. -/
def CheckResponseStatusWithBody (deps : Deps) (resp : HttpResponse) (body : String)
    (expectedStatusCodes : List Int) : Option GoError :=
  if resp.StatusCode ∈ expectedStatusCodes then none else some (deps.responseError resp body)

/-- `EnvSetupCommand.setHeadlineMsg`. -/
def setHeadlineMsg (ftc : EnvSetupCommand) (msg : String) (shown : List Shown) : List Shown :=
  if ftc.progress then shown ++ [.SetHeadlineMsg msg] else shown ++ [.Output (msg ++ "...")]

/-- `EnvSetupCommand.clearHeadlineMsg`. -/
def clearHeadlineMsg (ftc : EnvSetupCommand) (shown : List Shown) : List Shown :=
  if ftc.progress then shown ++ [.ClearHeadlineMsg] else shown

/-- The closure `pollingAction` of `getNewServerDetails`, given what `client.SendPost`
returned. -/
def pollingAction (deps : Deps) (ftc : EnvSetupCommand) (sent : SendPostResult)
    (s : PollingState) : PollingResult × PollingState :=
  match sent with
  -- If an HTTP error occurred.
  | .failure err =>
    let s := { s with errorsCount := s.errorsCount + 1 }
    if s.errorsCount = maxConsecutiveErrors then (⟨true, none, some err⟩, s)
    else (⟨false, none, none⟩, s)
  | .response resp body =>
    -- If the response is not the expected 200 or 404.
    match CheckResponseStatusWithBody deps resp body [StatusOK, StatusNotFound] with
    | some err =>
      let s := { s with errorsCount := s.errorsCount + 1 }
      if s.errorsCount = maxConsecutiveErrors then (⟨true, none, some err⟩, s)
      else (⟨false, none, none⟩, s)
    | none =>
      let s := { s with errorsCount := 0 }
      -- Wait for 'ready=true' response from MyJFrog
      if resp.StatusCode = StatusOK then
        let s := { s with
          shown := if !s.readyMessageDisplayed then
              (if ftc.outputFormat = Machine then s.shown ++ [.Output "PREPARING_ENV"]
                else setHeadlineMsg ftc
                  "Almost done! Please hang on while JFrog CLI completes the setup 🛠"
                  (clearHeadlineMsg ftc s.shown))
            else s.shown
          readyMessageDisplayed := true }
        match deps.Unmarshal body with
        | .error err => (⟨true, none, some err⟩, s)
        | .ok statusResponse =>
          -- Got the new server details
          if statusResponse.Ready then (⟨true, some body, none⟩, s)
          -- The expected 404 response or 200 response without 'Ready'
          else (⟨false, none, none⟩, s)
      else (⟨false, none, none⟩, s)

/-- The captured variables after the action has handled a sequence of answers, one
attempt after the other. -/
def afterAttempts (deps : Deps) (ftc : EnvSetupCommand) :
    List SendPostResult → PollingState → PollingState
  | [], s => s
  | sent :: rest, s => afterAttempts deps ftc rest (pollingAction deps ftc sent s).2

/-- An attempt fails if the HTTP call errors or the status is neither 200 nor 404. -/
def isFailed : SendPostResult → Bool
  | .failure _ => true
  | .response resp _ => !(resp.StatusCode = 200 || resp.StatusCode = 404)

/-- The number of failed attempts at the end of a sequence of attempts, back to the last
attempt that did not fail. -/
def trailingFailures (attempts : List SendPostResult) : Nat :=
  (attempts.reverse.takeWhile isFailed).length

/-- Library functions for the examples: the error names the status code, and only the
body `ready` decodes to a ready response. -/
def exampleDeps : Deps :=
  { responseError := fun resp _ => .errorString ("server response: " ++ toString resp.StatusCode)
    Unmarshal := fun body =>
      if body = "ready" then .ok ⟨"id", true, "token", "https://my.jfrog.io/"⟩
      else if body = "" then .ok ⟨"", false, "", ""⟩
      else .error (.errorString "invalid character") }

/-- Five attempts answered with status 500. -/
def fiveFailures : List SendPostResult :=
  List.replicate 5 (.response ⟨500⟩ "")

end EnvSetup

/-! # Parsing the applicability scan (xray/commands/audit/generic/jas/applicabilityscanner.go)

`parseResults`, `createCveList`, `isVulnerabilityApplicable` and `getVulnerabilityName`.
A Go `map[string]string` is the list of its assignments, latest first, read by looking
up the first entry of a key; a pointer that may be nil is an `Option`; opening and
decoding the SARIF file is answered by a parameter. -/

namespace Jas

open AddGit (GoError Res)

/-- `services.Cve`, reduced to its id. -/
structure Cve where
  Id : String
  deriving DecidableEq, Repr

/-- `services.Vulnerability`, reduced to its CVEs. -/
structure Vulnerability where
  Cves : List Cve
  deriving DecidableEq, Repr

/-- `sarif.Result`, reduced to the two pointer fields the code reads. -/
structure SarifResult where
  RuleID : Option String
  Kind : Option String
  deriving DecidableEq, Repr

/-- `sarif.Run`: its results, each a pointer. -/
structure Run where
  Results : List (Option SarifResult)
  deriving DecidableEq, Repr

/-- `sarif.Report`: its runs, each a pointer. -/
structure Report where
  Runs : List (Option Run)
  deriving DecidableEq, Repr

/-- A Go `map[string]string`. -/
abbrev GoMap := List (String × String)

/-- The assignment `m[key] = value`. -/
def GoMap.set (m : GoMap) (key value : String) : GoMap := (key, value) :: m

/-- The read `m[key]`, `none` when the key is absent. -/
def GoMap.get (m : GoMap) (key : String) : Option String := m.lookup key

/-- `ApplicabilityScanManager`, without the analyzer manager. -/
structure ApplicabilityScanManager where
  applicabilityScannerResults : GoMap
  xrayVulnerabilities : List Vulnerability
  configFileName : String
  resultsFileName : String
  deriving DecidableEq, Repr

/-- The inner loop of `createCveList`, over the CVEs of one vulnerability. -/
def appendCveIds (cveWhiteList : List String) : List Cve → List String
  | [] => cveWhiteList
  | cve :: rest =>
    if cve.Id ≠ "" then appendCveIds (cveWhiteList ++ [cve.Id]) rest
    else appendCveIds cveWhiteList rest

/-- The outer loop of `createCveList`, over the vulnerabilities. -/
def appendVulnerabilities (cveWhiteList : List String) : List Vulnerability → List String
  | [] => cveWhiteList
  | vulnerability :: rest =>
    appendVulnerabilities (appendCveIds cveWhiteList vulnerability.Cves) rest

/-- `ApplicabilityScanManager.createCveList`. -/
def createCveList (a : ApplicabilityScanManager) : List String :=
  appendVulnerabilities [] a.xrayVulnerabilities

/-- `isVulnerabilityApplicable`. -/
def isVulnerabilityApplicable (vulnerability : SarifResult) : Bool :=
  !(vulnerability.Kind.isSome && vulnerability.Kind == some "pass")

/-- `strings.Split(s, "_")` on the characters of `s`: the texts between the
underscores, one more than there are underscores. -/
def splitUnderscore : List Char → List (List Char)
  | [] => [[]]
  | c :: cs =>
    if c = '_' then [] :: splitUnderscore cs
    else
      match splitUnderscore cs with
      | [] => [[c]]
      | first :: rest => (c :: first) :: rest

/-- `strings.Split(s, "_")`. -/
def Split (s : String) : List String := (splitUnderscore s.data).map String.mk

/-- `getVulnerabilityName`: element 1 of the split; `none` stands for the run-time panic
of indexing out of range. -/
def getVulnerabilityName (sarifRuleId : String) : Option String :=
  (Split sarifRuleId)[1]?

/-- The name the loop of `parseResults` computes for one result,
`getVulnerabilityName(*vulnerability.RuleID)`; `none` when the result pointer or its
`RuleID` is nil or the rule id has no second element, each a run-time panic. -/
def resultName (vulnerability : Option SarifResult) : Option String :=
  match vulnerability with
  | none => none
  | some result =>
    match result.RuleID with
    | none => none
    | some ruleId => getVulnerabilityName ruleId

/-- The first loop of `parseResults`: every CVE id is set to `unknown`. -/
def setUnknown (results : GoMap) : List String → GoMap
  | [] => results
  | xrayCve :: rest => setUnknown (results.set xrayCve "unknown") rest

/-- The second loop of `parseResults`, over the results of the first run. -/
def setApplicability (results : GoMap) : List (Option SarifResult) → Res GoMap
  | [] => .ok results
  | vulnerability :: rest =>
    match vulnerability with
    | none => .panic "nil pointer dereference"
    | some result =>
      match result.RuleID with
      | none => .panic "nil pointer dereference"
      | some ruleId =>
        match getVulnerabilityName ruleId with
        | none => .panic "index out of range"
        | some applicableVulnerabilityName =>
          if isVulnerabilityApplicable result then
            setApplicability (results.set applicableVulnerabilityName "Yes") rest
          else setApplicability (results.set applicableVulnerabilityName "No") rest

/-- The results of the first run of a report, as `parseResults` takes them: none when
the report has no run; `none` stands for the panic on a nil first run. -/
def fullVulnerabilitiesList (report : Report) : Option (List (Option SarifResult)) :=
  match report.Runs with
  | [] => some []
  | none :: _ => none
  | some run :: _ => some run.Results

/-- `ApplicabilityScanManager.parseResults`; `sarifOpen` answers `sarif.Open`. After a
panic the map is given as the first loop left it: what the second loop wrote before the
panic is not modelled. -/
def parseResults (sarifOpen : String → Except GoError Report) (a : ApplicabilityScanManager) :
    Res Unit × ApplicabilityScanManager :=
  match sarifOpen a.resultsFileName with
  | .error err => (.error err, a)
  | .ok report =>
    match fullVulnerabilitiesList report with
    | none => (.panic "nil pointer dereference", a)
    | some fullList =>
      let xrayCves := createCveList a
      let results := setUnknown a.applicabilityScannerResults xrayCves
      match setApplicability results fullList with
      | .ok results => (.ok (), { a with applicabilityScannerResults := results })
      | .error err => (.error err, { a with applicabilityScannerResults := results })
      | .panic msg => (.panic msg, { a with applicabilityScannerResults := results })

/-! ## Definitions used to state the properties -/

/-- The verdict written for a result: `No` for kind `pass`, `Yes` otherwise. -/
def verdict (result : Option SarifResult) : String :=
  match result with
  | some r => if r.Kind = some "pass" then "No" else "Yes"
  | none => "Yes"

/-- The verdict of the last result of the list that carries the name, if any does. -/
def lastVerdict (name : String) : List (Option SarifResult) → Option String
  | [] => none
  | result :: rest =>
    match lastVerdict name rest with
    | some v => some v
    | none => if resultName result = some name then some (verdict result) else none

/-- A manager for the examples: two vulnerabilities with three CVE entries, one of them
without an id. -/
def exampleManager : ApplicabilityScanManager :=
  { applicabilityScannerResults := []
    xrayVulnerabilities := [⟨[⟨"CVE-2021-1"⟩, ⟨""⟩]⟩, ⟨[⟨"CVE-2021-2"⟩]⟩]
    configFileName := "config.yaml"
    resultsFileName := "sarif.sarif" }

/-- A report whose only result has a rule id without an underscore. -/
def noUnderscoreReport : Report := ⟨[some ⟨[some ⟨some "CVE-2021-1", none⟩]⟩]⟩

/-- A report with two runs: the first run names `CVE-2021-1` twice, first as applicable
and last with kind `pass`, and names `CVE-2021-9` without a kind; the second run names
`CVE-2021-2`, and names `CVE-2021-1` once more, as applicable. -/
def twoRunReport : Report :=
  ⟨[some ⟨[some ⟨some "applic_CVE-2021-1", none⟩, some ⟨some "applic_CVE-2021-9_x", none⟩,
      some ⟨some "applic_CVE-2021-1", some "pass"⟩]⟩,
    some ⟨[some ⟨some "applic_CVE-2021-2", none⟩, some ⟨some "applic_CVE-2021-1", none⟩]⟩]⟩

end Jas

namespace AddGit

/-- The example document with a tracker URL that ends in two slashes. -/
def doubleSlashViper : Viper :=
  ⟨some [("issues.trackerName", "JIRA"), ("issues.regexp", "(PROJ-\\d+): (.*)"),
    ("issues.keyGroupIndex", "1"), ("issues.summaryGroupIndex", "2"),
    ("issues.trackerUrl", "https://x/browse//")]⟩

/-- The example configuration as `createIssuesConfigs` leaves it for
`doubleSlashViper`: the tracker URL still ends in two slashes. -/
def doubleSlashConfig : IssuesConfiguration :=
  { resolvedJiraConfig with TrackerUrl := "https://x/browse//" }

/-! ## Lemmas on the issue-extraction reaction and the stream -/

theorem index_eq_some_of_lt (xs : List String) (i : Int) (h0 : 0 ≤ i) (h1 : i < xs.length) :
    ∃ x, index xs i = some x := by
  have hlt : i.toNat < xs.length := by omega
  refine ⟨xs[i.toNat], ?_⟩
  unfold index
  rw [if_neg (by omega)]
  exact List.getElem?_eq_getElem hlt

theorem index_eq_none_of_neg (xs : List String) (i : Int) (h : i < 0) : index xs i = none := by
  unfold index
  rw [if_pos h]

theorem index_lt_of_eq_some (xs : List String) (i : Int) (x : String) (h : index xs i = some x) :
    0 ≤ i ∧ i < xs.length := by
  unfold index at h
  by_cases hneg : i < 0
  · rw [if_pos hneg] at h; cases h
  · rw [if_neg hneg] at h
    have hlt : i.toNat < xs.length := by
      by_contra hge
      rw [List.getElem?_eq_none (by omega)] at h
      cases h
    omega

theorem logExecFunc_of_covered (issuesConfig : IssuesConfiguration) (MatchedResults : List String)
    (foundIssues : List AffectedIssue) (h : groupsCovered issuesConfig MatchedResults) :
    logExecFunc issuesConfig MatchedResults foundIssues
      = (.ok "", foundIssues ++ [issueOfMatch issuesConfig MatchedResults]) := by
  obtain ⟨hk0, hk1, hs0, hs1⟩ := h
  obtain ⟨key, hkey⟩ := index_eq_some_of_lt MatchedResults _ hk0 hk1
  obtain ⟨summary, hsum⟩ := index_eq_some_of_lt MatchedResults _ hs0 hs1
  unfold logExecFunc issueOfMatch
  rw [if_neg (by omega), hkey, hsum]
  by_cases hurl : issuesConfig.TrackerUrl = "" <;> simp [hurl]

theorem logExecFunc_of_short (issuesConfig : IssuesConfiguration) (MatchedResults : List String)
    (foundIssues : List AffectedIssue)
    (h : (MatchedResults.length : Int) - 1 < issuesConfig.KeyGroupIndex
      ∨ (MatchedResults.length : Int) - 1 < issuesConfig.SummaryGroupIndex) :
    logExecFunc issuesConfig MatchedResults foundIssues
      = (.error (.errorString malformedPatternMsg), foundIssues) := by
  unfold logExecFunc
  rw [if_pos h]

theorem evalLine_log_err (issuesConfig : IssuesConfiguration) (issueRegexp invalidRangeExp : RegExp)
    (lastVcsRevision line : String) (foundIssues : List AffectedIssue)
    (hcov : ∀ m, issueRegexp line = some m → groupsCovered issuesConfig m)
    (herr : invalidRangeExp line = none) :
    evalLine line [⟨issueRegexp, logExecFunc issuesConfig⟩,
        ⟨invalidRangeExp, errExecFunc lastVcsRevision⟩] foundIssues
      = (.ok (), foundIssues ++ issuesOfLines issuesConfig issueRegexp [line]) := by
  cases hm : issueRegexp line with
  | none => simp [evalLine, issuesOfLines, hm, herr]
  | some m =>
    simp [evalLine, issuesOfLines, hm, herr, logExecFunc_of_covered _ _ _ (hcov m hm)]

theorem issuesOfLines_cons (issuesConfig : IssuesConfiguration) (issueRegexp : RegExp)
    (line : String) (lines : List String) :
    issuesOfLines issuesConfig issueRegexp (line :: lines)
      = issuesOfLines issuesConfig issueRegexp [line]
        ++ issuesOfLines issuesConfig issueRegexp lines := by
  unfold issuesOfLines
  cases h : issueRegexp line <;> simp [List.filterMap_cons, h]

theorem evalLines_log_err (issuesConfig : IssuesConfiguration) (issueRegexp invalidRangeExp : RegExp)
    (lastVcsRevision : String) (lines : List String) (foundIssues : List AffectedIssue)
    (hcov : ∀ line ∈ lines, ∀ m, issueRegexp line = some m → groupsCovered issuesConfig m)
    (herr : ∀ line ∈ lines, invalidRangeExp line = none) :
    evalLines lines [⟨issueRegexp, logExecFunc issuesConfig⟩,
        ⟨invalidRangeExp, errExecFunc lastVcsRevision⟩] foundIssues
      = (.ok (), foundIssues ++ issuesOfLines issuesConfig issueRegexp lines) := by
  induction lines generalizing foundIssues with
  | nil => simp [evalLines, issuesOfLines]
  | cons line lines ih =>
    have h1 := evalLine_log_err issuesConfig issueRegexp invalidRangeExp lastVcsRevision line
      foundIssues (hcov line (List.mem_cons_self _ _)) (herr line (List.mem_cons_self _ _))
    have h2 := ih (foundIssues ++ issuesOfLines issuesConfig issueRegexp [line])
      (fun l hl => hcov l (List.mem_cons_of_mem _ hl))
      (fun l hl => herr l (List.mem_cons_of_mem _ hl))
    rw [evalLines, h1]
    simp only []
    rw [h2, issuesOfLines_cons _ _ line lines, List.append_assoc]

theorem DoCollect_result (env : Env) (config : BuildAddGitCommand)
    (issuesConfig : IssuesConfiguration) (lastVcsRevision : String) (w : World)
    (issueRegexp invalidRangeExp : RegExp)
    (hlog : env.GetRegExp issuesConfig.Regexp = .ok issueRegexp)
    (herr : env.GetRegExp invalidRangePattern = .ok invalidRangeExp)
    (hwd : env.GetwdErr = none) (hcd : env.ChdirErr config.dotGitPath = none) :
    (DoCollect env config issuesConfig lastVcsRevision w).1
      = interpretReport (runStream env
          (LogCmd.GetCmd ⟨issuesConfig.LogLimit, lastVcsRevision⟩)
          [⟨issueRegexp, logExecFunc issuesConfig⟩,
            ⟨invalidRangeExp, errExecFunc lastVcsRevision⟩] []) := by
  simp only [DoCollect, createLogRegExpHandler, createErrRegExpHandler, hlog, herr, Getwd, hwd,
    DoCollect.body, Chdir, hcd, RunCmdWithOutputParser]
  generalize runStream env _ _ _ = report
  rcases report with ⟨r, found⟩
  cases r with
  | ok exitOk => cases exitOk <;> simp [interpretReport]
  | error err => by_cases h : err.isRevisionRangeError <;> simp [interpretReport, h]
  | panic msg => simp [interpretReport]

/-! ## C1 -/

/-- C1: when the configured key and summary group indices are positions of every
match, one invocation of the issue-extraction reaction appends exactly one issue at
the end of the accumulator, with `Key = MatchedResults[KeyGroupIndex]`,
`Summary = MatchedResults[SummaryGroupIndex]` and `Aggregated = false`, and leaves the
earlier entries as they were; a stream of lines delivered serially therefore leaves
the accumulator extended by the issues of the matching lines, in the order of the
lines, and a line that does not match adds nothing; `DoCollect` returns exactly these
issues when the process exits successfully. -/
theorem C1_issues_in_line_order (issuesConfig : IssuesConfiguration)
    (issueRegexp invalidRangeExp : RegExp) (lastVcsRevision : String) (lines : List String)
    (foundIssues : List AffectedIssue)
    (hcov : ∀ line ∈ lines, ∀ m, issueRegexp line = some m → groupsCovered issuesConfig m)
    (herr : ∀ line ∈ lines, invalidRangeExp line = none) :
    (∀ (m : List String) (acc : List AffectedIssue) (key summary : String),
        index m issuesConfig.KeyGroupIndex = some key →
        index m issuesConfig.SummaryGroupIndex = some summary →
        ∃ issue : AffectedIssue,
          logExecFunc issuesConfig m acc = (.ok "", acc ++ [issue])
            ∧ issue.Key = key ∧ issue.Summary = summary ∧ issue.Aggregated = false
            ∧ issue = issueOfMatch issuesConfig m)
    ∧ evalLines lines [⟨issueRegexp, logExecFunc issuesConfig⟩,
          ⟨invalidRangeExp, errExecFunc lastVcsRevision⟩] foundIssues
        = (.ok (), foundIssues ++ issuesOfLines issuesConfig issueRegexp lines)
    ∧ (∀ line ∈ lines, issueRegexp line = none →
        evalLine line [⟨issueRegexp, logExecFunc issuesConfig⟩,
          ⟨invalidRangeExp, errExecFunc lastVcsRevision⟩] foundIssues = (.ok (), foundIssues))
    ∧ (∀ (env : Env) (config : BuildAddGitCommand) (w : World),
        env.GetRegExp issuesConfig.Regexp = .ok issueRegexp →
        env.GetRegExp invalidRangePattern = .ok invalidRangeExp →
        env.GetwdErr = none → env.ChdirErr config.dotGitPath = none →
        env.Spawn (LogCmd.GetCmd ⟨issuesConfig.LogLimit, lastVcsRevision⟩) = .ok (lines, true) →
        (DoCollect env config issuesConfig lastVcsRevision w).1
          = .ok (issuesOfLines issuesConfig issueRegexp lines)) := by
  refine ⟨?_, evalLines_log_err _ _ _ _ _ _ hcov herr, ?_, ?_⟩
  · intro m acc key summary hkey hsum
    have hk := index_lt_of_eq_some _ _ _ hkey
    have hs := index_lt_of_eq_some _ _ _ hsum
    refine ⟨issueOfMatch issuesConfig m,
      logExecFunc_of_covered _ _ _ ⟨hk.1, hk.2, hs.1, hs.2⟩, ?_, ?_, rfl, rfl⟩
    · simp [issueOfMatch, hkey]
    · simp [issueOfMatch, hsum]
  · intro line hline hnone
    simp [evalLine, hnone, herr line hline]
  · intro env config w hlog hrange hwd hcd hspawn
    rw [DoCollect_result env config issuesConfig lastVcsRevision w issueRegexp invalidRangeExp
      hlog hrange hwd hcd]
    simp [runStream, hspawn, evalLines_log_err _ _ _ _ _ _ hcov herr, interpretReport]

/-- C1, on the example: the lines `PROJ-12: fix bug`, `unrelated commit`,
`PROJ-7: add feature` give the issues PROJ-12 and PROJ-7, in this order. -/
theorem C1_issues_in_line_order_witness :
    (∀ line ∈ jiraLines, ∀ m, projRegExp line = some m → groupsCovered jiraConfig m)
    ∧ (∀ line ∈ jiraLines, invalidRangeRegExp line = none)
    ∧ evalLines jiraLines [⟨projRegExp, logExecFunc jiraConfig⟩,
          ⟨invalidRangeRegExp, errExecFunc ""⟩] []
        = (.ok (), [⟨"PROJ-12", "fix bug", "https://x/browse/PROJ-12", false⟩,
            ⟨"PROJ-7", "add feature", "https://x/browse/PROJ-7", false⟩])
    ∧ (DoCollect (exampleEnv ⟨none⟩ (⟨[]⟩, false) jiraLines true) exampleCommand jiraConfig ""
          ⟨"/home", []⟩).1
        = .ok [⟨"PROJ-12", "fix bug", "https://x/browse/PROJ-12", false⟩,
            ⟨"PROJ-7", "add feature", "https://x/browse/PROJ-7", false⟩] := by
  have hcov : ∀ line ∈ jiraLines, ∀ m, projRegExp line = some m → groupsCovered jiraConfig m := by
    decide
  have herr : ∀ line ∈ jiraLines, invalidRangeRegExp line = none := by decide
  have h := C1_issues_in_line_order jiraConfig projRegExp invalidRangeRegExp "" jiraLines []
    hcov herr
  refine ⟨hcov, herr, ?_, ?_⟩
  · rw [h.2.1]; decide
  · rw [h.2.2.2 (exampleEnv ⟨none⟩ (⟨[]⟩, false) jiraLines true) exampleCommand ⟨"/home", []⟩
      rfl rfl rfl rfl rfl]
    decide

/-! ## C2 -/

theorem hasSlashSuffix_append_slash (base : String) : hasSlashSuffix (base ++ "/") = true := by
  simp [hasSlashSuffix, String.data_append]

theorem AddTrailingSlashIfNeeded_ne_empty (url : String) (h : url ≠ "") :
    AddTrailingSlashIfNeeded url ≠ "" := by
  unfold AddTrailingSlashIfNeeded
  split
  · intro hc
    have := congrArg String.data hc
    simp [String.data_append] at this
  · exact h

theorem AddTrailingSlashIfNeeded_cases (url : String) (h : url ≠ "") :
    (hasSlashSuffix url = true → AddTrailingSlashIfNeeded url = url)
    ∧ (hasSlashSuffix url = false → AddTrailingSlashIfNeeded url = url ++ "/") := by
  unfold AddTrailingSlashIfNeeded
  constructor
  · intro hs; simp [hs]
  · intro hs; simp [hs, h]

/-- The tracker URL of the configuration `createIssuesConfigs` leaves behind, in terms of
the one `populateIssuesConfigsFromSpec` read. -/
theorem createIssuesConfigs_trackerUrl (env : Env) (config config' : BuildAddGitCommand)
    (ic0 : IssuesConfiguration) (w w' : World)
    (h0 : config.issuesConfig = some ic0)
    (hok : createIssuesConfigs env config w = (.ok (), config', w')) :
    ∃ ic', config'.issuesConfig = some ic'
      ∧ (populateIssuesConfigsFromSpec env ic0 config.configFilePath w).1 = none
      ∧ ic'.TrackerUrl
        = (if (populateIssuesConfigsFromSpec env ic0 config.configFilePath w).2.1.TrackerUrl = ""
            then ""
            else AddTrailingSlashIfNeeded
              (populateIssuesConfigsFromSpec env ic0 config.configFilePath w).2.1.TrackerUrl) := by
  unfold createIssuesConfigs at hok
  rw [h0] at hok
  simp only at hok
  rcases hp : populateIssuesConfigsFromSpec env ic0 config.configFilePath w with ⟨perr, ic1, w1⟩
  rw [hp] at hok
  cases perr with
  | some err => simp at hok
  | none =>
    simp only at hok
    unfold setServerDetails at hok
    simp only at hok
    generalize (if config.serverId ≠ "" then config.serverId else ic1.ServerID) = sid at hok
    cases hs : env.GetSpecificConfig sid with
    | error e => simp [hs] at hok
    | ok sd =>
      rw [hs] at hok
      simp only [Prod.mk.injEq, true_and] at hok
      obtain ⟨hc, _⟩ := hok
      subst hc
      refine ⟨_, rfl, rfl, ?_⟩
      by_cases hu : ic1.TrackerUrl = "" <;> simp [hu]

/-- The tracker URL after a successful `populateFromViper`. -/
theorem populateFromViper_trackerUrl (env : Env) (vConfig : Viper) (ic : IssuesConfiguration)
    (h : (populateFromViper env vConfig ic).1 = none) :
    (populateFromViper env vConfig ic).2.TrackerUrl
      = if vConfig.IsSet (ConfigIssuesPrefix ++ "trackerUrl")
          then vConfig.GetString (ConfigIssuesPrefix ++ "trackerUrl") else ic.TrackerUrl := by
  unfold populateFromViper at h ⊢
  by_cases h1 : vConfig.IsSet "issues" <;>
  by_cases h2 : vConfig.IsSet (ConfigIssuesPrefix ++ "trackerName") <;>
  by_cases h3 : vConfig.IsSet (ConfigIssuesPrefix ++ "regexp") <;>
  by_cases h4 : vConfig.IsSet (ConfigIssuesPrefix ++ "keyGroupIndex") <;>
  by_cases h6 : vConfig.IsSet (ConfigIssuesPrefix ++ "summaryGroupIndex") <;>
  cases h5 : Atoi (vConfig.GetString (ConfigIssuesPrefix ++ "keyGroupIndex")) <;>
  cases h7 : Atoi (vConfig.GetString (ConfigIssuesPrefix ++ "summaryGroupIndex")) <;>
  simp only [h1, h2, h3, h4, h5, h6, h7, Bool.not_true, Bool.not_false, Bool.false_eq_true,
    if_true, if_false, reduceCtorEq] at h ⊢
  by_cases h8 : vConfig.IsSet (ConfigIssuesPrefix ++ "aggregate") <;>
  cases h9 : ParseBool (vConfig.GetString (ConfigIssuesPrefix ++ "aggregate")) <;>
  simp only [h8, h9, populateAggregationStatus, Bool.not_true, Bool.not_false,
    Bool.false_eq_true, if_true, if_false, reduceCtorEq] at h ⊢

theorem populateIssuesConfigsFromSpec_of_read (env : Env) (ic : IssuesConfiguration)
    (configFilePath : String) (w : World) (vConfig : Viper)
    (hread : env.ReadConfigFile configFilePath = .ok vConfig) :
    populateIssuesConfigsFromSpec env ic configFilePath w
      = ((populateFromViper env vConfig ic).1, (populateFromViper env vConfig ic).2,
          w.record (.ReadConfigFile configFilePath)) := by
  simp [populateIssuesConfigsFromSpec, hread]

theorem GetString_trackerUrl_of_not_set (vConfig : Viper)
    (h : vConfig.IsSet (ConfigIssuesPrefix ++ "trackerUrl") = false) :
    vConfig.GetString (ConfigIssuesPrefix ++ "trackerUrl") = "" := by
  have hne : ¬ (ConfigIssuesPrefix ++ "trackerUrl" = "issues") := by decide
  unfold Viper.IsSet at h
  rw [if_neg hne] at h
  unfold Viper.GetString
  cases hi : vConfig.issues with
  | none => rfl
  | some entries =>
    rw [hi] at h
    cases hl : entries.lookup (ConfigIssuesPrefix ++ "trackerUrl") with
    | none => simp [hl]
    | some v => simp [hl] at h

/-- C2, as stated, fails for a tracker URL that ends in more than one slash:
`createIssuesConfigs` leaves `https://x/browse//` as it is, and the issue of `PROJ-12`
gets the URL `https://x/browse//PROJ-12`, with two slashes before the key. -/
theorem C2_counterexample :
    doubleSlashViper.GetString (ConfigIssuesPrefix ++ "trackerUrl") = "https://x/browse//"
    ∧ (createIssuesConfigs (exampleEnv doubleSlashViper (⟨[]⟩, false) jiraLines true)
          freshCommand ⟨"/home", []⟩).1 = .ok ()
    ∧ (createIssuesConfigs (exampleEnv doubleSlashViper (⟨[]⟩, false) jiraLines true)
          freshCommand ⟨"/home", []⟩).2.1.issuesConfig = some doubleSlashConfig
    ∧ logExecFunc doubleSlashConfig ["PROJ-12: fix bug", "PROJ-12", "fix bug"] []
        = (.ok "", [⟨"PROJ-12", "fix bug", "https://x/browse" ++ "//" ++ "PROJ-12", false⟩])
    ∧ "https://x/browse" ++ "//" ++ "PROJ-12" ≠ "https://x/browse" ++ "/" ++ "PROJ-12" := by
  decide

/-- C2, amended: after `createIssuesConfigs` succeeded on a freshly allocated
configuration, an issue produced by the extraction reaction has the empty `Url` when the
configuration document gives no (or an empty) tracker URL; otherwise its `Url` is the
normalised tracker URL followed by the key, where the normalisation appends a slash only
to a URL that does not end in one. So for a base URL that does not end in a slash, given
in the document as `base` or as `base/`, the `Url` is `base/key`, with exactly one slash
between the base URL and the key; a URL that ends in a slash is used as it is, whatever
stands before that slash. -/
theorem C2_issue_url (env : Env) (config config' : BuildAddGitCommand) (vConfig : Viper)
    (w w' : World)
    (h0 : config.issuesConfig = some IssuesConfiguration.new)
    (hread : env.ReadConfigFile config.configFilePath = .ok vConfig)
    (hok : createIssuesConfigs env config w = (.ok (), config', w')) :
    ∃ ic', config'.issuesConfig = some ic' ∧
      ∀ (m : List String) (acc : List AffectedIssue) (key summary : String),
        index m ic'.KeyGroupIndex = some key →
        index m ic'.SummaryGroupIndex = some summary →
        ∃ issue : AffectedIssue,
          logExecFunc ic' m acc = (.ok "", acc ++ [issue]) ∧ issue.Key = key
          ∧ (vConfig.GetString (ConfigIssuesPrefix ++ "trackerUrl") = "" → issue.Url = "")
          ∧ (vConfig.GetString (ConfigIssuesPrefix ++ "trackerUrl") ≠ "" →
              issue.Url
                = AddTrailingSlashIfNeeded (vConfig.GetString (ConfigIssuesPrefix ++ "trackerUrl"))
                  ++ key
              ∧ (∀ base : String, hasSlashSuffix base = false →
                  (vConfig.GetString (ConfigIssuesPrefix ++ "trackerUrl") = base
                    ∨ vConfig.GetString (ConfigIssuesPrefix ++ "trackerUrl") = base ++ "/") →
                  issue.Url = base ++ "/" ++ key)
              ∧ (hasSlashSuffix (vConfig.GetString (ConfigIssuesPrefix ++ "trackerUrl")) = true →
                  issue.Url = vConfig.GetString (ConfigIssuesPrefix ++ "trackerUrl") ++ key)) := by
  obtain ⟨ic', hic', hperr, hurl⟩ :=
    createIssuesConfigs_trackerUrl env config config' _ w w' h0 hok
  rw [populateIssuesConfigsFromSpec_of_read env _ _ w vConfig hread] at hperr hurl
  simp only at hperr hurl
  rw [populateFromViper_trackerUrl env vConfig _ hperr] at hurl
  have hraw : (if vConfig.IsSet (ConfigIssuesPrefix ++ "trackerUrl") = true
        then vConfig.GetString (ConfigIssuesPrefix ++ "trackerUrl")
        else IssuesConfiguration.new.TrackerUrl)
      = vConfig.GetString (ConfigIssuesPrefix ++ "trackerUrl") := by
    by_cases hset : vConfig.IsSet (ConfigIssuesPrefix ++ "trackerUrl") = true
    · rw [if_pos hset]
    · rw [if_neg hset, GetString_trackerUrl_of_not_set vConfig (by simpa using hset)]
      rfl
  rw [hraw] at hurl
  refine ⟨ic', hic', ?_⟩
  intro m acc key summary hkey hsum
  have hk := index_lt_of_eq_some _ _ _ hkey
  have hs := index_lt_of_eq_some _ _ _ hsum
  refine ⟨issueOfMatch ic' m, logExecFunc_of_covered _ _ _ ⟨hk.1, hk.2, hs.1, hs.2⟩, ?_, ?_, ?_⟩
  · simp [issueOfMatch, hkey]
  · intro hempty
    simp [issueOfMatch, hurl, hempty]
  · intro hne
    have hnorm := AddTrailingSlashIfNeeded_ne_empty _ hne
    have hU : (issueOfMatch ic' m).Url
        = AddTrailingSlashIfNeeded (vConfig.GetString (ConfigIssuesPrefix ++ "trackerUrl"))
          ++ key := by
      simp [issueOfMatch, hurl, hne, hnorm, hkey]
    refine ⟨hU, ?_, ?_⟩
    · intro base hsfx hbase
      rw [hU]
      rcases hbase with hb | hb
      · rw [(AddTrailingSlashIfNeeded_cases _ hne).2 (by rw [hb]; exact hsfx), hb]
      · rw [(AddTrailingSlashIfNeeded_cases _ hne).1
          (by rw [hb]; exact hasSlashSuffix_append_slash base), hb]
    · intro hsfx
      rw [hU, (AddTrailingSlashIfNeeded_cases _ hne).1 hsfx]

/-- C2, amended, on the example configuration with the tracker URL `https://x/browse`,
which does not end in a slash: the issue with the key `PROJ-12` gets the URL
`https://x/browse/PROJ-12`. -/
theorem C2_issue_url_witness :
    freshCommand.issuesConfig = some IssuesConfiguration.new
    ∧ (exampleEnv noSlashViper (⟨[]⟩, false) jiraLines true).ReadConfigFile
        freshCommand.configFilePath = .ok noSlashViper
    ∧ (createIssuesConfigs (exampleEnv noSlashViper (⟨[]⟩, false) jiraLines true)
          freshCommand ⟨"/home", []⟩).1 = .ok ()
    ∧ hasSlashSuffix "https://x/browse" = false
    ∧ ∃ ic', (createIssuesConfigs (exampleEnv noSlashViper (⟨[]⟩, false) jiraLines true)
          freshCommand ⟨"/home", []⟩).2.1.issuesConfig = some ic' ∧
        ∃ issue : AffectedIssue,
          logExecFunc ic' ["PROJ-12: fix bug", "PROJ-12", "fix bug"] [] = (.ok "", [] ++ [issue])
          ∧ issue.Key = "PROJ-12"
          ∧ issue.Url = "https://x/browse" ++ "/" ++ "PROJ-12" := by
  have hok : createIssuesConfigs (exampleEnv noSlashViper (⟨[]⟩, false) jiraLines true)
        freshCommand ⟨"/home", []⟩
      = (.ok (), (createIssuesConfigs (exampleEnv noSlashViper (⟨[]⟩, false) jiraLines true)
            freshCommand ⟨"/home", []⟩).2.1,
          (createIssuesConfigs (exampleEnv noSlashViper (⟨[]⟩, false) jiraLines true)
            freshCommand ⟨"/home", []⟩).2.2) := by decide
  obtain ⟨ic', hic', h⟩ := C2_issue_url (exampleEnv noSlashViper (⟨[]⟩, false) jiraLines true)
    freshCommand _ noSlashViper ⟨"/home", []⟩ _ rfl rfl hok
  have hic : ic' = resolvedJiraConfig := by
    have hcfg : (createIssuesConfigs (exampleEnv noSlashViper (⟨[]⟩, false) jiraLines true)
        freshCommand ⟨"/home", []⟩).2.1.issuesConfig = some resolvedJiraConfig := by decide
    rw [hcfg] at hic'
    exact (Option.some.inj hic').symm
  subst hic
  obtain ⟨issue, hrun, hkey, _, hurl⟩ := h ["PROJ-12: fix bug", "PROJ-12", "fix bug"] []
    "PROJ-12" "fix bug" (by decide) (by decide)
  have hraw : noSlashViper.GetString (ConfigIssuesPrefix ++ "trackerUrl") = "https://x/browse" := by
    decide
  refine ⟨rfl, rfl, by decide, by decide, resolvedJiraConfig, hic', issue, hrun, hkey, ?_⟩
  exact (hurl (by rw [hraw]; decide)).2.1 "https://x/browse" (by decide) (Or.inl hraw)

/-! ## C3 -/

/-- C3: when the number of captured groups, `len(MatchedResults) - 1`, is smaller than
the configured key group index or smaller than the configured summary group index,
the reaction returns the error that asks for two capturing groups, and the shared
accumulator is unchanged. -/
theorem C3_too_few_groups (issuesConfig : IssuesConfiguration) (MatchedResults : List String)
    (foundIssues : List AffectedIssue)
    (h : (MatchedResults.length : Int) - 1 < issuesConfig.KeyGroupIndex
      ∨ (MatchedResults.length : Int) - 1 < issuesConfig.SummaryGroupIndex) :
    logExecFunc issuesConfig MatchedResults foundIssues
      = (.error (.errorString malformedPatternMsg), foundIssues) :=
  logExecFunc_of_short issuesConfig MatchedResults foundIssues h

/-- C3, on a match without groups under the example configuration, with one issue
already found. -/
theorem C3_too_few_groups_witness :
    ((["PROJ-1"].length : Int) - 1 < jiraConfig.KeyGroupIndex
      ∨ ((["PROJ-1"].length : Int) - 1 < jiraConfig.SummaryGroupIndex))
    ∧ logExecFunc jiraConfig ["PROJ-1"] [⟨"PROJ-12", "fix bug", "", false⟩]
      = (.error (.errorString malformedPatternMsg), [⟨"PROJ-12", "fix bug", "", false⟩]) :=
  ⟨by decide, C3_too_few_groups jiraConfig ["PROJ-1"] [⟨"PROJ-12", "fix bug", "", false⟩]
    (by decide)⟩

/-! ## C4 -/

/-- C4: once `DoCollect` has reached the stream runner (both reactions built, the
working directory read and switched), a stream that reports a `RevisionRangeError`
makes `DoCollect` return the empty issue sequence and no error, whatever the
accumulator held when the range-error reaction fired. -/
theorem C4_range_error_gives_empty (env : Env) (config : BuildAddGitCommand)
    (issuesConfig : IssuesConfiguration) (lastVcsRevision : String) (w : World)
    (issueRegexp invalidRangeExp : RegExp) (ErrorMsg : String) (found : List AffectedIssue)
    (hlog : env.GetRegExp issuesConfig.Regexp = .ok issueRegexp)
    (herr : env.GetRegExp invalidRangePattern = .ok invalidRangeExp)
    (hwd : env.GetwdErr = none) (hcd : env.ChdirErr config.dotGitPath = none)
    (hstream : runStream env (LogCmd.GetCmd ⟨issuesConfig.LogLimit, lastVcsRevision⟩)
        [⟨issueRegexp, logExecFunc issuesConfig⟩,
          ⟨invalidRangeExp, errExecFunc lastVcsRevision⟩] []
      = (.error (.RevisionRangeError ErrorMsg), found)) :
    (DoCollect env config issuesConfig lastVcsRevision w).1 = .ok [] := by
  rw [DoCollect_result env config issuesConfig lastVcsRevision w issueRegexp invalidRangeExp
    hlog herr hwd hcd, hstream]
  rfl

/-- C4, on the example: the log prints a commit line that yields an issue and then the
diagnostic for the stale revision `abc123`; the issue already found is dropped. -/
theorem C4_range_error_gives_empty_witness :
    runStream (exampleEnv jiraViper (⟨[]⟩, true) staleLines false)
        (LogCmd.GetCmd ⟨jiraConfig.LogLimit, "abc123"⟩)
        [⟨projRegExp, logExecFunc jiraConfig⟩, ⟨invalidRangeRegExp, errExecFunc "abc123"⟩] []
      = (.error (.RevisionRangeError
          "Revision: 'abc123' that was fetched from latest build info does not exist in the git revision range. No new issues are added."),
        [⟨"PROJ-12", "fix bug", "https://x/browse/PROJ-12", false⟩])
    ∧ (DoCollect (exampleEnv jiraViper (⟨[]⟩, true) staleLines false) exampleCommand jiraConfig
        "abc123" ⟨"/home", []⟩).1 = .ok [] := by
  have hstream : runStream (exampleEnv jiraViper (⟨[]⟩, true) staleLines false)
        (LogCmd.GetCmd ⟨jiraConfig.LogLimit, "abc123"⟩)
        [⟨projRegExp, logExecFunc jiraConfig⟩, ⟨invalidRangeRegExp, errExecFunc "abc123"⟩] []
      = (.error (.RevisionRangeError
          "Revision: 'abc123' that was fetched from latest build info does not exist in the git revision range. No new issues are added."),
        [⟨"PROJ-12", "fix bug", "https://x/browse/PROJ-12", false⟩]) := by decide
  exact ⟨hstream,
    C4_range_error_gives_empty (exampleEnv jiraViper (⟨[]⟩, true) staleLines false)
      exampleCommand jiraConfig "abc123" ⟨"/home", []⟩ projRegExp invalidRangeRegExp _ _
      rfl rfl rfl rfl hstream⟩

/-! ## C5 -/

/-- C5: once both reactions are built and the working directory is switched,
`DoCollect` returns an error exactly when the stream runner reports an error that is
not a `RevisionRangeError`, or reports no error with `exitOk = false`; a reported
`RevisionRangeError` gives the empty result without error, any other reported error is
returned as it is, and no error with `exitOk = true` gives the accumulated issues. -/
theorem C5_docollect_outcome (env : Env) (config : BuildAddGitCommand)
    (issuesConfig : IssuesConfiguration) (lastVcsRevision : String) (w : World)
    (issueRegexp invalidRangeExp : RegExp)
    (hlog : env.GetRegExp issuesConfig.Regexp = .ok issueRegexp)
    (herr : env.GetRegExp invalidRangePattern = .ok invalidRangeExp)
    (hwd : env.GetwdErr = none) (hcd : env.ChdirErr config.dotGitPath = none) :
    ∀ (report : Res Bool) (found : List AffectedIssue),
      runStream env (LogCmd.GetCmd ⟨issuesConfig.LogLimit, lastVcsRevision⟩)
          [⟨issueRegexp, logExecFunc issuesConfig⟩,
            ⟨invalidRangeExp, errExecFunc lastVcsRevision⟩] [] = (report, found) →
      ((DoCollect env config issuesConfig lastVcsRevision w).1.isError = true
          ↔ ((∃ err, report = .error err ∧ err.isRevisionRangeError = false)
              ∨ report = .ok false))
      ∧ (∀ err, report = .error err → err.isRevisionRangeError = true →
          (DoCollect env config issuesConfig lastVcsRevision w).1 = .ok [])
      ∧ (∀ err, report = .error err → err.isRevisionRangeError = false →
          (DoCollect env config issuesConfig lastVcsRevision w).1 = .error err)
      ∧ (report = .ok true →
          (DoCollect env config issuesConfig lastVcsRevision w).1 = .ok found) := by
  intro report found hstream
  rw [DoCollect_result env config issuesConfig lastVcsRevision w issueRegexp invalidRangeExp
    hlog herr hwd hcd, hstream]
  cases report with
  | ok exitOk => cases exitOk <;> simp [interpretReport, Res.isError]
  | error err =>
    cases hr : err.isRevisionRangeError <;> simp [interpretReport, Res.isError, hr, CheckError]
  | panic msg => simp [interpretReport, Res.isError]

/-- C5, on the example: the log command prints the three lines and exits with a
failure status, so `DoCollect` returns an error. -/
theorem C5_docollect_outcome_witness :
    (exampleEnv jiraViper (⟨[]⟩, true) jiraLines false).GetRegExp jiraConfig.Regexp
      = .ok projRegExp
    ∧ (exampleEnv jiraViper (⟨[]⟩, true) jiraLines false).GetRegExp invalidRangePattern
      = .ok invalidRangeRegExp
    ∧ (exampleEnv jiraViper (⟨[]⟩, true) jiraLines false).GetwdErr = none
    ∧ (exampleEnv jiraViper (⟨[]⟩, true) jiraLines false).ChdirErr exampleCommand.dotGitPath
      = none
    ∧ (DoCollect (exampleEnv jiraViper (⟨[]⟩, true) jiraLines false) exampleCommand jiraConfig
        "" ⟨"/home", []⟩).1.isError = true :=
  ⟨rfl, rfl, rfl, rfl,
    ((C5_docollect_outcome (exampleEnv jiraViper (⟨[]⟩, true) jiraLines false) exampleCommand
      jiraConfig "" ⟨"/home", []⟩ projRegExp invalidRangeRegExp rfl rfl rfl rfl
      (.ok false) [⟨"PROJ-12", "fix bug", "https://x/browse/PROJ-12", false⟩,
        ⟨"PROJ-7", "add feature", "https://x/browse/PROJ-7", false⟩] (by decide)).1).2
      (Or.inr rfl)⟩

/-! ## C6 -/

/-- C6: for every log limit `n` and last revision `r`, `LogCmd.GetCmd` builds the
arguments `git log --pretty=format:%s -n`, followed by the single argument `r..` when
`r` is not empty and by nothing when `r` is empty; with the limit 100 the depth
argument is `-100`. -/
theorem C6_log_command_arguments (n : Int) (r : String) :
    LogCmd.GetCmd ⟨n, r⟩
        = ["git", "log", "--pretty=format:%s", "-" ++ Itoa n] ++ (if r = "" then [] else [r ++ ".."])
    ∧ LogCmd.GetCmd ⟨n, ""⟩ = ["git", "log", "--pretty=format:%s", "-" ++ Itoa n]
    ∧ (LogCmd.GetCmd ⟨n, r⟩).length = (if r = "" then 4 else 5)
    ∧ LogCmd.GetCmd ⟨GitLogLimit, "abc123"⟩
        = ["git", "log", "--pretty=format:%s", "-100", "abc123.."] := by
  refine ⟨?_, ?_, ?_, by decide⟩
  · by_cases h : r = "" <;> simp [LogCmd.GetCmd, h]
  · simp [LogCmd.GetCmd]
  · by_cases h : r = "" <;> simp [LogCmd.GetCmd, h]

/-! ## C7 -/

theorem lastVcsRevisionLoop_eq_find (vcsUrl : String) (VcsList : List Vcs) :
    lastVcsRevisionLoop vcsUrl VcsList
      = match VcsList.find? (fun vcs => decide (vcs.Url = vcsUrl)) with
        | some vcs => vcs.Revision
        | none => "" := by
  induction VcsList with
  | nil => rfl
  | cons vcs rest ih =>
    by_cases h : vcs.Url = vcsUrl
    · simp [lastVcsRevisionLoop, List.find?, h]
    · simp [lastVcsRevisionLoop, List.find?, h, ih]

theorem lastVcsRevisionLoop_first (vcsUrl : String) (before after : List Vcs) (vcs : Vcs)
    (hbefore : ∀ x ∈ before, x.Url ≠ vcsUrl) (hvcs : vcs.Url = vcsUrl) :
    lastVcsRevisionLoop vcsUrl (before ++ vcs :: after) = vcs.Revision := by
  induction before with
  | nil => simp [lastVcsRevisionLoop, hvcs]
  | cons x xs ih =>
    have hx : x.Url ≠ vcsUrl := hbefore x (List.mem_cons_self _ _)
    simp only [List.cons_append, lastVcsRevisionLoop, if_neg hx]
    exact ih (fun y hy => hbefore y (List.mem_cons_of_mem _ hy))

theorem lastVcsRevisionLoop_none (vcsUrl : String) (VcsList : List Vcs)
    (h : ∀ x ∈ VcsList, x.Url ≠ vcsUrl) : lastVcsRevisionLoop vcsUrl VcsList = "" := by
  induction VcsList with
  | nil => rfl
  | cons x xs ih =>
    have hx : x.Url ≠ vcsUrl := h x (List.mem_cons_self _ _)
    simp only [lastVcsRevisionLoop, if_neg hx]
    exact ih (fun y hy => h y (List.mem_cons_of_mem _ hy))

theorem getLatestVcsRevision_of_found (env : Env) (issuesConfig : IssuesConfiguration)
    (vcsUrl : String) (w : World) (sm : ServiceManager) (buildName : String)
    (published : BuildInfo) (found : Bool)
    (hsm : env.CreateServiceManager issuesConfig.ServerDetails = .ok sm)
    (hname : env.GetBuildName = .ok buildName)
    (hinfo : env.GetBuildInfo sm buildName = .ok (published, found)) :
    getLatestBuildInfo env issuesConfig w
        = (.ok (if found then published else ⟨[]⟩),
            ((w.record .CreateServiceManager).record .GetBuildName).record
              (.GetBuildInfo buildName))
    ∧ getLatestVcsRevision env issuesConfig vcsUrl w
        = (.ok (lastVcsRevisionLoop vcsUrl (if found then published else ⟨[]⟩).VcsList),
            ((w.record .CreateServiceManager).record .GetBuildName).record
              (.GetBuildInfo buildName)) := by
  have h1 : getLatestBuildInfo env issuesConfig w
      = (.ok (if found then published else ⟨[]⟩),
          ((w.record .CreateServiceManager).record .GetBuildName).record
            (.GetBuildInfo buildName)) := by
    cases found <;> simp [getLatestBuildInfo, hsm, hname, hinfo]
  refine ⟨h1, ?_⟩
  simp only [getLatestVcsRevision, h1]

/-- C7: when the build-record store returns the latest published build, then for every
list of VCS entries of that build and every current remote URL,
`getLatestVcsRevision` returns without error the `Revision` of the first entry whose
`Url` equals the current URL, and the empty string when no entry has that `Url`, the
empty list included. -/
theorem C7_revision_of_first_matching_entry (env : Env) (issuesConfig : IssuesConfiguration)
    (vcsUrl : String) (w : World) (sm : ServiceManager) (buildName : String)
    (published : BuildInfo)
    (hsm : env.CreateServiceManager issuesConfig.ServerDetails = .ok sm)
    (hname : env.GetBuildName = .ok buildName)
    (hinfo : env.GetBuildInfo sm buildName = .ok (published, true)) :
    (∀ (before after : List Vcs) (vcs : Vcs),
        published.VcsList = before ++ vcs :: after →
        (∀ x ∈ before, x.Url ≠ vcsUrl) → vcs.Url = vcsUrl →
        (getLatestVcsRevision env issuesConfig vcsUrl w).1 = .ok vcs.Revision)
    ∧ ((∀ x ∈ published.VcsList, x.Url ≠ vcsUrl) →
        (getLatestVcsRevision env issuesConfig vcsUrl w).1 = .ok "")
    ∧ (published.VcsList = [] →
        (getLatestVcsRevision env issuesConfig vcsUrl w).1 = .ok "")
    ∧ (getLatestVcsRevision env issuesConfig vcsUrl w).1
        = .ok (match published.VcsList.find? (fun vcs => decide (vcs.Url = vcsUrl)) with
            | some vcs => vcs.Revision
            | none => "") := by
  have h := (getLatestVcsRevision_of_found env issuesConfig vcsUrl w sm buildName published true
    hsm hname hinfo).2
  simp only [if_true] at h
  rw [h]
  refine ⟨?_, ?_, ?_, ?_⟩
  · intro before after vcs hlist hbefore hvcs
    rw [hlist, lastVcsRevisionLoop_first vcsUrl before after vcs hbefore hvcs]
  · intro hnone
    rw [lastVcsRevisionLoop_none vcsUrl _ hnone]
  · intro hnil
    rw [hnil]; rfl
  · rw [lastVcsRevisionLoop_eq_find]

/-- C7, on a latest build with entries for two repositories: the revision recorded for
the second one is returned for its URL. -/
theorem C7_revision_of_first_matching_entry_witness :
    (getLatestVcsRevision (exampleEnv jiraViper (twoVcsBuild, true) jiraLines true) jiraConfig
      "https://git.example/b.git" ⟨"/home", []⟩).1 = .ok "def456" :=
  (C7_revision_of_first_matching_entry (exampleEnv jiraViper (twoVcsBuild, true) jiraLines true)
    jiraConfig "https://git.example/b.git" ⟨"/home", []⟩ ⟨none⟩ "my-build" twoVcsBuild
    rfl rfl rfl).1
    [⟨"https://git.example/a.git", "abc123", "main", "first"⟩] []
    ⟨"https://git.example/b.git", "def456", "main", "second"⟩ rfl (by decide) rfl

/-! ## C8 -/

/-- The calls `createIssuesConfigs` makes: it reads the configuration file and, if the
file is accepted, resolves the server. -/
theorem createIssuesConfigs_trace (env : Env) (config : BuildAddGitCommand) (w : World) :
    (createIssuesConfigs env config w).2.2.trace
        = w.trace ++ [.ReadConfigFile config.configFilePath]
    ∨ ∃ serverId, (createIssuesConfigs env config w).2.2.trace
        = w.trace ++ [.ReadConfigFile config.configFilePath, .GetSpecificConfig serverId] := by
  unfold createIssuesConfigs
  cases hc : config.issuesConfig with
  | none =>
    left
    cases hr : env.ReadConfigFile config.configFilePath with
    | error e => simp [hr, World.record]
    | ok v => by_cases hi : v.IsSet "issues" <;> simp [hr, hi, World.record]
  | some ic =>
    simp only [populateIssuesConfigsFromSpec]
    cases hr : env.ReadConfigFile config.configFilePath with
    | error e => left; simp [World.record]
    | ok v =>
      simp only
      cases hp : (populateFromViper env v ic).1 with
      | some e => left; simp [World.record]
      | none =>
        right
        simp only [setServerDetails]
        generalize (if config.serverId ≠ "" then config.serverId
          else (populateFromViper env v ic).2.ServerID) = sid
        refine ⟨sid, ?_⟩
        cases env.GetSpecificConfig sid <;> simp [World.record]

theorem getLatestVcsRevision_trace (env : Env) (issuesConfig : IssuesConfiguration)
    (vcsUrl : String) (w : World) :
    ∀ ev ∈ (getLatestVcsRevision env issuesConfig vcsUrl w).2.trace,
      ev ∈ w.trace ∨ ev.isRemoteLookup = true := by
  intro ev hev
  unfold getLatestVcsRevision getLatestBuildInfo at hev
  cases hsm : env.CreateServiceManager issuesConfig.ServerDetails with
  | error e =>
    simp [hsm, World.record] at hev
    rcases hev with h | h
    · exact Or.inl h
    · right; rw [h]; rfl
  | ok sm =>
    cases hname : env.GetBuildName with
    | error e =>
      simp [hsm, hname, World.record] at hev
      rcases hev with h | h | h
      · exact Or.inl h
      · right; rw [h]; rfl
      · right; rw [h]; rfl
    | ok buildName =>
      cases hinfo : env.GetBuildInfo sm buildName with
      | error e =>
        simp [hsm, hname, hinfo, World.record] at hev
        rcases hev with h | h | h | h
        · exact Or.inl h
        · right; rw [h]; rfl
        · right; rw [h]; rfl
        · right; rw [h]; rfl
      | ok r =>
        rcases r with ⟨published, found⟩
        cases found <;> simp [hsm, hname, hinfo, World.record] at hev <;>
          (rcases hev with h | h | h | h
           · exact Or.inl h
           · right; rw [h]; rfl
           · right; rw [h]; rfl
           · right; rw [h]; rfl)

theorem collectBuildIssues_of_config_ok (env : Env) (config config1 : BuildAddGitCommand)
    (vcsUrl gitPath : String) (w w1 : World) (issuesConfig : IssuesConfiguration)
    (hpath : env.LookPath "git" = .ok gitPath)
    (hcfg : createIssuesConfigs env { config with issuesConfig := some IssuesConfiguration.new }
        (w.record (.LookPath "git")) = (.ok (), config1, w1))
    (hic : config1.issuesConfig = some issuesConfig) :
    collectBuildIssues env config vcsUrl w
      = match getLatestVcsRevision env issuesConfig vcsUrl w1 with
        | (.error err, w2) => (.error err, config1, w2)
        | (.ok lastVcsRevision, w2) =>
          ((DoCollect env config1 issuesConfig lastVcsRevision w2).1, config1,
            (DoCollect env config1 issuesConfig lastVcsRevision w2).2) := by
  unfold collectBuildIssues
  simp only [hpath, hcfg, hic]

theorem mem_trace_of_createIssuesConfigs (env : Env) (config : BuildAddGitCommand) (w : World)
    (ev : Event) (hev : ev ∈ (createIssuesConfigs env config w).2.2.trace) :
    ev ∈ w.trace ∨ (ev.isDoCollect = false ∧ ev.isRemoteLookup = false) := by
  rcases createIssuesConfigs_trace env config w with h | ⟨sid, h⟩
  · rw [h] at hev
    simp at hev
    rcases hev with h | h
    · exact Or.inl h
    · right; rw [h]; exact ⟨rfl, rfl⟩
  · rw [h] at hev
    simp at hev
    rcases hev with h | h | h
    · exact Or.inl h
    · right; rw [h]; exact ⟨rfl, rfl⟩
    · right; rw [h]; exact ⟨rfl, rfl⟩

theorem isDoCollect_of_isRemoteLookup (ev : Event) (h : ev.isRemoteLookup = true) :
    ev.isDoCollect = false := by
  cases ev <;> simp_all [Event.isRemoteLookup, Event.isDoCollect]

/-- C8: the revision-bound lookup tells "not found" from failure. When the store
answers `found = false` without error, `getLatestBuildInfo` returns the empty build
info and `getLatestVcsRevision` returns the empty string and no error. When creating
the services manager, reading the build name or the store call fails,
`getLatestVcsRevision` returns that error, and `collectBuildIssues` returns it and
stops there: its world is the one the failed lookup left, in which no call of
`DoCollect` was made. -/
theorem C8_not_found_is_not_failure (env : Env) (issuesConfig : IssuesConfiguration)
    (vcsUrl : String) (w : World) :
    (∀ sm buildName published,
        env.CreateServiceManager issuesConfig.ServerDetails = .ok sm →
        env.GetBuildName = .ok buildName →
        env.GetBuildInfo sm buildName = .ok (published, false) →
        (getLatestBuildInfo env issuesConfig w).1 = .ok ⟨[]⟩
          ∧ (getLatestVcsRevision env issuesConfig vcsUrl w).1 = .ok "")
    ∧ (∀ err, env.CreateServiceManager issuesConfig.ServerDetails = .error err →
        (getLatestVcsRevision env issuesConfig vcsUrl w).1 = .error err)
    ∧ (∀ sm err, env.CreateServiceManager issuesConfig.ServerDetails = .ok sm →
        env.GetBuildName = .error err →
        (getLatestVcsRevision env issuesConfig vcsUrl w).1 = .error err)
    ∧ (∀ sm buildName err, env.CreateServiceManager issuesConfig.ServerDetails = .ok sm →
        env.GetBuildName = .ok buildName →
        env.GetBuildInfo sm buildName = .error err →
        (getLatestVcsRevision env issuesConfig vcsUrl w).1 = .error err)
    ∧ (∀ (config config1 : BuildAddGitCommand) (w0 : World) (gitPath : String) (err : GoError),
        env.LookPath "git" = .ok gitPath →
        createIssuesConfigs env { config with issuesConfig := some IssuesConfiguration.new }
          (w0.record (.LookPath "git")) = (.ok (), config1, w) →
        config1.issuesConfig = some issuesConfig →
        (getLatestVcsRevision env issuesConfig vcsUrl w).1 = .error err →
        (collectBuildIssues env config vcsUrl w0).1 = .error err
          ∧ (collectBuildIssues env config vcsUrl w0).2.2
            = (getLatestVcsRevision env issuesConfig vcsUrl w).2
          ∧ ∀ ev ∈ (collectBuildIssues env config vcsUrl w0).2.2.trace,
              ev ∈ w0.trace ∨ ev.isDoCollect = false) := by
  refine ⟨?_, ?_, ?_, ?_, ?_⟩
  · intro sm buildName published hsm hname hinfo
    have h := getLatestVcsRevision_of_found env issuesConfig vcsUrl w sm buildName published
      false hsm hname hinfo
    rw [h.1, h.2]
    exact ⟨rfl, rfl⟩
  · intro err hsm
    simp [getLatestVcsRevision, getLatestBuildInfo, hsm]
  · intro sm err hsm hname
    simp [getLatestVcsRevision, getLatestBuildInfo, hsm, hname]
  · intro sm buildName err hsm hname hinfo
    simp [getLatestVcsRevision, getLatestBuildInfo, hsm, hname, hinfo]
  · intro config config1 w0 gitPath err hpath hcfg hic hrev
    have hc := collectBuildIssues_of_config_ok env config config1 vcsUrl gitPath w0 w
      issuesConfig hpath hcfg hic
    have htr := getLatestVcsRevision_trace env issuesConfig vcsUrl w
    rcases hg : getLatestVcsRevision env issuesConfig vcsUrl w with ⟨r, w2⟩
    rw [hg] at hrev hc htr
    simp only at hrev
    subst hrev
    simp only at hc
    rw [hc]
    refine ⟨rfl, rfl, ?_⟩
    intro ev hev
    rcases htr ev hev with h | h
    · have hw : w = (createIssuesConfigs env
          { config with issuesConfig := some IssuesConfiguration.new }
          (w0.record (.LookPath "git"))).2.2 := by rw [hcfg]
      rw [hw] at h
      rcases mem_trace_of_createIssuesConfigs _ _ _ ev h with h' | h'
      · simp [World.record] at h'
        rcases h' with h' | h'
        · exact Or.inl h'
        · right; rw [h']; rfl
      · exact Or.inr h'.1
    · exact Or.inr (isDoCollect_of_isRemoteLookup ev h)

/-- C8, on the examples: a store that answers "not found" gives the empty bound, and a
store that cannot be reached makes `collectBuildIssues` return its error. -/
theorem C8_not_found_is_not_failure_witness :
    (getLatestVcsRevision (exampleEnv jiraViper (twoVcsBuild, false) jiraLines true) jiraConfig
        "https://git.example/a.git" ⟨"/home", []⟩).1 = .ok ""
    ∧ (collectBuildIssues unreachableStoreEnv exampleCommand "https://git.example/a.git"
        ⟨"/home", []⟩).1 = .error (.errorString "connection refused") := by
  constructor
  · exact ((C8_not_found_is_not_failure (exampleEnv jiraViper (twoVcsBuild, false) jiraLines true)
      jiraConfig "https://git.example/a.git" ⟨"/home", []⟩).1 ⟨none⟩ "my-build" twoVcsBuild
      rfl rfl rfl).2
  · have hcfg : createIssuesConfigs unreachableStoreEnv
        { exampleCommand with issuesConfig := some IssuesConfiguration.new }
        ((⟨"/home", []⟩ : World).record (.LookPath "git"))
        = (.ok (), (createIssuesConfigs unreachableStoreEnv
            { exampleCommand with issuesConfig := some IssuesConfiguration.new }
            ((⟨"/home", []⟩ : World).record (.LookPath "git"))).2.1,
          (createIssuesConfigs unreachableStoreEnv
            { exampleCommand with issuesConfig := some IssuesConfiguration.new }
            ((⟨"/home", []⟩ : World).record (.LookPath "git"))).2.2) := by decide
    exact ((C8_not_found_is_not_failure unreachableStoreEnv resolvedJiraConfig
      "https://git.example/a.git" _).2.2.2.2 exampleCommand _ ⟨"/home", []⟩ "/usr/bin/git"
      (.errorString "connection refused") rfl hcfg (by decide) rfl).1

/-! ## C9 -/

theorem CheckErrorf_missing (key : String) :
    CheckErrorf MissingConfigurationError [key]
      = .errorString ("Configuration file must contain: " ++ key) := by
  unfold CheckErrorf
  congr 1
  apply String.ext
  simp [Sprintf, sprintfAux, MissingConfigurationError]

theorem CheckErrorf_parse (field detail : String) :
    CheckErrorf ConfigParseValueError [field, detail]
      = .errorString ("Failed parsing " ++ field ++ " from configuration file: " ++ detail) := by
  unfold CheckErrorf
  congr 1
  apply String.ext
  simp [Sprintf, sprintfAux, ConfigParseValueError]

theorem Atoi_error (s : String) (v : Int) (e : NumError) (h : Atoi s = .error v e) :
    e.Func = "Atoi" ∧ e.Num = s := by
  unfold Atoi at h
  simp only at h
  repeat' split at h
  all_goals first
    | (injection h with _ h2; subst h2; exact ⟨rfl, rfl⟩)
    | (exact absurd h (by simp))

theorem ParseBool_error (s : String) (v : Bool) (e : NumError) (h : ParseBool s = .error v e) :
    e.Func = "ParseBool" ∧ e.Num = s ∧ e.Err = "invalid syntax" := by
  unfold ParseBool at h
  repeat' split at h
  all_goals first
    | (injection h with _ h2; subst h2; exact ⟨rfl, rfl, rfl⟩)
    | (exact absurd h (by simp))

/-- C9, as stated, fails on a document without an `issues` section: it lacks
`issues.trackerName`, and the error names `issues`. -/
theorem C9_counterexample :
    (⟨none⟩ : Viper).IsSet (ConfigIssuesPrefix ++ "trackerName") = false
    ∧ (populateIssuesConfigsFromSpec (exampleEnv ⟨none⟩ (⟨[]⟩, false) jiraLines true)
        IssuesConfiguration.new "/repo/issues.yaml" ⟨"/home", []⟩).1
      = some (.errorString "Configuration file must contain: issues")
    ∧ (populateIssuesConfigsFromSpec (exampleEnv ⟨none⟩ (⟨[]⟩, false) jiraLines true)
        IssuesConfiguration.new "/repo/issues.yaml" ⟨"/home", []⟩).1
      ≠ some (.errorString "Configuration file must contain: issues.trackerName") := by
  decide

/-- C9, amended: `populateIssuesConfigsFromSpec` returns the missing-configuration
error naming `issues` for a document without an `issues` section; for a document that has
one, the error names `issues.trackerName` when that key is unset, `issues.regexp` when it
is the first unset one, `issues.keyGroupIndex` when it is the first unset one, and
`issues.summaryGroupIndex` when it is the first unset one and the key group index is an
integer; `collectBuildIssues` (git found, file read) then returns that error having
made only the two calls that look up git and read the file. -/
theorem C9_missing_key_named (env : Env) (vConfig : Viper) (ic : IssuesConfiguration) :
    (vConfig.IsSet "issues" = false →
        (populateFromViper env vConfig ic).1
          = some (.errorString "Configuration file must contain: issues"))
    ∧ (vConfig.IsSet "issues" = true →
        vConfig.IsSet (ConfigIssuesPrefix ++ "trackerName") = false →
        (populateFromViper env vConfig ic).1
          = some (.errorString "Configuration file must contain: issues.trackerName"))
    ∧ (vConfig.IsSet "issues" = true →
        vConfig.IsSet (ConfigIssuesPrefix ++ "trackerName") = true →
        vConfig.IsSet (ConfigIssuesPrefix ++ "regexp") = false →
        (populateFromViper env vConfig ic).1
          = some (.errorString "Configuration file must contain: issues.regexp"))
    ∧ (vConfig.IsSet "issues" = true →
        vConfig.IsSet (ConfigIssuesPrefix ++ "trackerName") = true →
        vConfig.IsSet (ConfigIssuesPrefix ++ "regexp") = true →
        vConfig.IsSet (ConfigIssuesPrefix ++ "keyGroupIndex") = false →
        (populateFromViper env vConfig ic).1
          = some (.errorString "Configuration file must contain: issues.keyGroupIndex"))
    ∧ (vConfig.IsSet "issues" = true →
        vConfig.IsSet (ConfigIssuesPrefix ++ "trackerName") = true →
        vConfig.IsSet (ConfigIssuesPrefix ++ "regexp") = true →
        vConfig.IsSet (ConfigIssuesPrefix ++ "keyGroupIndex") = true →
        (∃ k, Atoi (vConfig.GetString (ConfigIssuesPrefix ++ "keyGroupIndex")) = .ok k) →
        vConfig.IsSet (ConfigIssuesPrefix ++ "summaryGroupIndex") = false →
        (populateFromViper env vConfig ic).1
          = some (.errorString "Configuration file must contain: issues.summaryGroupIndex"))
    ∧ (∀ (config : BuildAddGitCommand) (vcsUrl gitPath : String) (w : World) (err : GoError),
        env.LookPath "git" = .ok gitPath →
        env.ReadConfigFile config.configFilePath = .ok vConfig →
        (populateFromViper env vConfig IssuesConfiguration.new).1 = some err →
        (collectBuildIssues env config vcsUrl w).1 = .error err
          ∧ (collectBuildIssues env config vcsUrl w).2.2.trace
            = w.trace ++ [.LookPath "git", .ReadConfigFile config.configFilePath]
          ∧ (collectBuildIssues env config vcsUrl w).2.2.cwd = w.cwd) := by
  refine ⟨?_, ?_, ?_, ?_, ?_, ?_⟩
  · intro h0
    unfold populateFromViper
    simp only [h0, Bool.not_false, if_true]
    rw [CheckErrorf_missing]; rfl
  · intro hissues h1
    unfold populateFromViper
    simp only [hissues, h1, Bool.not_true, Bool.not_false, Bool.false_eq_true, if_true, if_false]
    rw [CheckErrorf_missing]; rfl
  · intro hissues h1 h2
    unfold populateFromViper
    simp only [hissues, h1, h2, Bool.not_true, Bool.not_false, Bool.false_eq_true, if_true,
      if_false]
    rw [CheckErrorf_missing]; rfl
  · intro hissues h1 h2 h3
    unfold populateFromViper
    simp only [hissues, h1, h2, h3, Bool.not_true, Bool.not_false, Bool.false_eq_true, if_true,
      if_false]
    rw [CheckErrorf_missing]; rfl
  · intro hissues h1 h2 h3 h4 h5
    obtain ⟨k, hk⟩ := h4
    unfold populateFromViper
    simp only [hissues, h1, h2, h3, hk, h5, Bool.not_true, Bool.not_false, Bool.false_eq_true,
      if_true, if_false]
    rw [CheckErrorf_missing]; rfl
  · intro config vcsUrl gitPath w err hpath hread herr
    unfold collectBuildIssues createIssuesConfigs
    simp only [hpath, populateIssuesConfigsFromSpec, hread, herr, World.record,
      List.append_assoc, List.singleton_append, and_self]

/-- C9, amended, on a document that has the tracker name and nothing else: the error
names `issues.regexp`, and `collectBuildIssues` stops after reading the file. -/
theorem C9_missing_key_named_witness :
    trackerOnlyViper.IsSet "issues" = true
    ∧ trackerOnlyViper.IsSet (ConfigIssuesPrefix ++ "trackerName") = true
    ∧ trackerOnlyViper.IsSet (ConfigIssuesPrefix ++ "regexp") = false
    ∧ (populateFromViper (exampleEnv trackerOnlyViper (⟨[]⟩, false) jiraLines true)
        trackerOnlyViper IssuesConfiguration.new).1
      = some (.errorString "Configuration file must contain: issues.regexp")
    ∧ (collectBuildIssues (exampleEnv trackerOnlyViper (⟨[]⟩, false) jiraLines true)
        exampleCommand "https://git.example/a.git" ⟨"/home", []⟩).1
      = .error (.errorString "Configuration file must contain: issues.regexp")
    ∧ (collectBuildIssues (exampleEnv trackerOnlyViper (⟨[]⟩, false) jiraLines true)
        exampleCommand "https://git.example/a.git" ⟨"/home", []⟩).2.2.trace
      = [.LookPath "git", .ReadConfigFile "/repo/issues.yaml"] := by
  have h := C9_missing_key_named (exampleEnv trackerOnlyViper (⟨[]⟩, false) jiraLines true)
    trackerOnlyViper IssuesConfiguration.new
  have herr := h.2.2.1 (by decide) (by decide) (by decide)
  have hc := h.2.2.2.2.2 exampleCommand "https://git.example/a.git" "/usr/bin/git"
    ⟨"/home", []⟩ _ rfl rfl herr
  exact ⟨by decide, by decide, by decide, herr, hc.1, hc.2.1⟩

/-! ## C10 -/

theorem CheckErrorf_parse_ne_missing (field detail key : String) :
    CheckErrorf ConfigParseValueError [field, detail]
      ≠ CheckErrorf MissingConfigurationError [key] := by
  rw [CheckErrorf_parse, CheckErrorf_missing]
  intro h
  injection h with h
  have hd := congrArg String.data h
  simp [String.data_append] at hd

/-- C10, as stated, fails on a document whose only entry is a key group index that is
not a number: the error returned is the missing-key error for `issues.trackerName`,
not a parse error. -/
theorem C10_counterexample :
    badIndexOnlyViper.IsSet (ConfigIssuesPrefix ++ "keyGroupIndex") = true
    ∧ Atoi (badIndexOnlyViper.GetString (ConfigIssuesPrefix ++ "keyGroupIndex"))
      = .error 0 ⟨"Atoi", "abc", "invalid syntax"⟩
    ∧ (populateIssuesConfigsFromSpec (exampleEnv badIndexOnlyViper (⟨[]⟩, false) jiraLines true)
        IssuesConfiguration.new "/repo/issues.yaml" ⟨"/home", []⟩).1
      = some (CheckErrorf MissingConfigurationError ["issues.trackerName"]) := by
  decide

/-- C10, amended: for a configuration document that has the `issues` section, the
tracker name, the pattern and a key group index, `populateIssuesConfigsFromSpec` returns
a parse error naming `issues.keyGroupIndex` and quoting its raw value when that value is
not an integer; naming `issues.summaryGroupIndex` when the key group index is an integer
and the summary group index is present but not one; naming `issues.aggregate` when both
indices are integers and `aggregate` is present but not a boolean. A parse error is
never equal to a missing-key error. When the method succeeds and `aggregate` is absent,
`Aggregate` is false. -/
theorem C10_parse_errors (env : Env) (vConfig : Viper) (ic : IssuesConfiguration)
    (hissues : vConfig.IsSet "issues" = true)
    (htracker : vConfig.IsSet (ConfigIssuesPrefix ++ "trackerName") = true)
    (hregexp : vConfig.IsSet (ConfigIssuesPrefix ++ "regexp") = true)
    (hkey : vConfig.IsSet (ConfigIssuesPrefix ++ "keyGroupIndex") = true) :
    (∀ v e, Atoi (vConfig.GetString (ConfigIssuesPrefix ++ "keyGroupIndex")) = .error v e →
        (populateFromViper env vConfig ic).1
          = some (.errorString ("Failed parsing issues.keyGroupIndex from configuration file: "
              ++ ("strconv.Atoi: parsing "
                ++ env.Quote (vConfig.GetString (ConfigIssuesPrefix ++ "keyGroupIndex"))
                ++ ": " ++ e.Err))))
    ∧ (∀ k v e, Atoi (vConfig.GetString (ConfigIssuesPrefix ++ "keyGroupIndex")) = .ok k →
        vConfig.IsSet (ConfigIssuesPrefix ++ "summaryGroupIndex") = true →
        Atoi (vConfig.GetString (ConfigIssuesPrefix ++ "summaryGroupIndex")) = .error v e →
        (populateFromViper env vConfig ic).1
          = some (.errorString ("Failed parsing issues.summaryGroupIndex from configuration file: "
              ++ ("strconv.Atoi: parsing "
                ++ env.Quote (vConfig.GetString (ConfigIssuesPrefix ++ "summaryGroupIndex"))
                ++ ": " ++ e.Err))))
    ∧ (∀ k s v e, Atoi (vConfig.GetString (ConfigIssuesPrefix ++ "keyGroupIndex")) = .ok k →
        vConfig.IsSet (ConfigIssuesPrefix ++ "summaryGroupIndex") = true →
        Atoi (vConfig.GetString (ConfigIssuesPrefix ++ "summaryGroupIndex")) = .ok s →
        vConfig.IsSet (ConfigIssuesPrefix ++ "aggregate") = true →
        ParseBool (vConfig.GetString (ConfigIssuesPrefix ++ "aggregate")) = .error v e →
        (populateFromViper env vConfig ic).1
          = some (.errorString ("Failed parsing issues.aggregate from configuration file: "
              ++ ("strconv.ParseBool: parsing "
                ++ env.Quote (vConfig.GetString (ConfigIssuesPrefix ++ "aggregate"))
                ++ ": invalid syntax"))))
    ∧ (∀ field detail key : String,
        CheckErrorf ConfigParseValueError [field, detail]
          ≠ CheckErrorf MissingConfigurationError [key])
    ∧ ((populateFromViper env vConfig ic).1 = none →
        vConfig.IsSet (ConfigIssuesPrefix ++ "aggregate") = false →
        (populateFromViper env vConfig ic).2.Aggregate = false) := by
  refine ⟨?_, ?_, ?_, CheckErrorf_parse_ne_missing, ?_⟩
  · intro v e h1
    obtain ⟨hf, hn⟩ := Atoi_error _ _ _ h1
    unfold populateFromViper
    simp only [hissues, htracker, hregexp, hkey, h1, Bool.not_true, Bool.false_eq_true,
      if_false]
    rw [CheckErrorf_parse, NumError.Error, hf, hn]
    rfl
  · intro k v e h1 h2 h3
    obtain ⟨hf, hn⟩ := Atoi_error _ _ _ h3
    unfold populateFromViper
    simp only [hissues, htracker, hregexp, hkey, h1, h2, h3, Bool.not_true, Bool.false_eq_true,
      if_false]
    rw [CheckErrorf_parse, NumError.Error, hf, hn]
    rfl
  · intro k s v e h1 h2 h3 h4 h5
    obtain ⟨hf, hn, he⟩ := ParseBool_error _ _ _ h5
    unfold populateFromViper
    simp only [hissues, htracker, hregexp, hkey, h1, h2, h3, h4, h5, Bool.not_true,
      Bool.false_eq_true, if_false, if_true]
    rw [CheckErrorf_parse, NumError.Error, hf, hn, he]
    simp only [String.append_assoc]
    rfl
  · intro hnone hagg
    unfold populateFromViper at hnone ⊢
    by_cases h6 : vConfig.IsSet (ConfigIssuesPrefix ++ "summaryGroupIndex") <;>
    cases h5 : Atoi (vConfig.GetString (ConfigIssuesPrefix ++ "keyGroupIndex")) <;>
    cases h7 : Atoi (vConfig.GetString (ConfigIssuesPrefix ++ "summaryGroupIndex")) <;>
    simp only [hissues, htracker, hregexp, hkey, h5, h6, h7, hagg, populateAggregationStatus,
      Bool.not_true, Bool.not_false, Bool.false_eq_true, if_true, if_false, reduceCtorEq]
      at hnone ⊢

/-- C10, amended, on the example document with the key group index `abc`. -/
theorem C10_parse_errors_witness :
    badIndexViper.IsSet "issues" = true
    ∧ badIndexViper.IsSet (ConfigIssuesPrefix ++ "trackerName") = true
    ∧ badIndexViper.IsSet (ConfigIssuesPrefix ++ "regexp") = true
    ∧ badIndexViper.IsSet (ConfigIssuesPrefix ++ "keyGroupIndex") = true
    ∧ (populateFromViper (exampleEnv badIndexViper (⟨[]⟩, false) jiraLines true) badIndexViper
        IssuesConfiguration.new).1
      = some (.errorString
          "Failed parsing issues.keyGroupIndex from configuration file: strconv.Atoi: parsing \"abc\": invalid syntax") := by
  refine ⟨by decide, by decide, by decide, by decide, ?_⟩
  rw [(C10_parse_errors (exampleEnv badIndexViper (⟨[]⟩, false) jiraLines true) badIndexViper
    IssuesConfiguration.new (by decide) (by decide) (by decide) (by decide)).1 0
    ⟨"Atoi", "abc", "invalid syntax"⟩ (by decide)]
  decide

/-! ## C11 -/

theorem GetString_of_not_set (vConfig : Viper) (key : String) (hne : key ≠ "issues")
    (h : vConfig.IsSet key = false) : vConfig.GetString key = "" := by
  unfold Viper.IsSet at h
  rw [if_neg hne] at h
  unfold Viper.GetString
  cases hi : vConfig.issues with
  | none => rfl
  | some entries =>
    rw [hi] at h
    cases hl : entries.lookup key with
    | none => simp [hl]
    | some v => simp [hl] at h

/-- The server id after a successful `populateFromViper`. -/
theorem populateFromViper_serverID (env : Env) (vConfig : Viper) (ic : IssuesConfiguration)
    (h : (populateFromViper env vConfig ic).1 = none) :
    (populateFromViper env vConfig ic).2.ServerID
      = if vConfig.IsSet (ConfigIssuesPrefix ++ "serverID")
          then vConfig.GetString (ConfigIssuesPrefix ++ "serverID") else ic.ServerID := by
  unfold populateFromViper at h ⊢
  by_cases h1 : vConfig.IsSet "issues" <;>
  by_cases h2 : vConfig.IsSet (ConfigIssuesPrefix ++ "trackerName") <;>
  by_cases h3 : vConfig.IsSet (ConfigIssuesPrefix ++ "regexp") <;>
  by_cases h4 : vConfig.IsSet (ConfigIssuesPrefix ++ "keyGroupIndex") <;>
  by_cases h6 : vConfig.IsSet (ConfigIssuesPrefix ++ "summaryGroupIndex") <;>
  cases h5 : Atoi (vConfig.GetString (ConfigIssuesPrefix ++ "keyGroupIndex")) <;>
  cases h7 : Atoi (vConfig.GetString (ConfigIssuesPrefix ++ "summaryGroupIndex")) <;>
  simp only [h1, h2, h3, h4, h5, h6, h7, Bool.not_true, Bool.not_false, Bool.false_eq_true,
    if_true, if_false, reduceCtorEq] at h ⊢
  by_cases h8 : vConfig.IsSet (ConfigIssuesPrefix ++ "aggregate") <;>
  cases h9 : ParseBool (vConfig.GetString (ConfigIssuesPrefix ++ "aggregate")) <;>
  simp only [h8, h9, populateAggregationStatus, Bool.not_true, Bool.not_false,
    Bool.false_eq_true, if_true, if_false, reduceCtorEq] at h ⊢

/-- What `createIssuesConfigs` does once the configuration file is read and accepted:
it resolves one server id and does nothing else outside the program. -/
theorem createIssuesConfigs_of_populate_ok (env : Env) (config : BuildAddGitCommand)
    (ic0 : IssuesConfiguration) (vConfig : Viper) (w : World)
    (h0 : config.issuesConfig = some ic0)
    (hread : env.ReadConfigFile config.configFilePath = .ok vConfig)
    (hp : (populateFromViper env vConfig ic0).1 = none) :
    (createIssuesConfigs env config w).2.2.trace
        = w.trace ++ [.ReadConfigFile config.configFilePath,
            .GetSpecificConfig (if config.serverId ≠ "" then config.serverId
              else (populateFromViper env vConfig ic0).2.ServerID)]
    ∧ (createIssuesConfigs env config w).1
        = (match env.GetSpecificConfig (if config.serverId ≠ "" then config.serverId
              else (populateFromViper env vConfig ic0).2.ServerID) with
          | .error err => .error err
          | .ok _ => .ok ())
    ∧ (∀ serverDetails,
        env.GetSpecificConfig (if config.serverId ≠ "" then config.serverId
              else (populateFromViper env vConfig ic0).2.ServerID) = .ok serverDetails →
        ∃ ic, (createIssuesConfigs env config w).2.1.issuesConfig = some ic
          ∧ ic.ServerDetails = some serverDetails
          ∧ ic.ServerID = (if config.serverId ≠ "" then config.serverId
              else (populateFromViper env vConfig ic0).2.ServerID)
          ∧ ic.Regexp = (populateFromViper env vConfig ic0).2.Regexp
          ∧ ic.KeyGroupIndex = (populateFromViper env vConfig ic0).2.KeyGroupIndex
          ∧ ic.SummaryGroupIndex = (populateFromViper env vConfig ic0).2.SummaryGroupIndex
          ∧ ic.LogLimit = (populateFromViper env vConfig ic0).2.LogLimit) := by
  unfold createIssuesConfigs
  simp only [h0, populateIssuesConfigsFromSpec, hread, hp, setServerDetails]
  generalize (if config.serverId ≠ "" then config.serverId
    else (populateFromViper env vConfig ic0).2.ServerID) = sid
  cases hs : env.GetSpecificConfig sid with
  | error e => simp [World.record]
  | ok sd => simp [World.record]

/-- C11: the server id is selected by precedence. `ServerDetails()` resolves the
`server-id` flag when it is not empty, otherwise the value of `issues.serverID` of the
configuration file, and the empty id of the default server when there is neither a flag
nor a configuration file; `createIssuesConfigs`, on the configuration that
`collectBuildIssues` allocates and a document it accepts, resolves the same id, for
every flag value and every value of `issues.serverID` (absent included). -/
theorem C11_server_id_precedence (env : Env) (config : BuildAddGitCommand) (vConfig : Viper)
    (w : World)
    (hpath : config.configFilePath ≠ "")
    (hread : env.ReadConfigFile config.configFilePath = .ok vConfig) :
    (config.ServerDetails env w).1
        = env.GetSpecificConfig (serverIdByPrecedence config.serverId (some vConfig))
    ∧ (∃ before, (config.ServerDetails env w).2.trace
        = before ++ [.GetSpecificConfig (serverIdByPrecedence config.serverId (some vConfig))])
    ∧ (config.serverId ≠ "" →
        serverIdByPrecedence config.serverId (some vConfig) = config.serverId)
    ∧ (config.serverId = "" →
        serverIdByPrecedence config.serverId (some vConfig)
          = vConfig.GetString (ConfigIssuesPrefix ++ "serverID"))
    ∧ (∀ other : BuildAddGitCommand, other.configFilePath = "" →
        (other.ServerDetails env w).1
            = env.GetSpecificConfig (serverIdByPrecedence other.serverId none)
          ∧ (other.serverId = "" → serverIdByPrecedence other.serverId none = ""))
    ∧ (config.issuesConfig = some IssuesConfiguration.new →
        (populateFromViper env vConfig IssuesConfiguration.new).1 = none →
        (createIssuesConfigs env config w).2.2.trace
            = w.trace ++ [.ReadConfigFile config.configFilePath,
                .GetSpecificConfig (serverIdByPrecedence config.serverId (some vConfig))]
          ∧ ∀ serverDetails,
              env.GetSpecificConfig (serverIdByPrecedence config.serverId (some vConfig))
                = .ok serverDetails →
              ∃ ic, (createIssuesConfigs env config w).2.1.issuesConfig = some ic
                ∧ ic.ServerDetails = some serverDetails
                ∧ ic.ServerID = serverIdByPrecedence config.serverId (some vConfig)) := by
  have hkey : ConfigIssuesPrefix ++ "serverID" = "issues.serverID" := by decide
  refine ⟨?_, ?_, ?_, ?_, ?_, ?_⟩
  · unfold BuildAddGitCommand.ServerDetails serverIdByPrecedence
    by_cases hflag : config.serverId = ""
    · simp [hflag, hpath, hread, hkey]
    · simp [hflag]
  · unfold BuildAddGitCommand.ServerDetails serverIdByPrecedence
    by_cases hflag : config.serverId = ""
    · refine ⟨w.trace ++ [.ReadConfigFile config.configFilePath], ?_⟩
      simp [hflag, hpath, hread, hkey, World.record]
    · refine ⟨w.trace, ?_⟩
      simp [hflag, World.record]
  · intro hflag
    simp [serverIdByPrecedence, hflag]
  · intro hflag
    simp [serverIdByPrecedence, hflag, hkey]
  · intro other hnone
    constructor
    · unfold BuildAddGitCommand.ServerDetails serverIdByPrecedence
      by_cases hflag : other.serverId = "" <;> simp [hflag, hnone]
    · intro hflag
      simp [serverIdByPrecedence, hflag]
  · intro h0 hp
    have hsid : (if config.serverId ≠ "" then config.serverId
          else (populateFromViper env vConfig IssuesConfiguration.new).2.ServerID)
        = serverIdByPrecedence config.serverId (some vConfig) := by
      unfold serverIdByPrecedence
      by_cases hflag : config.serverId = ""
      · simp only [hflag, ne_eq, not_true_eq_false, if_false]
        rw [populateFromViper_serverID env vConfig _ hp, hkey]
        by_cases hset : vConfig.IsSet "issues.serverID" = true
        · rw [if_pos hset]
        · rw [if_neg hset, GetString_of_not_set vConfig "issues.serverID" (by decide)
            (by simpa using hset)]
          rfl
      · simp [hflag]
    have h := createIssuesConfigs_of_populate_ok env config _ vConfig w h0 hread hp
    rw [hsid] at h
    refine ⟨h.1, ?_⟩
    intro serverDetails hsd
    obtain ⟨ic, hic, h1, h2, _⟩ := h.2.2 serverDetails hsd
    exact ⟨ic, hic, h1, h2⟩

/-- C11, on the example document with `issues.serverID: art-2` and no flag: both
`ServerDetails()` and `createIssuesConfigs` resolve `art-2`. -/
theorem C11_server_id_precedence_witness :
    exampleCommand.configFilePath ≠ ""
    ∧ (exampleEnv serverIdViper (⟨[]⟩, false) jiraLines true).ReadConfigFile
        exampleCommand.configFilePath = .ok serverIdViper
    ∧ serverIdByPrecedence exampleCommand.serverId (some serverIdViper) = "art-2"
    ∧ (exampleCommand.ServerDetails (exampleEnv serverIdViper (⟨[]⟩, false) jiraLines true)
        ⟨"/home", []⟩).1 = .ok ⟨"art-2", "https://art.example/artifactory/"⟩
    ∧ (createIssuesConfigs (exampleEnv serverIdViper (⟨[]⟩, false) jiraLines true)
        freshCommand ⟨"/home", []⟩).2.2.trace
      = [.ReadConfigFile "/repo/issues.yaml", .GetSpecificConfig "art-2"] := by
  have h := C11_server_id_precedence (exampleEnv serverIdViper (⟨[]⟩, false) jiraLines true)
    exampleCommand serverIdViper ⟨"/home", []⟩ (by decide) rfl
  have h' := C11_server_id_precedence (exampleEnv serverIdViper (⟨[]⟩, false) jiraLines true)
    freshCommand serverIdViper ⟨"/home", []⟩ (by decide) rfl
  have hsid : serverIdByPrecedence exampleCommand.serverId (some serverIdViper) = "art-2" := by
    decide
  refine ⟨by decide, rfl, hsid, ?_, ?_⟩
  · rw [h.1, hsid]; rfl
  · have ht := (h'.2.2.2.2.2 rfl (by decide)).1
    rw [ht]
    decide

/-! ## C12 -/

/-- C12: when git is not found on the execution path, `collectBuildIssues` returns the
error of the lookup and does nothing else: the command (its `issuesConfig` included) is
as before, the working directory is as before, and the only call recorded is the lookup
of git, so the configuration file is not read, no remote lookup is made and no process
is spawned. -/
theorem C12_git_missing_stops_first (env : Env) (config : BuildAddGitCommand)
    (vcsUrl : String) (w : World) (err : GoError)
    (hgit : env.LookPath "git" = .error err) :
    collectBuildIssues env config vcsUrl w
        = (.error err, config, { cwd := w.cwd, trace := w.trace ++ [.LookPath "git"] })
    ∧ (collectBuildIssues env config vcsUrl w).2.1.issuesConfig = config.issuesConfig
    ∧ (collectBuildIssues env config vcsUrl w).2.2.cwd = w.cwd
    ∧ ∀ ev ∈ (collectBuildIssues env config vcsUrl w).2.2.trace,
        ev ∈ w.trace ∨ ev = .LookPath "git" := by
  have h : collectBuildIssues env config vcsUrl w
      = (.error err, config, { cwd := w.cwd, trace := w.trace ++ [.LookPath "git"] }) := by
    simp [collectBuildIssues, hgit, CheckError, World.record]
  rw [h]
  refine ⟨rfl, rfl, rfl, ?_⟩
  intro ev hev
  simpa using hev

/-- C12, on the example environment without git. -/
theorem C12_git_missing_stops_first_witness :
    noGitEnv.LookPath "git"
      = .error (.errorString "exec: \"git\": executable file not found in $PATH")
    ∧ collectBuildIssues noGitEnv exampleCommand "https://git.example/a.git" ⟨"/home", []⟩
      = (.error (.errorString "exec: \"git\": executable file not found in $PATH"),
          exampleCommand, ⟨"/home", [.LookPath "git"]⟩) :=
  ⟨rfl, (C12_git_missing_stops_first noGitEnv exampleCommand "https://git.example/a.git"
    ⟨"/home", []⟩ _ rfl).1⟩

/-! ## C13 -/

theorem collectBuildIssues_of_populate_error (env : Env) (config : BuildAddGitCommand)
    (vcsUrl gitPath : String) (w : World) (vConfig : Viper) (err : GoError)
    (hgit : env.LookPath "git" = .ok gitPath)
    (hread : env.ReadConfigFile config.configFilePath = .ok vConfig)
    (herr : (populateFromViper env vConfig IssuesConfiguration.new).1 = some err) :
    (collectBuildIssues env config vcsUrl w).1 = .error err
    ∧ (collectBuildIssues env config vcsUrl w).2.2
      = { cwd := w.cwd,
          trace := w.trace ++ [.LookPath "git", .ReadConfigFile config.configFilePath] } := by
  unfold collectBuildIssues createIssuesConfigs
  simp only [hgit, populateIssuesConfigsFromSpec, hread, herr, World.record,
    List.append_assoc, List.singleton_append, and_self]

theorem DoCollect_of_bad_regexp (env : Env) (config : BuildAddGitCommand)
    (issuesConfig : IssuesConfiguration) (lastVcsRevision : String) (w : World) (err : GoError)
    (hbad : env.GetRegExp issuesConfig.Regexp = .error err) :
    DoCollect env config issuesConfig lastVcsRevision w
      = (.error err, w.record (.GetRegExp issuesConfig.Regexp)) := by
  simp [DoCollect, createLogRegExpHandler, hbad]

/-- The world `DoCollect` leaves once it has reached the stream runner. -/
theorem DoCollect_world (env : Env) (config : BuildAddGitCommand)
    (issuesConfig : IssuesConfiguration) (lastVcsRevision : String) (w : World)
    (issueRegexp invalidRangeExp : RegExp)
    (hlog : env.GetRegExp issuesConfig.Regexp = .ok issueRegexp)
    (herr : env.GetRegExp invalidRangePattern = .ok invalidRangeExp)
    (hwd : env.GetwdErr = none) (hcd : env.ChdirErr config.dotGitPath = none) :
    (DoCollect env config issuesConfig lastVcsRevision w).2.trace
        = w.trace ++ [.GetRegExp issuesConfig.Regexp, .GetRegExp invalidRangePattern, .Getwd,
            .Chdir config.dotGitPath,
            .RunCmd (LogCmd.GetCmd ⟨issuesConfig.LogLimit, lastVcsRevision⟩), .Chdir w.cwd]
    ∧ (DoCollect env config issuesConfig lastVcsRevision w).2.cwd
        = (if env.ChdirErr w.cwd = none then w.cwd else config.dotGitPath) := by
  simp only [DoCollect, createLogRegExpHandler, createErrRegExpHandler, hlog, herr, Getwd, hwd,
    DoCollect.body, Chdir, hcd, RunCmdWithOutputParser]
  generalize runStream env _ _ _ = report
  rcases report with ⟨r, found⟩
  cases hback : env.ChdirErr w.cwd <;> cases r with
  | ok exitOk => cases exitOk <;> simp [World.record, hback]
  | error err => by_cases h : err.isRevisionRangeError <;> simp [World.record, h, hback]
  | panic msg => simp [World.record, hback]

theorem getLatestVcsRevision_ok_trace (env : Env) (issuesConfig : IssuesConfiguration)
    (vcsUrl lastVcsRevision : String) (w w2 : World)
    (h : getLatestVcsRevision env issuesConfig vcsUrl w = (.ok lastVcsRevision, w2)) :
    ∃ buildName, w2.trace
      = w.trace ++ [.CreateServiceManager, .GetBuildName, .GetBuildInfo buildName]
      ∧ w2.cwd = w.cwd := by
  unfold getLatestVcsRevision getLatestBuildInfo at h
  cases hsm : env.CreateServiceManager issuesConfig.ServerDetails with
  | error e => simp [hsm] at h
  | ok sm =>
    cases hname : env.GetBuildName with
    | error e => simp [hsm, hname] at h
    | ok buildName =>
      cases hinfo : env.GetBuildInfo sm buildName with
      | error e => simp [hsm, hname, hinfo] at h
      | ok r =>
        rcases r with ⟨published, found⟩
        refine ⟨buildName, ?_⟩
        cases found <;> simp [hsm, hname, hinfo] at h <;>
          (obtain ⟨_, hw⟩ := h; subst hw; simp [World.record])

theorem isSpawn_of_not_isDoCollect (ev : Event) (h : ev.isDoCollect = false) :
    ev.isSpawn = false := by
  cases ev <;> simp_all [Event.isSpawn, Event.isDoCollect]

/-- C13, as stated, fails for a pattern that does not compile: `collectBuildIssues`
reports it only after the build-record store has been asked for the latest build. -/
theorem C13_counterexample :
    (collectBuildIssues (exampleEnv badRegexpViper (⟨[]⟩, false) jiraLines true) exampleCommand
        "https://git.example/a.git" ⟨"/home", []⟩).1
      = .error (.errorString "error parsing regexp")
    ∧ (collectBuildIssues (exampleEnv badRegexpViper (⟨[]⟩, false) jiraLines true) exampleCommand
        "https://git.example/a.git" ⟨"/home", []⟩).2.2.trace
      = [.LookPath "git", .ReadConfigFile "/repo/issues.yaml", .GetSpecificConfig "",
          .CreateServiceManager, .GetBuildName, .GetBuildInfo "my-build",
          .GetRegExp "(PROJ-"] := by
  decide

/-- C13, amended: with git found and the configuration file read, `collectBuildIssues`
returns an error of `populateIssuesConfigsFromSpec` (a missing required key, an
unparsable number or boolean) having only looked up git and read the file, so before
any call to the build-record store and before the log process is spawned; a pattern that
does not compile is reported by `DoCollect` after the revision-bound lookup and before
the log process is spawned; the error about capturing groups comes from the stream, when
the log process has been run. -/
theorem C13_configuration_errors_order (env : Env) (config : BuildAddGitCommand)
    (vcsUrl gitPath : String) (w : World) (vConfig : Viper)
    (hgit : env.LookPath "git" = .ok gitPath)
    (hread : env.ReadConfigFile config.configFilePath = .ok vConfig) :
    (∀ err, (populateFromViper env vConfig IssuesConfiguration.new).1 = some err →
        (collectBuildIssues env config vcsUrl w).1 = .error err
          ∧ (collectBuildIssues env config vcsUrl w).2.2.trace
            = w.trace ++ [.LookPath "git", .ReadConfigFile config.configFilePath])
    ∧ (∀ (ic : IssuesConfiguration) (lastVcsRevision : String) (w2 : World) (err : GoError),
        (populateFromViper env vConfig IssuesConfiguration.new).1 = none →
        (createIssuesConfigs env { config with issuesConfig := some IssuesConfiguration.new }
          (w.record (.LookPath "git"))).1 = .ok () →
        (createIssuesConfigs env { config with issuesConfig := some IssuesConfiguration.new }
          (w.record (.LookPath "git"))).2.1.issuesConfig = some ic →
        getLatestVcsRevision env ic vcsUrl
          (createIssuesConfigs env { config with issuesConfig := some IssuesConfiguration.new }
            (w.record (.LookPath "git"))).2.2 = (.ok lastVcsRevision, w2) →
        env.GetRegExp ic.Regexp = .error err →
        (collectBuildIssues env config vcsUrl w).1 = .error err
          ∧ ∃ serverId buildName, (collectBuildIssues env config vcsUrl w).2.2.trace
            = w.trace ++ [.LookPath "git", .ReadConfigFile config.configFilePath,
                .GetSpecificConfig serverId, .CreateServiceManager, .GetBuildName,
                .GetBuildInfo buildName, .GetRegExp ic.Regexp])
    ∧ (∀ (ic : IssuesConfiguration) (lastVcsRevision : String) (w2 : World)
        (issueRegexp invalidRangeExp : RegExp) (found : List AffectedIssue),
        env.GetRegExp ic.Regexp = .ok issueRegexp →
        env.GetRegExp invalidRangePattern = .ok invalidRangeExp →
        env.GetwdErr = none → env.ChdirErr config.dotGitPath = none →
        runStream env (LogCmd.GetCmd ⟨ic.LogLimit, lastVcsRevision⟩)
            [⟨issueRegexp, logExecFunc ic⟩, ⟨invalidRangeExp, errExecFunc lastVcsRevision⟩] []
          = (.error (.errorString malformedPatternMsg), found) →
        (DoCollect env config ic lastVcsRevision w2).1
            = .error (.errorString malformedPatternMsg)
          ∧ Event.RunCmd (LogCmd.GetCmd ⟨ic.LogLimit, lastVcsRevision⟩)
              ∈ (DoCollect env config ic lastVcsRevision w2).2.trace) := by
  refine ⟨?_, ?_, ?_⟩
  · intro err herr
    have h := collectBuildIssues_of_populate_error env config vcsUrl gitPath w vConfig err
      hgit hread herr
    exact ⟨h.1, by rw [h.2]⟩
  · intro ic lastVcsRevision w2 err hp hok hic hrev hbad
    have hcfg : createIssuesConfigs env
          { config with issuesConfig := some IssuesConfiguration.new }
          (w.record (.LookPath "git"))
        = (.ok (), (createIssuesConfigs env
            { config with issuesConfig := some IssuesConfiguration.new }
            (w.record (.LookPath "git"))).2.1,
          (createIssuesConfigs env
            { config with issuesConfig := some IssuesConfiguration.new }
            (w.record (.LookPath "git"))).2.2) := by
      rw [← hok]
    have hc := collectBuildIssues_of_config_ok env config _ vcsUrl gitPath w _ ic hgit hcfg hic
    rw [hrev] at hc
    simp only at hc
    rw [DoCollect_of_bad_regexp env _ ic lastVcsRevision w2 err hbad] at hc
    simp only at hc
    rw [hc]
    refine ⟨rfl, ?_⟩
    obtain ⟨buildName, htr, _⟩ := getLatestVcsRevision_ok_trace env ic vcsUrl lastVcsRevision
      _ w2 hrev
    have hct := (createIssuesConfigs_of_populate_ok env
      { config with issuesConfig := some IssuesConfiguration.new } IssuesConfiguration.new
      vConfig (w.record (.LookPath "git")) rfl hread hp).1
    refine ⟨(if config.serverId ≠ "" then config.serverId
      else (populateFromViper env vConfig IssuesConfiguration.new).2.ServerID), buildName, ?_⟩
    show (w2.record (.GetRegExp ic.Regexp)).trace = _
    rw [World.record, htr, hct]
    simp only [World.record, List.append_assoc, List.singleton_append,
      List.cons_append, List.nil_append]
  · intro ic lastVcsRevision w2 issueRegexp invalidRangeExp found hlog herr hwd hcd hstream
    constructor
    · rw [DoCollect_result env config ic lastVcsRevision w2 issueRegexp invalidRangeExp
        hlog herr hwd hcd, hstream]
      rfl
    · rw [(DoCollect_world env config ic lastVcsRevision w2 issueRegexp invalidRangeExp
        hlog herr hwd hcd).1]
      simp

/-- C13, amended, on the example document without a pattern: the error is returned
after two calls, none of them to the store or the log process. -/
theorem C13_configuration_errors_order_witness :
    (exampleEnv trackerOnlyViper (⟨[]⟩, false) jiraLines true).LookPath "git"
      = .ok "/usr/bin/git"
    ∧ (exampleEnv trackerOnlyViper (⟨[]⟩, false) jiraLines true).ReadConfigFile
        exampleCommand.configFilePath = .ok trackerOnlyViper
    ∧ (collectBuildIssues (exampleEnv trackerOnlyViper (⟨[]⟩, false) jiraLines true)
        exampleCommand "https://git.example/a.git" ⟨"/home", []⟩).1
      = .error (CheckErrorf MissingConfigurationError ["issues.regexp"])
    ∧ (collectBuildIssues (exampleEnv trackerOnlyViper (⟨[]⟩, false) jiraLines true)
        exampleCommand "https://git.example/a.git" ⟨"/home", []⟩).2.2.trace
      = [] ++ [.LookPath "git", .ReadConfigFile exampleCommand.configFilePath] := by
  have h := (C13_configuration_errors_order
    (exampleEnv trackerOnlyViper (⟨[]⟩, false) jiraLines true) exampleCommand
    "https://git.example/a.git" "/usr/bin/git" ⟨"/home", []⟩ trackerOnlyViper rfl rfl).1
    (CheckErrorf MissingConfigurationError ["issues.regexp"]) (by decide)
  exact ⟨rfl, rfl, h.1, h.2⟩

/-! ## C14 -/

/-- C14, as stated, fails when the original directory cannot be entered again: the
deferred `os.Chdir(wd)` fails, its error is dropped, and `DoCollect` returns its issues
with the process left in the `.git` directory. -/
theorem C14_counterexample :
    (DoCollect noReturnEnv exampleCommand jiraConfig "" ⟨"/home", []⟩).1
      = .ok [⟨"PROJ-12", "fix bug", "https://x/browse/PROJ-12", false⟩,
          ⟨"PROJ-7", "add feature", "https://x/browse/PROJ-7", false⟩]
    ∧ (DoCollect noReturnEnv exampleCommand jiraConfig "" ⟨"/home", []⟩).2.cwd = "/repo/.git"
    ∧ (DoCollect noReturnEnv exampleCommand jiraConfig "" ⟨"/home", []⟩).2.cwd ≠ "/home" := by
  decide

/-- The working directory `DoCollect` leaves: the one it found, unless the directory
was switched and switching back failed. -/
theorem DoCollect_cwd (env : Env) (config : BuildAddGitCommand)
    (issuesConfig : IssuesConfiguration) (lastVcsRevision : String) (w : World) :
    (DoCollect env config issuesConfig lastVcsRevision w).2.cwd = w.cwd
    ∨ ((DoCollect env config issuesConfig lastVcsRevision w).2.cwd = config.dotGitPath
        ∧ env.ChdirErr config.dotGitPath = none ∧ env.ChdirErr w.cwd ≠ none
        ∧ env.GetwdErr = none
        ∧ (∃ issueRegexp, env.GetRegExp issuesConfig.Regexp = .ok issueRegexp)
        ∧ (∃ invalidRangeExp, env.GetRegExp invalidRangePattern = .ok invalidRangeExp)) := by
  cases hlog : env.GetRegExp issuesConfig.Regexp with
  | error e => left; simp [DoCollect, createLogRegExpHandler, hlog, World.record]
  | ok issueRegexp =>
    cases herr : env.GetRegExp invalidRangePattern with
    | error e =>
      left
      simp [DoCollect, createLogRegExpHandler, createErrRegExpHandler, hlog, herr, World.record]
    | ok invalidRangeExp =>
      cases hwd : env.GetwdErr with
      | some e =>
        left
        simp [DoCollect, createLogRegExpHandler, createErrRegExpHandler, hlog, herr, Getwd, hwd,
          World.record]
      | none =>
        cases hcd : env.ChdirErr config.dotGitPath with
        | some e =>
          left
          cases hback : env.ChdirErr w.cwd <;>
            simp [DoCollect, createLogRegExpHandler, createErrRegExpHandler, hlog, herr, Getwd,
              hwd, DoCollect.body, Chdir, hcd, hback, World.record]
        | none =>
          have h := (DoCollect_world env config issuesConfig lastVcsRevision w issueRegexp
            invalidRangeExp hlog herr hwd hcd).2
          cases hback : env.ChdirErr w.cwd with
          | none => left; rw [h, hback]; rfl
          | some e =>
            right
            rw [h, hback]
            exact ⟨by simp, rfl, by simp, rfl, ⟨_, rfl⟩, ⟨_, rfl⟩⟩

/-- C14, amended: on every exit path of `DoCollect` the working directory after the call
equals the one before it, provided the deferred `os.Chdir` back to the original directory
succeeds; on the exit paths taken before the directory is switched (a reaction that
cannot be built, `os.Getwd` failing, the switch itself failing) it is unchanged in any
case. The success of the switch back is needed only on the paths after the switch. -/
theorem C14_working_directory_restored (env : Env) (config : BuildAddGitCommand)
    (issuesConfig : IssuesConfiguration) (lastVcsRevision : String) (w : World) :
    (env.ChdirErr w.cwd = none →
        (DoCollect env config issuesConfig lastVcsRevision w).2.cwd = w.cwd)
    ∧ ((∃ err, env.GetRegExp issuesConfig.Regexp = .error err) →
        (DoCollect env config issuesConfig lastVcsRevision w).2.cwd = w.cwd)
    ∧ ((∃ err, env.GetRegExp invalidRangePattern = .error err) →
        (DoCollect env config issuesConfig lastVcsRevision w).2.cwd = w.cwd)
    ∧ (env.GetwdErr ≠ none →
        (DoCollect env config issuesConfig lastVcsRevision w).2.cwd = w.cwd)
    ∧ (env.ChdirErr config.dotGitPath ≠ none →
        (DoCollect env config issuesConfig lastVcsRevision w).2.cwd = w.cwd) := by
  rcases DoCollect_cwd env config issuesConfig lastVcsRevision w with
    h | ⟨_, hcd, hback, hwd, ⟨re, hlog⟩, ⟨ie, herr⟩⟩
  · exact ⟨fun _ => h, fun _ => h, fun _ => h, fun _ => h, fun _ => h⟩
  · refine ⟨fun hb => absurd hb hback, ?_, ?_, fun hw => absurd hwd hw, fun hc => absurd hcd hc⟩
    · rintro ⟨e, he⟩; rw [he] at hlog; cases hlog
    · rintro ⟨e, he⟩; rw [he] at herr; cases herr

/-- C14, amended, on the example: the process is back in `/home` after a successful
run. -/
theorem C14_working_directory_restored_witness :
    (exampleEnv jiraViper (⟨[]⟩, false) jiraLines true).ChdirErr "/home" = none
    ∧ (DoCollect (exampleEnv jiraViper (⟨[]⟩, false) jiraLines true) exampleCommand jiraConfig
        "" ⟨"/home", []⟩).2.cwd = "/home" :=
  ⟨rfl, (C14_working_directory_restored (exampleEnv jiraViper (⟨[]⟩, false) jiraLines true)
    exampleCommand jiraConfig "" ⟨"/home", []⟩).1 rfl⟩

/-! ## C15 -/

/-- C15 fails on the code: the key group index `-1` is accepted by
`populateIssuesConfigsFromSpec`, passes the guard of the reaction for a match with two
groups, and the reaction then indexes `MatchedResults[-1]`, which is a run-time panic;
`collectBuildIssues` ends in that panic on the first matching line. -/
theorem C15_negative_index_panics :
    Atoi "-1" = .ok (-1)
    ∧ (populateFromViper (exampleEnv negativeIndexViper (⟨[]⟩, false) jiraLines true)
        negativeIndexViper IssuesConfiguration.new).1 = none
    ∧ (populateFromViper (exampleEnv negativeIndexViper (⟨[]⟩, false) jiraLines true)
        negativeIndexViper IssuesConfiguration.new).2.KeyGroupIndex = -1
    ∧ (createIssuesConfigs (exampleEnv negativeIndexViper (⟨[]⟩, false) jiraLines true)
        freshCommand ⟨"/home", []⟩).2.1.issuesConfig = some negativeIndexConfig
    ∧ ¬ ((["PROJ-12: fix bug", "PROJ-12", "fix bug"].length : Int) - 1
          < negativeIndexConfig.KeyGroupIndex
        ∨ (["PROJ-12: fix bug", "PROJ-12", "fix bug"].length : Int) - 1
          < negativeIndexConfig.SummaryGroupIndex)
    ∧ index ["PROJ-12: fix bug", "PROJ-12", "fix bug"] negativeIndexConfig.KeyGroupIndex = none
    ∧ logExecFunc negativeIndexConfig ["PROJ-12: fix bug", "PROJ-12", "fix bug"] []
      = (.panic "index out of range", [])
    ∧ (collectBuildIssues (exampleEnv negativeIndexViper (⟨[]⟩, false) jiraLines true)
        exampleCommand "https://git.example/a.git" ⟨"/home", []⟩).1
      = .panic "index out of range" := by
  decide

/-! ## C16 -/

/-- C16, as stated, fails for the key and the summary both configured as group 1: a
match with one capture group is accepted and an issue is produced for it. -/
theorem C16_counterexample :
    ((["PROJ-1", "PROJ-1"].length : Int) - 1 < 2)
    ∧ logExecFunc sameGroupConfig ["PROJ-1", "PROJ-1"] []
      = (.ok "", [⟨"PROJ-1", "PROJ-1", "https://x/browse/PROJ-1", false⟩]) := by
  decide

/-- C16, amended: when at least one of the configured key and summary group indices is
2 or more, a match that yields fewer than two capture groups is rejected by the reaction
with the error about two capturing groups, and the accumulator is unchanged, so no issue
is produced for it. -/
theorem C16_fewer_than_two_groups_rejected (issuesConfig : IssuesConfiguration)
    (MatchedResults : List String) (foundIssues : List AffectedIssue)
    (hfew : (MatchedResults.length : Int) - 1 < 2)
    (hidx : 2 ≤ issuesConfig.KeyGroupIndex ∨ 2 ≤ issuesConfig.SummaryGroupIndex) :
    logExecFunc issuesConfig MatchedResults foundIssues
      = (.error (.errorString malformedPatternMsg), foundIssues) := by
  apply logExecFunc_of_short
  rcases hidx with h | h
  · left; omega
  · right; omega

/-- C16, amended, on the example configuration (groups 1 and 2) and a match with one
capture group. -/
theorem C16_fewer_than_two_groups_rejected_witness :
    ((["PROJ-1", "PROJ-1"].length : Int) - 1 < 2)
    ∧ (2 ≤ jiraConfig.KeyGroupIndex ∨ 2 ≤ jiraConfig.SummaryGroupIndex)
    ∧ logExecFunc jiraConfig ["PROJ-1", "PROJ-1"] []
      = (.error (.errorString malformedPatternMsg), []) :=
  ⟨by decide, by decide,
    C16_fewer_than_two_groups_rejected jiraConfig ["PROJ-1", "PROJ-1"] [] (by decide)
      (by decide)⟩

end AddGit

namespace EnvSetup

open AddGit (GoError)

/-! ## C17 -/

theorem trailingFailures_append (attempts : List SendPostResult) (sent : SendPostResult) :
    trailingFailures (attempts ++ [sent])
      = if isFailed sent then trailingFailures attempts + 1 else 0 := by
  unfold trailingFailures
  rw [List.reverse_append, List.reverse_singleton, List.singleton_append, List.takeWhile_cons]
  cases isFailed sent <;> simp

theorem afterAttempts_append (deps : Deps) (ftc : EnvSetupCommand)
    (attempts : List SendPostResult) (sent : SendPostResult) (s : PollingState) :
    afterAttempts deps ftc (attempts ++ [sent]) s
      = (pollingAction deps ftc sent (afterAttempts deps ftc attempts s)).2 := by
  induction attempts generalizing s with
  | nil => rfl
  | cons a rest ih =>
    show afterAttempts deps ftc (rest ++ [sent]) (pollingAction deps ftc a s).2 = _
    rw [ih]
    rfl

/-- The error a failed attempt carries. -/
theorem pollingAction_of_failed (deps : Deps) (ftc : EnvSetupCommand) (sent : SendPostResult)
    (s : PollingState) (hfailed : isFailed sent = true) :
    ∃ err, pollingAction deps ftc sent s
      = (if s.errorsCount + 1 = maxConsecutiveErrors then ⟨true, none, some err⟩
          else ⟨false, none, none⟩,
        { s with errorsCount := s.errorsCount + 1 }) := by
  cases sent with
  | failure err =>
    refine ⟨err, ?_⟩
    unfold pollingAction
    by_cases h : s.errorsCount + 1 = maxConsecutiveErrors <;> simp [h]
  | response resp body =>
    refine ⟨deps.responseError resp body, ?_⟩
    have hstatus : ¬ (resp.StatusCode = 200 ∨ resp.StatusCode = 404) := by
      simpa [isFailed] using hfailed
    have hcheck : CheckResponseStatusWithBody deps resp body [StatusOK, StatusNotFound]
        = some (deps.responseError resp body) := by
      unfold CheckResponseStatusWithBody
      rw [if_neg]
      simpa [StatusOK, StatusNotFound] using hstatus
    unfold pollingAction
    simp only [hcheck]
    by_cases h : s.errorsCount + 1 = maxConsecutiveErrors <;> simp [h]

theorem pollingAction_of_answered (deps : Deps) (ftc : EnvSetupCommand) (sent : SendPostResult)
    (s : PollingState) (hanswered : isFailed sent = false) :
    (pollingAction deps ftc sent s).2.errorsCount = 0 := by
  cases sent with
  | failure err => simp [isFailed] at hanswered
  | response resp body =>
    have hstatus : resp.StatusCode = 200 ∨ resp.StatusCode = 404 := by
      by_cases h200 : resp.StatusCode = 200
      · exact Or.inl h200
      · by_cases h404 : resp.StatusCode = 404
        · exact Or.inr h404
        · simp [isFailed, h200, h404] at hanswered
    have hcheck : CheckResponseStatusWithBody deps resp body [StatusOK, StatusNotFound]
        = none := by
      unfold CheckResponseStatusWithBody
      rw [if_pos]
      simpa [StatusOK, StatusNotFound] using hstatus
    unfold pollingAction
    simp only [hcheck]
    by_cases hok : resp.StatusCode = StatusOK
    · simp only [hok, if_true]
      cases hu : deps.Unmarshal body with
      | error e => rfl
      | ok r => cases hr : r.Ready <;> simp [hr]
    · simp only [hok, if_false]

/-- The captured count is the number of failed attempts since the last attempt that did
not fail. -/
theorem errorsCount_afterAttempts (deps : Deps) (ftc : EnvSetupCommand)
    (attempts : List SendPostResult) :
    (afterAttempts deps ftc attempts PollingState.init).errorsCount
      = (trailingFailures attempts : Int) := by
  induction attempts using List.reverseRecOn with
  | nil => rfl
  | append_singleton attempts sent ih =>
    rw [afterAttempts_append, trailingFailures_append]
    cases hf : isFailed sent with
    | true =>
      obtain ⟨err, h⟩ := pollingAction_of_failed deps ftc sent
        (afterAttempts deps ftc attempts PollingState.init) hf
      rw [h]
      simp [ih]
    | false =>
      rw [pollingAction_of_answered deps ftc sent _ hf]
      simp

/-- C17: over any sequence of polling attempts, a failed attempt (the HTTP call errors,
or the status is neither 200 nor 404) makes the polling action stop with an error if and
only if it is the 6th consecutive failed attempt; any other failed attempt returns
"continue" without an error; an attempt answered with 200 or 404 resets the count of
consecutive errors to zero; and the captured count is always the number of consecutive
failed attempts so far. -/
theorem C17_sixth_consecutive_failure_stops (deps : Deps) (ftc : EnvSetupCommand)
    (earlier : List SendPostResult) (sent : SendPostResult) :
    (isFailed sent = true →
        (((pollingAction deps ftc sent (afterAttempts deps ftc earlier PollingState.init)).1.shouldStop
              = true
            ∧ (pollingAction deps ftc sent
                (afterAttempts deps ftc earlier PollingState.init)).1.err ≠ none)
          ↔ trailingFailures (earlier ++ [sent]) = 6)
        ∧ (trailingFailures (earlier ++ [sent]) ≠ 6 →
            (pollingAction deps ftc sent (afterAttempts deps ftc earlier PollingState.init)).1
              = ⟨false, none, none⟩)
        ∧ (trailingFailures (earlier ++ [sent]) = 6 →
            ∃ err, (pollingAction deps ftc sent
                (afterAttempts deps ftc earlier PollingState.init)).1 = ⟨true, none, some err⟩))
    ∧ (isFailed sent = false →
        (pollingAction deps ftc sent
            (afterAttempts deps ftc earlier PollingState.init)).2.errorsCount = 0
          ∧ trailingFailures (earlier ++ [sent]) = 0)
    ∧ (afterAttempts deps ftc earlier PollingState.init).errorsCount
        = (trailingFailures earlier : Int) := by
  refine ⟨?_, ?_, errorsCount_afterAttempts deps ftc earlier⟩
  · intro hfailed
    obtain ⟨err, h⟩ := pollingAction_of_failed deps ftc sent
      (afterAttempts deps ftc earlier PollingState.init) hfailed
    have hcount := errorsCount_afterAttempts deps ftc earlier
    have htrail : trailingFailures (earlier ++ [sent]) = trailingFailures earlier + 1 := by
      rw [trailingFailures_append, hfailed]; rfl
    rw [h, hcount, htrail]
    have hiff : ((trailingFailures earlier : Int) + 1 = maxConsecutiveErrors)
        ↔ trailingFailures earlier + 1 = 6 := by
      unfold maxConsecutiveErrors; omega
    by_cases h6 : trailingFailures earlier + 1 = 6
    · have h6' := hiff.2 h6
      simp [h6, h6']
    · have h6' : ¬ ((trailingFailures earlier : Int) + 1 = maxConsecutiveErrors) :=
        fun hc => h6 (hiff.1 hc)
      simp [h6, h6']
  · intro hanswered
    refine ⟨pollingAction_of_answered deps ftc sent _ hanswered, ?_⟩
    rw [trailingFailures_append, hanswered]
    rfl

/-- C17, on five attempts answered with status 500 followed by a failed HTTP call: the
sixth consecutive failure stops the polling with its error. -/
theorem C17_sixth_consecutive_failure_stops_witness :
    isFailed (.failure (.errorString "connection reset")) = true
    ∧ trailingFailures (fiveFailures ++ [.failure (.errorString "connection reset")]) = 6
    ∧ (pollingAction exampleDeps ⟨Human, false⟩ (.failure (.errorString "connection reset"))
        (afterAttempts exampleDeps ⟨Human, false⟩ fiveFailures PollingState.init)).1.shouldStop
      = true
    ∧ (pollingAction exampleDeps ⟨Human, false⟩ (.failure (.errorString "connection reset"))
        (afterAttempts exampleDeps ⟨Human, false⟩ fiveFailures PollingState.init)).1.err
      ≠ none := by
  have h6 : trailingFailures (fiveFailures ++ [.failure (.errorString "connection reset")]) = 6 := by
    decide
  have h := ((C17_sixth_consecutive_failure_stops exampleDeps ⟨Human, false⟩ fiveFailures
    (.failure (.errorString "connection reset"))).1 rfl).1.2 h6
  exact ⟨rfl, h6, h.1, h.2⟩

end EnvSetup

namespace Jas

open AddGit (GoError Res)

/-! ## Lemmas on the map, the two loops and the split -/

theorem GoMap.get_set (m : GoMap) (key value key' : String) :
    (m.set key value).get key' = if key' = key then some value else m.get key' := by
  unfold GoMap.set GoMap.get
  by_cases h : key' = key
  · simp [List.lookup, h]
  · have hb : (key' == key) = false := by simpa using h
    simp [List.lookup, h, hb]

theorem get_setUnknown (m : GoMap) (xrayCves : List String) (key : String) :
    (setUnknown m xrayCves).get key
      = if key ∈ xrayCves then some "unknown" else m.get key := by
  induction xrayCves generalizing m with
  | nil => simp [setUnknown]
  | cons cve rest ih =>
    rw [setUnknown, ih, GoMap.get_set]
    by_cases h1 : key ∈ rest
    · simp [h1]
    · by_cases h2 : key = cve <;> simp [h1, h2]

theorem verdict_eq (result : SarifResult) :
    (if isVulnerabilityApplicable result then "Yes" else "No") = verdict (some result) := by
  unfold isVulnerabilityApplicable verdict
  cases hk : result.Kind with
  | none => simp [hk]
  | some kind => by_cases hp : kind = "pass" <;> simp [hk, hp]


theorem setApplicability_step (m : GoMap) (result : SarifResult) (ruleId name : String)
    (rest : List (Option SarifResult)) (hrule : result.RuleID = some ruleId)
    (hname : getVulnerabilityName ruleId = some name) :
    setApplicability m (some result :: rest)
      = setApplicability (m.set name (verdict (some result))) rest := by
  rw [← verdict_eq]
  simp only [setApplicability, hrule, hname]
  cases isVulnerabilityApplicable result <;> simp

theorem resultName_of_ok (m m' : GoMap) (results : List (Option SarifResult))
    (h : setApplicability m results = .ok m') :
    ∀ r ∈ results, ∃ name, resultName r = some name := by
  induction results generalizing m with
  | nil => intro r hr; cases hr
  | cons first rest ih =>
    cases first with
    | none => simp [setApplicability] at h
    | some result =>
      cases hrule : result.RuleID with
      | none => simp [setApplicability, hrule] at h
      | some ruleId =>
        cases hname : getVulnerabilityName ruleId with
        | none => simp [setApplicability, hrule, hname] at h
        | some name =>
          rw [setApplicability_step m result ruleId name rest hrule hname] at h
          intro r hr
          rcases List.mem_cons.1 hr with hr | hr
          · exact ⟨name, by rw [hr]; simp [resultName, hrule, hname]⟩
          · exact ih _ h r hr

/-- What the second loop leaves under a key: the verdict of the last result that carries
the key as its name, and the earlier value when no result does. -/
theorem get_setApplicability (m m' : GoMap) (results : List (Option SarifResult))
    (key : String) (h : setApplicability m results = .ok m') :
    m'.get key = (match lastVerdict key results with
      | some v => some v
      | none => m.get key) := by
  induction results generalizing m with
  | nil =>
    simp only [setApplicability, Res.ok.injEq] at h
    subst h
    rfl
  | cons first rest ih =>
    cases first with
    | none => simp [setApplicability] at h
    | some result =>
      cases hrule : result.RuleID with
      | none => simp [setApplicability, hrule] at h
      | some ruleId =>
        cases hname : getVulnerabilityName ruleId with
        | none => simp [setApplicability, hrule, hname] at h
        | some name =>
          rw [setApplicability_step m result ruleId name rest hrule hname] at h
          rw [ih _ h, lastVerdict]
          have hrn : resultName (some result) = some name := by
            simp [resultName, hrule, hname]
          cases hl : lastVerdict key rest with
          | some v => rfl
          | none =>
            simp only [hrn, GoMap.get_set]
            by_cases hk : key = name
            · simp [hk]
            · have hk' : ¬ (name = key) := fun hc => hk hc.symm
              simp [hk, hk']

theorem lastVerdict_eq_none (name : String) (results : List (Option SarifResult)) :
    lastVerdict name results = none ↔ ∀ r ∈ results, resultName r ≠ some name := by
  induction results with
  | nil => simp [lastVerdict]
  | cons first rest ih =>
    rw [lastVerdict]
    cases hl : lastVerdict name rest with
    | some v =>
      have hex : ¬ ∀ r ∈ rest, resultName r ≠ some name := fun hc => by
        rw [ih.2 hc] at hl; cases hl
      simp only [reduceCtorEq, false_iff]
      intro hc
      exact hex (fun r hr => hc r (List.mem_cons_of_mem _ hr))
    | none =>
      have hrest := ih.1 hl
      by_cases hf : resultName first = some name
      · simp [hf]
      · simp only [hf, if_false, true_iff]
        intro r hr
        rcases List.mem_cons.1 hr with hr | hr
        · rw [hr]; exact hf
        · exact hrest r hr

theorem lastVerdict_yes_or_no (name v : String) (results : List (Option SarifResult))
    (h : lastVerdict name results = some v) : v = "Yes" ∨ v = "No" := by
  induction results with
  | nil => simp [lastVerdict] at h
  | cons first rest ih =>
    rw [lastVerdict] at h
    cases hl : lastVerdict name rest with
    | some v' =>
      rw [hl] at h
      simp only [Option.some.injEq] at h
      subst h
      exact ih hl
    | none =>
      rw [hl] at h
      by_cases hf : resultName first = some name
      · simp only [hf, if_true, Option.some.injEq] at h
        subst h
        cases first with
        | none => left; rfl
        | some r => unfold verdict; by_cases hp : r.Kind = some "pass" <;> simp [hp]
      · simp [hf] at h

theorem lastVerdict_of_last (name : String) (before after : List (Option SarifResult))
    (result : Option SarifResult) (hname : resultName result = some name)
    (hafter : ∀ r ∈ after, resultName r ≠ some name) :
    lastVerdict name (before ++ result :: after) = some (verdict result) := by
  induction before with
  | nil =>
    rw [List.nil_append, lastVerdict, (lastVerdict_eq_none name after).2 hafter]
    simp [hname]
  | cons first rest ih =>
    rw [List.cons_append, lastVerdict, ih]

theorem mem_appendCveIds (cveWhiteList : List String) (cves : List Cve) (id : String) :
    id ∈ appendCveIds cveWhiteList cves
      ↔ id ∈ cveWhiteList ∨ (id ≠ "" ∧ ∃ cve ∈ cves, cve.Id = id) := by
  induction cves generalizing cveWhiteList with
  | nil => simp [appendCveIds]
  | cons cve rest ih =>
    rw [appendCveIds]
    by_cases h : cve.Id = ""
    · rw [if_neg (by simpa using h), ih]
      constructor
      · rintro (h1 | ⟨hne, c, hc, hid⟩)
        · exact Or.inl h1
        · exact Or.inr ⟨hne, c, List.mem_cons_of_mem _ hc, hid⟩
      · rintro (h1 | ⟨hne, c, hc, hid⟩)
        · exact Or.inl h1
        · rcases List.mem_cons.1 hc with hc | hc
          · exfalso; apply hne; rw [← hid, hc, h]
          · exact Or.inr ⟨hne, c, hc, hid⟩
    · rw [if_pos (by simpa using h), ih]
      constructor
      · rintro (h1 | ⟨hne, c, hc, hid⟩)
        · rcases List.mem_append.1 h1 with h1 | h1
          · exact Or.inl h1
          · have hid : id = cve.Id := by simpa using h1
            exact Or.inr ⟨by rw [hid]; exact h, cve, List.mem_cons_self _ _, hid.symm⟩
        · exact Or.inr ⟨hne, c, List.mem_cons_of_mem _ hc, hid⟩
      · rintro (h1 | ⟨hne, c, hc, hid⟩)
        · exact Or.inl (List.mem_append_left _ h1)
        · rcases List.mem_cons.1 hc with hc | hc
          · left
            apply List.mem_append_right
            rw [← hid, hc]
            exact List.mem_singleton_self _
          · exact Or.inr ⟨hne, c, hc, hid⟩

theorem mem_appendVulnerabilities (cveWhiteList : List String)
    (vulnerabilities : List Vulnerability) (id : String) :
    id ∈ appendVulnerabilities cveWhiteList vulnerabilities
      ↔ id ∈ cveWhiteList
        ∨ (id ≠ "" ∧ ∃ vul ∈ vulnerabilities, ∃ cve ∈ vul.Cves, cve.Id = id) := by
  induction vulnerabilities generalizing cveWhiteList with
  | nil => simp [appendVulnerabilities]
  | cons vul rest ih =>
    rw [appendVulnerabilities, ih, mem_appendCveIds]
    constructor
    · rintro ((h1 | ⟨hne, c, hc, hid⟩) | ⟨hne, v, hv, c, hc, hid⟩)
      · exact Or.inl h1
      · exact Or.inr ⟨hne, vul, List.mem_cons_self _ _, c, hc, hid⟩
      · exact Or.inr ⟨hne, v, List.mem_cons_of_mem _ hv, c, hc, hid⟩
    · rintro (h1 | ⟨hne, v, hv, c, hc, hid⟩)
      · exact Or.inl (Or.inl h1)
      · rcases List.mem_cons.1 hv with hv | hv
        · exact Or.inl (Or.inr ⟨hne, c, by rw [← hv]; exact hc, hid⟩)
        · exact Or.inr ⟨hne, v, hv, c, hc, hid⟩

theorem mem_createCveList (a : ApplicabilityScanManager) (id : String) :
    id ∈ createCveList a
      ↔ id ≠ "" ∧ ∃ vul ∈ a.xrayVulnerabilities, ∃ cve ∈ vul.Cves, cve.Id = id := by
  unfold createCveList
  rw [mem_appendVulnerabilities]
  simp

/-- The map `parseResults` leaves when it succeeds. -/
theorem parseResults_ok (sarifOpen : String → Except GoError Report)
    (a a' : ApplicabilityScanManager) (report : Report)
    (fullList : List (Option SarifResult))
    (hopen : sarifOpen a.resultsFileName = .ok report)
    (hruns : fullVulnerabilitiesList report = some fullList)
    (hok : parseResults sarifOpen a = (.ok (), a')) :
    setApplicability (setUnknown a.applicabilityScannerResults (createCveList a)) fullList
      = .ok a'.applicabilityScannerResults := by
  unfold parseResults at hok
  simp only [hopen, hruns] at hok
  cases hs : setApplicability (setUnknown a.applicabilityScannerResults (createCveList a))
      fullList with
  | ok m =>
    rw [hs] at hok
    simp only [Prod.mk.injEq, true_and] at hok
    rw [← hok]
  | error e => rw [hs] at hok; simp at hok
  | panic msg => rw [hs] at hok; simp at hok

/-- The map `parseResults` leaves when it succeeds, in terms of the list of results its
second loop ran over. -/
theorem parseResults_map_of_list (sarifOpen : String → Except GoError Report)
    (a a' : ApplicabilityScanManager) (report : Report)
    (fullList : List (Option SarifResult))
    (hopen : sarifOpen a.resultsFileName = .ok report)
    (hruns : fullVulnerabilitiesList report = some fullList)
    (hok : parseResults sarifOpen a = (.ok (), a')) :
    (∀ id, id ∈ createCveList a
        ↔ id ≠ "" ∧ ∃ vul ∈ a.xrayVulnerabilities, ∃ cve ∈ vul.Cves, cve.Id = id)
    ∧ (∀ cve ∈ createCveList a, (a'.applicabilityScannerResults.get cve).isSome = true)
    ∧ (∀ r ∈ fullList, ∃ name, resultName r = some name
        ∧ (a'.applicabilityScannerResults.get name).isSome = true)
    ∧ (∀ cve ∈ createCveList a,
        a'.applicabilityScannerResults.get cve = some "unknown"
          ↔ ∀ r ∈ fullList, resultName r ≠ some cve)
    ∧ (∀ (before after : List (Option SarifResult)) (result : SarifResult) (name : String),
        fullList = before ++ some result :: after →
        resultName (some result) = some name →
        (∀ r ∈ after, resultName r ≠ some name) →
        a'.applicabilityScannerResults.get name
          = some (if result.Kind = some "pass" then "No" else "Yes"))
    ∧ (a.applicabilityScannerResults = [] →
        ∀ key, (a'.applicabilityScannerResults.get key).isSome = true
          ↔ key ∈ createCveList a ∨ ∃ r ∈ fullList, resultName r = some key) := by
  have hloop := parseResults_ok sarifOpen a a' report fullList hopen hruns hok
  have hget : ∀ key, a'.applicabilityScannerResults.get key
      = (match lastVerdict key fullList with
        | some v => some v
        | none => if key ∈ createCveList a then some "unknown"
            else a.applicabilityScannerResults.get key) := by
    intro key
    rw [get_setApplicability _ _ fullList key hloop, get_setUnknown]
  have hnames := resultName_of_ok _ _ fullList hloop
  refine ⟨mem_createCveList a, ?_, ?_, ?_, ?_, ?_⟩
  · intro cve hcve
    rw [hget]
    cases lastVerdict cve fullList <;> simp [hcve]
  · intro r hr
    obtain ⟨name, hname⟩ := hnames r hr
    refine ⟨name, hname, ?_⟩
    rw [hget]
    cases hl : lastVerdict name fullList with
    | some v => rfl
    | none => exact absurd hname ((lastVerdict_eq_none name fullList).1 hl r hr)
  · intro cve hcve
    rw [hget, ← lastVerdict_eq_none]
    cases hl : lastVerdict cve fullList with
    | none => simp [hcve]
    | some v =>
      rcases lastVerdict_yes_or_no cve v fullList hl with hv | hv <;> simp [hv]
  · intro before after result name hlist hname hafter
    rw [hget, hlist, lastVerdict_of_last name before after (some result) hname hafter]
    rfl
  · intro hempty key
    rw [hget, hempty]
    cases hl : lastVerdict key fullList with
    | some v =>
      have hex : ¬ ∀ r ∈ fullList, resultName r ≠ some key := fun hc => by
        rw [(lastVerdict_eq_none key fullList).2 hc] at hl; cases hl
      have hex' : ∃ r ∈ fullList, resultName r = some key := by
        by_contra hno
        exact hex (fun r hr hc => hno ⟨r, hr, hc⟩)
      simp [hex']
    | none =>
      have hno := (lastVerdict_eq_none key fullList).1 hl
      have hno' : ¬ ∃ r ∈ fullList, resultName r = some key :=
        fun ⟨r, hr, hc⟩ => hno r hr hc
      by_cases hk : key ∈ createCveList a
      · simp [hk]
      · simp only [hk, if_false, false_or]
        constructor
        · intro hsome; simp [GoMap.get] at hsome
        · intro hc; exact absurd hc hno'

/-- What `parseResults` takes as the list of results, in terms of the runs of the report:
nothing when there is no run, the results of the first run otherwise, whatever the later
runs hold. -/
theorem fullVulnerabilitiesList_of_runs (report : Report) :
    (report.Runs = [] → fullVulnerabilitiesList report = some [])
    ∧ (∀ firstRun others, report.Runs = some firstRun :: others →
        fullVulnerabilitiesList report = some firstRun.Results)
    ∧ (∀ others, report.Runs = none :: others → fullVulnerabilitiesList report = none) := by
  refine ⟨?_, ?_, ?_⟩
  · intro h; simp [fullVulnerabilitiesList, h]
  · intro firstRun others h; simp [fullVulnerabilitiesList, h]
  · intro others h; simp [fullVulnerabilitiesList, h]

theorem parseResults_of_nil_run (sarifOpen : String → Except GoError Report)
    (a : ApplicabilityScanManager) (report : Report) (others : List (Option Run))
    (hopen : sarifOpen a.resultsFileName = .ok report)
    (hruns : report.Runs = none :: others) :
    (parseResults sarifOpen a).1 = .panic "nil pointer dereference" := by
  unfold parseResults
  simp only [hopen, (fullVulnerabilitiesList_of_runs report).2.2 others hruns]

/-! ## C18 -/

/-- C18: after `parseResults` succeeds on a report, the results map holds every id
`createCveList` returns, which are exactly the non-empty CVE ids of the Xray
vulnerabilities, and the name taken from every SARIF result of the first run of the
report, `report.Runs[0]`, whatever the later runs hold; a CVE id maps to `unknown` if and
only if no result of the first run carries it as its name (with no run at all, every CVE
id maps to `unknown`); a name carried by results of the first run maps to the verdict of
the last of them carrying it, `No` when that result has kind `pass` and `Yes` otherwise,
an absent kind included; starting from the empty map, the map holds nothing else, so no
key comes from a later run. -/
theorem C18_parse_results_map (sarifOpen : String → Except GoError Report)
    (a a' : ApplicabilityScanManager) (report : Report)
    (hopen : sarifOpen a.resultsFileName = .ok report)
    (hok : parseResults sarifOpen a = (.ok (), a')) :
    (∀ id, id ∈ createCveList a
        ↔ id ≠ "" ∧ ∃ vul ∈ a.xrayVulnerabilities, ∃ cve ∈ vul.Cves, cve.Id = id)
    ∧ (∀ cve ∈ createCveList a, (a'.applicabilityScannerResults.get cve).isSome = true)
    ∧ (∀ others, report.Runs ≠ none :: others)
    ∧ (report.Runs = [] →
        (∀ cve ∈ createCveList a, a'.applicabilityScannerResults.get cve = some "unknown")
        ∧ (a.applicabilityScannerResults = [] →
            ∀ key, (a'.applicabilityScannerResults.get key).isSome = true
              ↔ key ∈ createCveList a))
    ∧ (∀ (firstRun : Run) (others : List (Option Run)),
        report.Runs = some firstRun :: others →
        (∀ r ∈ firstRun.Results, ∃ name, resultName r = some name
          ∧ (a'.applicabilityScannerResults.get name).isSome = true)
        ∧ (∀ cve ∈ createCveList a,
            a'.applicabilityScannerResults.get cve = some "unknown"
              ↔ ∀ r ∈ firstRun.Results, resultName r ≠ some cve)
        ∧ (∀ (before after : List (Option SarifResult)) (result : SarifResult)
            (name : String),
            firstRun.Results = before ++ some result :: after →
            resultName (some result) = some name →
            (∀ r ∈ after, resultName r ≠ some name) →
            a'.applicabilityScannerResults.get name
              = some (if result.Kind = some "pass" then "No" else "Yes"))
        ∧ (a.applicabilityScannerResults = [] →
            ∀ key, (a'.applicabilityScannerResults.get key).isSome = true
              ↔ key ∈ createCveList a ∨ ∃ r ∈ firstRun.Results, resultName r = some key)) := by
  refine ⟨mem_createCveList a, ?_, ?_, ?_, ?_⟩
  · intro cve hcve
    cases hruns : fullVulnerabilitiesList report with
    | none =>
      unfold parseResults at hok
      simp [hopen, hruns] at hok
    | some fullList =>
      exact (parseResults_map_of_list sarifOpen a a' report fullList hopen hruns hok).2.1
        cve hcve
  · intro others hruns
    have hp := parseResults_of_nil_run sarifOpen a report others hopen hruns
    rw [hok] at hp
    cases hp
  · intro hruns
    have h := parseResults_map_of_list sarifOpen a a' report [] hopen
      ((fullVulnerabilitiesList_of_runs report).1 hruns) hok
    constructor
    · intro cve hcve
      exact (h.2.2.2.1 cve hcve).2 (fun r hr => by cases hr)
    · intro hempty key
      rw [h.2.2.2.2.2 hempty key]
      constructor
      · rintro (hk | ⟨r, hr, _⟩)
        · exact hk
        · cases hr
      · intro hk; exact Or.inl hk
  · intro firstRun others hruns
    have h := parseResults_map_of_list sarifOpen a a' report firstRun.Results hopen
      ((fullVulnerabilitiesList_of_runs report).2.1 firstRun others hruns) hok
    exact ⟨h.2.2.1, h.2.2.2.1, h.2.2.2.2.1, h.2.2.2.2.2⟩

/-- C18, on a report with two runs: in the first run `CVE-2021-1` is named twice and last
with kind `pass`, so it maps to `No`, although the second run names it as applicable;
`CVE-2021-2` is named by no result of the first run and maps to `unknown`, although the
second run names it; `CVE-2021-9` is named by a result of the first run without a kind
and maps to `Yes`. -/
theorem C18_parse_results_map_witness :
    (parseResults (fun _ => .ok twoRunReport) exampleManager).1 = .ok ()
    ∧ createCveList exampleManager = ["CVE-2021-1", "CVE-2021-2"]
    ∧ (parseResults (fun _ => .ok twoRunReport)
        exampleManager).2.applicabilityScannerResults.get "CVE-2021-1" = some "No"
    ∧ (parseResults (fun _ => .ok twoRunReport)
        exampleManager).2.applicabilityScannerResults.get "CVE-2021-2" = some "unknown"
    ∧ (parseResults (fun _ => .ok twoRunReport)
        exampleManager).2.applicabilityScannerResults.get "CVE-2021-9" = some "Yes"
    ∧ (∀ key, ((parseResults (fun _ => .ok twoRunReport)
          exampleManager).2.applicabilityScannerResults.get key).isSome = true
        ↔ key ∈ createCveList exampleManager
          ∨ ∃ r ∈ [some ⟨some "applic_CVE-2021-1", none⟩,
              some ⟨some "applic_CVE-2021-9_x", none⟩,
              (some ⟨some "applic_CVE-2021-1", some "pass"⟩ : Option SarifResult)],
            resultName r = some key) := by
  have hok : parseResults (fun _ => .ok twoRunReport) exampleManager
      = (.ok (), (parseResults (fun _ => .ok twoRunReport) exampleManager).2) := by decide
  have h := (C18_parse_results_map (fun _ => .ok twoRunReport) exampleManager _ twoRunReport
    rfl hok).2.2.2.2
    ⟨[some ⟨some "applic_CVE-2021-1", none⟩, some ⟨some "applic_CVE-2021-9_x", none⟩,
      some ⟨some "applic_CVE-2021-1", some "pass"⟩]⟩
    [some ⟨[some ⟨some "applic_CVE-2021-2", none⟩, some ⟨some "applic_CVE-2021-1", none⟩]⟩]
    rfl
  refine ⟨by decide, by decide, ?_, ?_, ?_, ?_⟩
  · exact h.2.2.1 [some ⟨some "applic_CVE-2021-1", none⟩,
      some ⟨some "applic_CVE-2021-9_x", none⟩] [] ⟨some "applic_CVE-2021-1", some "pass"⟩
      "CVE-2021-1" rfl (by decide) (by decide)
  · exact (h.2.1 "CVE-2021-2" (by decide)).2 (by decide)
  · exact h.2.2.1 [some ⟨some "applic_CVE-2021-1", none⟩] [some ⟨some "applic_CVE-2021-1",
      some "pass"⟩] ⟨some "applic_CVE-2021-9_x", none⟩ "CVE-2021-9" rfl (by decide) (by decide)
  · exact h.2.2.2 rfl

/-! ## C19 -/

theorem splitUnderscore_ne_nil (text : List Char) : splitUnderscore text ≠ [] := by
  cases text with
  | nil => simp [splitUnderscore]
  | cons c cs =>
    rw [splitUnderscore]
    by_cases h : c = '_'
    · simp [h]
    · rw [if_neg h]
      cases splitUnderscore cs <;> simp

theorem splitUnderscore_length (text : List Char) :
    (splitUnderscore text).length = text.count '_' + 1 := by
  induction text with
  | nil => rfl
  | cons c cs ih =>
    rw [splitUnderscore]
    by_cases h : c = '_'
    · rw [if_pos h, h, List.length_cons, ih, List.count_cons_self]
    · rw [if_neg h, List.count_cons_of_ne (fun hc => h hc.symm)]
      cases hs : splitUnderscore cs with
      | nil => exact absurd hs (splitUnderscore_ne_nil cs)
      | cons first rest => rw [← ih, hs]; rfl

theorem splitUnderscore_of_no_underscore (text : List Char) (h : '_' ∉ text) :
    splitUnderscore text = [text] := by
  induction text with
  | nil => rfl
  | cons c cs ih =>
    have hc : c ≠ '_' := fun hc => h (by rw [hc]; exact List.mem_cons_self _ _)
    have hcs : '_' ∉ cs := fun hm => h (List.mem_cons_of_mem _ hm)
    rw [splitUnderscore, if_neg hc, ih hcs]

theorem splitUnderscore_append (first rest : List Char) (h : '_' ∉ first) :
    splitUnderscore (first ++ '_' :: rest) = first :: splitUnderscore rest := by
  induction first with
  | nil => simp [splitUnderscore]
  | cons c cs ih =>
    have hc : c ≠ '_' := fun hc => h (by rw [hc]; exact List.mem_cons_self _ _)
    have hcs : '_' ∉ cs := fun hm => h (List.mem_cons_of_mem _ hm)
    rw [List.cons_append, splitUnderscore, if_neg hc, ih hcs]

theorem getVulnerabilityName_isSome (sarifRuleId : String) :
    (getVulnerabilityName sarifRuleId).isSome = true ↔ '_' ∈ sarifRuleId.data := by
  unfold getVulnerabilityName Split
  rw [Option.isSome_iff_exists]
  constructor
  · rintro ⟨x, hx⟩
    have hlt : 1 < ((splitUnderscore sarifRuleId.data).map String.mk).length := by
      by_contra hge
      rw [List.getElem?_eq_none (by omega)] at hx
      cases hx
    rw [List.length_map, splitUnderscore_length] at hlt
    exact List.count_pos_iff.1 (by omega)
  · intro hmem
    have hpos : 0 < sarifRuleId.data.count '_' := List.count_pos_iff.2 hmem
    have hlt : 1 < ((splitUnderscore sarifRuleId.data).map String.mk).length := by
      rw [List.length_map, splitUnderscore_length]; omega
    exact ⟨_, List.getElem?_eq_getElem hlt⟩

theorem getVulnerabilityName_of_parts (first name : String) (rest : List Char)
    (hfirst : '_' ∉ first.data) (hname : '_' ∉ name.data)
    (hrest : rest = [] ∨ ∃ more, rest = '_' :: more) :
    getVulnerabilityName ⟨first.data ++ '_' :: (name.data ++ rest)⟩ = some name := by
  unfold getVulnerabilityName Split
  simp only
  rw [splitUnderscore_append first.data _ hfirst]
  rcases hrest with h | ⟨more, h⟩
  · rw [h, List.append_nil, splitUnderscore_of_no_underscore _ hname]
    rfl
  · rw [h, splitUnderscore_append name.data more hname]
    simp

theorem setApplicability_panics (m : GoMap) (results : List (Option SarifResult))
    (h : ∃ r ∈ results, resultName r = none) :
    ∃ msg, setApplicability m results = .panic msg := by
  induction results generalizing m with
  | nil => obtain ⟨r, hr, _⟩ := h; cases hr
  | cons first rest ih =>
    cases first with
    | none => exact ⟨_, rfl⟩
    | some result =>
      cases hrule : result.RuleID with
      | none => exact ⟨"nil pointer dereference", by simp [setApplicability, hrule]⟩
      | some ruleId =>
        cases hname : getVulnerabilityName ruleId with
        | none => exact ⟨"index out of range", by simp [setApplicability, hrule, hname]⟩
        | some name =>
          rw [setApplicability_step m result ruleId name rest hrule hname]
          apply ih
          obtain ⟨r, hr, hnone⟩ := h
          rcases List.mem_cons.1 hr with hr | hr
          · rw [hr] at hnone
            simp [resultName, hrule, hname] at hnone
          · exact ⟨r, hr, hnone⟩

/-- C19: `getVulnerabilityName` returns a name exactly for the rule ids that contain an
underscore. For such an id it returns the text between the first underscore and the
second one, or the end of the id when there is no second one. For an id without an
underscore the split has the id as its only element, element 1 does not exist, and
`parseResults` ends in a panic on any first run that holds a result with such an id. -/
theorem C19_vulnerability_name (sarifRuleId : String) :
    ((getVulnerabilityName sarifRuleId).isSome = true ↔ '_' ∈ sarifRuleId.data)
    ∧ (∀ first name : String, sarifRuleId = first ++ "_" ++ name →
        '_' ∉ first.data → '_' ∉ name.data →
        getVulnerabilityName sarifRuleId = some name)
    ∧ (∀ first name rest : String, sarifRuleId = first ++ "_" ++ name ++ "_" ++ rest →
        '_' ∉ first.data → '_' ∉ name.data →
        getVulnerabilityName sarifRuleId = some name)
    ∧ ('_' ∉ sarifRuleId.data →
        getVulnerabilityName sarifRuleId = none
        ∧ Split sarifRuleId = [sarifRuleId]
        ∧ ∀ (sarifOpen : String → Except GoError Report) (a : ApplicabilityScanManager)
            (report : Report) (fullList : List (Option SarifResult)) (kind : Option String),
            sarifOpen a.resultsFileName = .ok report →
            fullVulnerabilitiesList report = some fullList →
            some ⟨some sarifRuleId, kind⟩ ∈ fullList →
            ∃ msg, (parseResults sarifOpen a).1 = .panic msg) := by
  refine ⟨getVulnerabilityName_isSome sarifRuleId, ?_, ?_, ?_⟩
  · intro first name hid hfirst hname
    have h := getVulnerabilityName_of_parts first name [] hfirst hname (Or.inl rfl)
    rw [hid]
    have hdata : first ++ "_" ++ name = ⟨first.data ++ '_' :: (name.data ++ [])⟩ := by
      apply String.ext
      simp [String.data_append]
    rw [hdata]
    exact h
  · intro first name rest hid hfirst hname
    have h := getVulnerabilityName_of_parts first name ('_' :: rest.data) hfirst hname
      (Or.inr ⟨_, rfl⟩)
    rw [hid]
    have hdata : first ++ "_" ++ name ++ "_" ++ rest
        = ⟨first.data ++ '_' :: (name.data ++ '_' :: rest.data)⟩ := by
      apply String.ext
      simp [String.data_append]
    rw [hdata]
    exact h
  · intro hno
    have hnone : getVulnerabilityName sarifRuleId = none := by
      cases hg : getVulnerabilityName sarifRuleId with
      | none => rfl
      | some x =>
        exact absurd ((getVulnerabilityName_isSome sarifRuleId).1 (by rw [hg]; rfl)) hno
    refine ⟨hnone, ?_, ?_⟩
    · unfold Split
      rw [splitUnderscore_of_no_underscore _ hno]
      rfl
    · intro sarifOpen a report fullList kind hopen hruns hmem
      obtain ⟨msg, hp⟩ := setApplicability_panics
        (setUnknown a.applicabilityScannerResults (createCveList a)) fullList
        ⟨_, hmem, by simp [resultName, hnone]⟩
      refine ⟨msg, ?_⟩
      unfold parseResults
      simp only [hopen, hruns, hp]

/-- C19, on examples: the name of `applic_CVE-2021-1` is `CVE-2021-1`, the name of
`applic_CVE-2021-9_x` is `CVE-2021-9`, and `parseResults` panics on a result with the
rule id `CVE-2021-1`. -/
theorem C19_vulnerability_name_witness :
    getVulnerabilityName "applic_CVE-2021-1" = some "CVE-2021-1"
    ∧ getVulnerabilityName "applic_CVE-2021-9_x" = some "CVE-2021-9"
    ∧ '_' ∉ "CVE-2021-1".data
    ∧ getVulnerabilityName "CVE-2021-1" = none
    ∧ ∃ msg, (parseResults (fun _ => .ok noUnderscoreReport) exampleManager).1 = .panic msg := by
  have hno : '_' ∉ "CVE-2021-1".data := by decide
  refine ⟨?_, ?_, hno, ((C19_vulnerability_name "CVE-2021-1").2.2.2 hno).1, ?_⟩
  · exact (C19_vulnerability_name "applic_CVE-2021-1").2.1 "applic" "CVE-2021-1" (by decide)
      (by decide) (by decide)
  · exact (C19_vulnerability_name "applic_CVE-2021-9_x").2.2.1 "applic" "CVE-2021-9" "x"
      (by decide) (by decide) (by decide)
  · exact ((C19_vulnerability_name "CVE-2021-1").2.2.2 hno).2.2 (fun _ => .ok noUnderscoreReport)
      exampleManager noUnderscoreReport [some ⟨some "CVE-2021-1", none⟩] none rfl rfl
      (by decide)

end Jas
